import Mathlib

/-!
# SemUPS bulls-and-cows server

A shallow embedding of `server/src/server.cpp`, `server.h` and `messages.h`,
followed by theorems about the guess protocol, the disconnect handling and the
session assignment.

Conventions of the embedding:

* `std::string` is a list of characters (`Str`), one `Char` per byte.
* `std::map<int, V>` is an association list kept in ascending key order by
  `Assoc.insert`; `std::unordered_map<std::string, int>` is an association list
  with unique keys (`Assoc.set`). `operator[]` is `Assoc.index`, which inserts
  the default value when the key is absent, as the C++ containers do.
* The globals, the function-local static `wrongTurnAttempts`, the descriptor
  set `master_set` and `fd_max` are fields of `ServerState`, threaded
  explicitly. Every `send` call is appended to `sent` (descriptor and payload),
  every `close` call to `closed`.
* Console logging (`std::cout`, `logSessionStatus`) has no effect on the state
  and is left out.
* The random generator of `generateSecretNumber` is the list of the draws it
  returns, each in `0..9`.
-/

namespace SemUPS

/-- Byte string, the embedding of `std::string`. -/
abbrev Str := List Char

/-! ## Containers -/

namespace Assoc

/-- Value stored under `k`, the embedding of `m.find(k)`. -/
def find {κ α : Type} [DecidableEq κ] : List (κ × α) → κ → Option α
  | [], _ => none
  | (k', v) :: rest, k => if k' = k then some v else find rest k

/-- Removal of key `k`, the embedding of `m.erase(k)`. -/
def erase {κ α : Type} [DecidableEq κ] (m : List (κ × α)) (k : κ) : List (κ × α) :=
  m.filter (fun p => !decide (p.1 = k))

/-- Assignment `m[k] = v` on a `std::map<int, V>`: the entry is replaced when
the key is present and inserted at its place in ascending key order otherwise. -/
def insert {α : Type} : List (Int × α) → Int → α → List (Int × α)
  | [], k, v => [(k, v)]
  | (k', v') :: rest, k, v =>
    if k < k' then (k, v) :: (k', v') :: rest
    else if k = k' then (k, v) :: rest
    else (k', v') :: insert rest k v

/-- Read access `m[k]` on a `std::map<int, V>`: returns the stored value, or
inserts and returns the default value when the key is absent. -/
def index {α : Type} (m : List (Int × α)) (k : Int) (dflt : α) : α × List (Int × α) :=
  match find m k with
  | some v => (v, m)
  | none => (dflt, insert m k dflt)

/-- Assignment `m[k] = v` on a `std::unordered_map`: the entry is replaced when
the key is present and added otherwise. -/
def set {κ α : Type} [DecidableEq κ] : List (κ × α) → κ → α → List (κ × α)
  | [], k, v => [(k, v)]
  | (k', v') :: rest, k, v =>
    if k' = k then (k, v) :: rest else (k', v') :: set rest k v

end Assoc

/-! ## messages.h -/

def SUCCESSFUL_CONNECTION : Str := "SC\n".toList

def OPPONENT_DISCONNECTED : Str := "OD\n".toList

def NICKNAME_IN_USE : Str := "NIU\n".toList

def NICKNAME_SET : Str := "NS\n".toList

def WRONG_TURN : Str := "WT\n".toList

def INVALID_GUESS : Str := "IG\n".toList

def WIN_MSG : Str := "WIN\n".toList

def LOST_MSG : Str := "LOST\n".toList

def ENDGAME_MSG : Str := "EG\n".toList

def UR_TURN : Str := "UT\n".toList

def OPP_TURN : Str := "OT\n".toList

def GAME_START : Str := "SG\n".toList

def WRONG_FORMAT : Str := "WF\n".toList

/-! ## server.h and the globals of server.cpp -/

def MAX_NICKNAME_LENGTH : Nat := 20

/-- Record `GameSession` of server.h; `-1` marks a vacant slot. -/
structure GameSession where
  player1 : Int := -1
  player2 : Int := -1
  secretNumber : Str := []
  currentTurn : Int := -1
  moveHistory : List Str := []
deriving DecidableEq, Repr

/-- Enumeration `GuessValidationCode` of server.cpp. -/
inductive GuessValidationCode where
  | VALID_GUESS
  | ERROR_NO_G_PREFIX
  | ERROR_LENGTH
  | ERROR_NOT_DIGITS
  | ERROR_NOT_UNIQUE
deriving DecidableEq, Repr

/-- Integer value of a validation code, as declared in the enumeration. -/
def GuessValidationCode.toInt : GuessValidationCode → Int
  | .VALID_GUESS => 0
  | .ERROR_NO_G_PREFIX => -1
  | .ERROR_LENGTH => -2
  | .ERROR_NOT_DIGITS => -3
  | .ERROR_NOT_UNIQUE => -4

/-- Mutable state of the server process. -/
structure ServerState where
  server_socket : Int := 3
  clientNicknames : List (Int × Str) := []
  clientSessions : List (Int × Int) := []
  gameSessions : List (Int × GameSession) := []
  disconnectedClients : List (Str × Int) := []
  wrongTurnAttempts : List (Int × Int) := []
  master_set : List Int := []
  fd_max : Int := 3
  sent : List (Int × Str) := []
  closed : List Int := []
deriving DecidableEq, Repr

/-! ## Pure helpers -/

/-- Embedding of `Server::trimTrailingNewline`. -/
def trimTrailingNewline (message : Str) : Str :=
  if message.getLast? = some '\n' then message.dropLast else message

/-- Embedding of `Server::sanitizeNickname`. -/
def sanitizeNickname (raw : Str) : Str :=
  let nickname := if raw.getLast? = some '\n' then raw.dropLast else raw
  nickname.take MAX_NICKNAME_LENGTH

/-- Substring search: `hay.find(pat) != npos`. -/
def containsSubstring (pat : Str) : Str → Bool
  | [] => pat.isEmpty
  | c :: rest => pat.isPrefixOf (c :: rest) || containsSubstring pat rest

/-- Embedding of `Server::isPingMessage`. -/
def isPingMessage (message : Str) : Bool :=
  containsSubstring "PING".toList message

/-- Embedding of `Server::isNicknameInUse`. -/
def isNicknameInUse (clientNicknames : List (Int × Str)) (nickname : Str) : Bool :=
  clientNicknames.any (fun pair => decide (pair.2 = nickname))

/-- Embedding of `Server::isPlayerTurn`. -/
def isPlayerTurn (client_socket : Int) (session : GameSession) : Bool :=
  decide (client_socket = session.currentTurn)

/-- Embedding of `Server::isValidGuess`; the size of the `std::set<char>` is the
number of distinct characters. -/
def isValidGuess (guess : Str) : GuessValidationCode :=
  if guess.isEmpty ∨ guess.head? ≠ some 'G' then .ERROR_NO_G_PREFIX
  else
    let digitsPart := guess.drop 1
    if digitsPart.length ≠ 4 then .ERROR_LENGTH
    else if ¬ digitsPart.all Char.isDigit then .ERROR_NOT_DIGITS
    else if digitsPart.dedup.length ≠ 4 then .ERROR_NOT_UNIQUE
    else .VALID_GUESS

/-- Loop of `calculateBullsAndCows`: `n` iterations are left, `i` is the loop
index. `secret[i]` past the end of `secret` reads the terminator. -/
def bullsAndCowsLoop (guess secret : Str) : Nat → Nat → Nat × Nat → Nat × Nat
  | 0, _, acc => acc
  | n + 1, i, (bulls, cows) =>
    if guess.getD i (Char.ofNat 0) = secret.getD i (Char.ofNat 0) then
      bullsAndCowsLoop guess secret n (i + 1) (bulls + 1, cows)
    else if guess.getD i (Char.ofNat 0) ∈ secret then
      bullsAndCowsLoop guess secret n (i + 1) (bulls, cows + 1)
    else
      bullsAndCowsLoop guess secret n (i + 1) (bulls, cows)

/-- Embedding of `calculateBullsAndCows`: the pair (bulls, cows). -/
def calculateBullsAndCows (guess secret : Str) : Nat × Nat :=
  bullsAndCowsLoop guess secret guess.length 0 (0, 0)

/-- Loop of `generateSecretNumber` over the draws of the generator; `none` when
the draws run out before four distinct digits were collected. -/
def generateSecretLoop : List Nat → Str → Option Str
  | [], number => if number.length < 4 then none else some number
  | d :: rest, number =>
    if number.length < 4 then
      let digit := Char.ofNat ('0'.toNat + d)
      if digit ∈ number then generateSecretLoop rest number
      else generateSecretLoop rest (number ++ [digit])
    else some number

/-- Embedding of `generateSecretNumber`. -/
def generateSecretNumber (draws : List Nat) : Option Str :=
  generateSecretLoop draws []

/-- Decimal rendering of a count, the embedding of `std::to_string`. -/
def to_string (n : Nat) : Str :=
  Nat.toDigits 10 n

/-- A string of 4 pairwise distinct decimal digits. -/
def FourDistinctDigits (s : Str) : Prop :=
  s.length = 4 ∧ (∀ c ∈ s, c.isDigit = true) ∧ s.Nodup

instance (s : Str) : Decidable (FourDistinctDigits s) := by
  unfold FourDistinctDigits
  infer_instance

/-! ## Sending and descriptor sets -/

/-- Embedding of `Server::sendMessage` and of the direct `send` calls: the call
is recorded in `sent`. -/
def sendMessage (socket : Int) (message : Str) (s : ServerState) : ServerState :=
  { s with sent := s.sent ++ [(socket, message)] }

/-- Embedding of `Server::sendToBothPlayers`. -/
def sendToBothPlayers (session : GameSession) (message : Str) (s : ServerState) :
    ServerState :=
  sendMessage session.player2 message (sendMessage session.player1 message s)

/-- Descriptor-set insertion `FD_SET(fd, &set)`. -/
def FD_SET (fd : Int) (set : List Int) : List Int :=
  if fd ∈ set then set else set ++ [fd]

/-- Descriptor-set removal `FD_CLR(fd, &set)`. -/
def FD_CLR (fd : Int) (set : List Int) : List Int :=
  set.filter (fun x => !decide (x = fd))

/-- The pair `FD_CLR(fd, &master_set); close(fd);` (in either order). -/
def closeSocket (fd : Int) (s : ServerState) : ServerState :=
  { s with master_set := FD_CLR fd s.master_set, closed := s.closed ++ [fd] }

/-! ## Disconnect handling -/

/-- Embedding of `Server::handleDisconnect`. -/
def handleDisconnect (client_socket : Int) (endgame : Bool) (s : ServerState) :
    ServerState :=
  match Assoc.find s.clientSessions client_socket with
  | none => s
  | some sessionId =>
    let (session, gs) := Assoc.index s.gameSessions sessionId {}
    let opponent_socket :=
      if session.player1 = client_socket then session.player2 else session.player1
    let sent :=
      if endgame = false ∧ opponent_socket ≠ -1 then
        s.sent ++ [(opponent_socket, OPPONENT_DISCONNECTED)]
      else s.sent
    let (nickname, cn) := Assoc.index s.clientNicknames client_socket []
    let dc :=
      if opponent_socket ≠ -1 then Assoc.set s.disconnectedClients nickname sessionId
      else s.disconnectedClients
    let session :=
      if session.player1 = client_socket then { session with player1 := -1 }
      else { session with player2 := -1 }
    let gs := Assoc.insert gs sessionId session
    let bothGone : Bool := decide (session.player1 = -1 ∧ session.player2 = -1)
    let gs := if bothGone then Assoc.erase gs sessionId else gs
    let dc := if bothGone then dc.filter (fun p => !decide (p.2 = sessionId)) else dc
    { s with
      clientNicknames := Assoc.erase cn client_socket
      clientSessions := Assoc.erase s.clientSessions client_socket
      gameSessions := gs
      disconnectedClients := dc
      sent := sent }

/-! ## Game messages -/

/-- Embedding of `Server::handleWinCondition`; `session` is the value behind the
reference at the time of the call. -/
def handleWinCondition (winner_socket : Int) (session : GameSession) (s : ServerState) :
    ServerState :=
  let opponent_socket :=
    if session.player1 = winner_socket then session.player2 else session.player1
  let s := sendMessage winner_socket WIN_MSG s
  let s := sendMessage opponent_socket LOST_MSG s
  let s := sendMessage winner_socket ENDGAME_MSG s
  let s := sendMessage opponent_socket ENDGAME_MSG s
  let s := handleDisconnect winner_socket true s
  handleDisconnect opponent_socket true s

/-- Embedding of `Server::switchPlayerTurn`: returns the updated session record
(the caller stores it back under its identity) and the state after the sends. -/
def switchPlayerTurn (session : GameSession) (s : ServerState) : GameSession × ServerState :=
  let session :=
    { session with
      currentTurn :=
        if session.currentTurn = session.player1 then session.player2 else session.player1 }
  let current_player := session.currentTurn
  let opponent_player :=
    if current_player = session.player1 then session.player2 else session.player1
  let s := sendMessage current_player UR_TURN s
  if opponent_player ≠ -1 then (session, sendMessage opponent_player OPP_TURN s)
  else (session, s)

/-- The result line of a valid guess: the guess text, `B`, the bull count, `C`,
the cow count and a line feed. -/
def guessResponse (procMessage secretNumber : Str) : Str :=
  let result := calculateBullsAndCows (procMessage.drop 1) secretNumber
  procMessage ++ "B".toList ++ to_string result.1 ++ "C".toList ++ to_string result.2
    ++ "\n".toList

/-- Embedding of `Server::handleGameMessage`. -/
def handleGameMessage (client_socket : Int) (rawMessage : Str) (s : ServerState) :
    ServerState :=
  let procMessage := trimTrailingNewline rawMessage
  let (sessionId, cs) := Assoc.index s.clientSessions client_socket 0
  let (session, gs) := Assoc.index s.gameSessions sessionId {}
  let s := { s with clientSessions := cs, gameSessions := gs }
  if isPlayerTurn client_socket session = false ∨ session.player1 = -1
      ∨ session.player2 = -1 then
    let (n, wt) := Assoc.index s.wrongTurnAttempts client_socket (0 : Int)
    let s := { s with wrongTurnAttempts := Assoc.insert wt client_socket (n + 1) }
    if n + 1 ≥ 3 then
      let s := sendMessage client_socket WRONG_FORMAT s
      let s := handleDisconnect client_socket false s
      let s := closeSocket client_socket s
      { s with wrongTurnAttempts := Assoc.erase s.wrongTurnAttempts client_socket }
    else
      sendMessage client_socket WRONG_TURN s
  else
    let s := { s with wrongTurnAttempts := Assoc.insert s.wrongTurnAttempts client_socket 0 }
    let validationCode := isValidGuess procMessage
    if validationCode ≠ .VALID_GUESS then
      if validationCode = .ERROR_NO_G_PREFIX then
        let s := sendMessage client_socket WRONG_FORMAT s
        let s := handleDisconnect client_socket false s
        closeSocket client_socket s
      else
        sendMessage client_socket INVALID_GUESS s
    else
      let result := calculateBullsAndCows (procMessage.drop 1) session.secretNumber
      let response := guessResponse procMessage session.secretNumber
      let session := { session with moveHistory := session.moveHistory ++ [response] }
      let s := { s with gameSessions := Assoc.insert s.gameSessions sessionId session }
      let s := sendToBothPlayers session response s
      if result.1 = 4 then
        handleWinCondition client_socket session s
      else
        let (session, s) := switchPlayerTurn session s
        { s with gameSessions := Assoc.insert s.gameSessions sessionId session }

/-! ## Session assignment and nickname setup -/

/-- Condition of the join scan in `assignClientToSession`: no reservation in
`disconnectedClients` points at the session, slot 1 is taken and slot 2 vacant. -/
def joinable (disconnectedClients : List (Str × Int)) (entry : Int × GameSession) : Bool :=
  !(disconnectedClients.any (fun disconnectedPair => decide (disconnectedPair.2 = entry.1)))
    && decide (entry.2.player1 ≠ -1) && decide (entry.2.player2 = -1)

/-- Embedding of `assignClientToSession`; `draws` feeds `generateSecretNumber`
when a session is created, and the result is `none` when that loop does not
finish on the draws. -/
def assignClientToSession (draws : List Nat) (client_socket : Int) (s : ServerState) :
    Option ServerState :=
  let (clientNickname, cn) := Assoc.index s.clientNicknames client_socket []
  let s := { s with clientNicknames := cn }
  match Assoc.find s.disconnectedClients clientNickname with
  | some sessionId =>
    let (session, gs) := Assoc.index s.gameSessions sessionId {}
    let session :=
      if session.player1 = -1 then { session with player1 := client_socket }
      else { session with player2 := client_socket }
    let s :=
      { s with
        gameSessions := Assoc.insert gs sessionId session
        clientSessions := Assoc.insert s.clientSessions client_socket sessionId
        disconnectedClients := Assoc.erase s.disconnectedClients clientNickname
        sent := s.sent ++ session.moveHistory.map (fun move => (client_socket, move)) }
    let currentTurnPlayer := session.currentTurn
    let s := sendMessage currentTurnPlayer UR_TURN s
    let opponentPlayer :=
      if currentTurnPlayer = session.player1 then session.player2 else session.player1
    if opponentPlayer ≠ -1 then some (sendMessage opponentPlayer OPP_TURN s) else some s
  | none =>
    match s.gameSessions.find? (joinable s.disconnectedClients) with
    | some (sessionId, session) =>
      let session := { session with player2 := client_socket }
      let s := { s with clientSessions := Assoc.insert s.clientSessions client_socket sessionId }
      let s := sendMessage session.player1 GAME_START s
      let s := sendMessage client_socket GAME_START s
      let session := { session with currentTurn := session.player1 }
      let s := { s with gameSessions := Assoc.insert s.gameSessions sessionId session }
      let s := sendMessage session.player1 UR_TURN s
      some (sendMessage client_socket OPP_TURN s)
    | none =>
      match generateSecretNumber draws with
      | none => none
      | some secret =>
        let newSessionId : Int := s.gameSessions.length
        let newSession : GameSession :=
          { player1 := client_socket, currentTurn := client_socket, secretNumber := secret }
        some
          { s with
            gameSessions := Assoc.insert s.gameSessions newSessionId newSession
            clientSessions := Assoc.insert s.clientSessions client_socket newSessionId }

/-- Embedding of `Server::handleNicknameSetup`. -/
def handleNicknameSetup (draws : List Nat) (client_socket : Int) (rawMessage : Str)
    (s : ServerState) : Option ServerState :=
  let nickname := sanitizeNickname rawMessage
  if nickname.isEmpty then some s
  else if isNicknameInUse s.clientNicknames nickname then
    some (sendMessage client_socket NICKNAME_IN_USE s)
  else
    let s := { s with clientNicknames := Assoc.insert s.clientNicknames client_socket nickname }
    let s := sendMessage client_socket NICKNAME_SET s
    assignClientToSession draws client_socket s

/-- Embedding of `Server::processClientMessage`. -/
def processClientMessage (draws : List Nat) (client_socket : Int) (message : Str)
    (s : ServerState) : Option ServerState :=
  if isPingMessage message then some s
  else
    let (nickname, cn) := Assoc.index s.clientNicknames client_socket []
    let s := { s with clientNicknames := cn }
    if nickname.isEmpty then handleNicknameSetup draws client_socket message s
    else some (handleGameMessage client_socket message s)

/-! ## Connections -/

/-- Embedding of `Server::handleNewConnection`, for the descriptor returned by
`accept` (`-1` when it failed). -/
def handleNewConnection (client_socket : Int) (s : ServerState) : ServerState :=
  if client_socket = -1 then s
  else
    let s := { s with master_set := FD_SET client_socket s.master_set }
    let s := if client_socket > s.fd_max then { s with fd_max := client_socket } else s
    let (nickname, cn) := Assoc.index s.clientNicknames client_socket []
    let cn := if nickname.isEmpty then Assoc.insert cn client_socket [] else cn
    sendMessage client_socket SUCCESSFUL_CONNECTION { s with clientNicknames := cn }

/-- Embedding of `Server::handleClientData`: `received` is `none` when `recv`
returned 0 or an error, and the text `std::string(buffer)` otherwise. -/
def handleClientData (draws : List Nat) (client_socket : Int) (received : Option Str)
    (s : ServerState) : Option ServerState :=
  match received with
  | none => some (handleDisconnect client_socket false (closeSocket client_socket s))
  | some message => processClientMessage draws client_socket message s

/-- What the environment can do to the server between two waits. -/
inductive Event where
  | connect (fd : Int)
  | data (fd : Int) (message : Str) (draws : List Nat)
  | hangup (fd : Int)
deriving DecidableEq, Repr

/-- When the environment can produce the event: `accept` returns a descriptor
that is not open, data and hang-ups come from open client descriptors, the text
built from the 256-byte buffer holds no terminator, and draws are digits. -/
def Event.enabled (s : ServerState) : Event → Bool
  | .connect fd => decide (0 ≤ fd) && decide (fd ∉ s.master_set)
  | .data fd message draws =>
    decide (fd ∈ s.master_set) && decide (fd ≠ s.server_socket)
      && decide (message.length < 256) && decide (Char.ofNat 0 ∉ message)
      && draws.all (fun d => decide (d ≤ 9))
  | .hangup fd => decide (fd ∈ s.master_set) && decide (fd ≠ s.server_socket)

/-- One readiness event handled by the event loop. -/
def step (s : ServerState) (e : Event) : Option ServerState :=
  if e.enabled s then
    match e with
    | .connect fd => some (handleNewConnection fd s)
    | .data fd message draws => handleClientData draws fd (some message) s
    | .hangup fd => handleClientData [] fd none s
  else none

/-- The events of a trace handled one after the other. -/
def run (s : ServerState) : List Event → Option ServerState
  | [] => some s
  | e :: es => (step s e).bind (fun s' => run s' es)

/-- State of the server when the event loop starts: only the listening socket
is in the descriptor set. -/
def initialState (server_socket : Int) : ServerState :=
  { server_socket := server_socket, master_set := [server_socket], fd_max := server_socket }

/-- States the server reaches from its start by handling events. -/
def Reachable (s : ServerState) : Prop :=
  ∃ (server_socket : Int) (es : List Event), 0 ≤ server_socket ∧
    run (initialState server_socket) es = some s

/-! ## Event loop -/

/-- Inactivity limit `USER_TIMEOUT`, in seconds. -/
def USER_TIMEOUT : Int := 30

/-- State of `Server::eventLoop`: the state of the server, which holds
`master_set` and `fd_max`, and the local map `lastActivity` from descriptors to
the time of their last activity. -/
structure LoopState where
  server : ServerState
  lastActivity : List (Int × Int) := []
deriving DecidableEq, Repr

/-- Sweep of `eventLoop` over `lastActivity` at clock reading `currentTime`:
an entry older than `USER_TIMEOUT` has its descriptor disconnected, removed
from the descriptor set and closed, and is erased. -/
def sweepInactive (currentTime : Int) (ls : LoopState) : LoopState :=
  ls.lastActivity.foldl
    (fun acc entry =>
      if currentTime - entry.2 > USER_TIMEOUT then
        { server := closeSocket entry.1 (handleDisconnect entry.1 false acc.server)
          lastActivity := Assoc.erase acc.lastActivity entry.1 }
      else acc)
    ls

/-- Branch of the descriptor loop for the listening socket, with the descriptor
returned by `accept`: `handleNewConnection(master_set, fd_max)` followed by
`lastActivity[fd_max] = time(nullptr)`. -/
def acceptReady (now : Int) (client_socket : Int) (ls : LoopState) : LoopState :=
  let s := handleNewConnection client_socket ls.server
  { server := s, lastActivity := Assoc.insert ls.lastActivity s.fd_max now }

/-- Branch of the descriptor loop for a client descriptor `i`:
`handleClientData(i, master_set)` followed by `lastActivity[i] = time(nullptr)`. -/
def clientReady (now : Int) (draws : List Nat) (i : Int) (received : Option Str)
    (ls : LoopState) : Option LoopState :=
  (handleClientData draws i received ls.server).map
    (fun s => { server := s, lastActivity := Assoc.insert ls.lastActivity i now })

/-- One iteration of the `while` loop in which one descriptor is ready and the
clock reads `now`: the sweep, then the branch of the ready descriptor. -/
def loopStep (now : Int) (ls : LoopState) (e : Event) : Option LoopState :=
  let ls := sweepInactive now ls
  if e.enabled ls.server then
    match e with
    | .connect fd => some (acceptReady now fd ls)
    | .data fd message draws => clientReady now draws fd (some message) ls
    | .hangup fd => clientReady now [] fd none ls
  else none

/-- Iterations of the loop, each with its clock reading and ready descriptor. -/
def loopRun (ls : LoopState) : List (Int × Event) → Option LoopState
  | [] => some ls
  | (now, e) :: rest => (loopStep now ls e).bind (fun ls' => loopRun ls' rest)

/-- State of the loop before its first iteration. -/
def initialLoopState (server_socket : Int) : LoopState :=
  { server := initialState server_socket }

/-! ## Vocabulary of the statements -/

/-- Wrong-turn counter of a client as `wrongTurnAttempts[client]` reads it:
zero when the client has no entry. -/
def wrongTurnCount (s : ServerState) (c : Int) : Int :=
  (Assoc.index s.wrongTurnAttempts c 0).1

/-- Turn violation as tested by `handleGameMessage`: the sender does not hold
the turn, or a slot of the session is vacant. -/
def TurnViolation (c : Int) (sess : GameSession) : Prop :=
  sess.currentTurn ≠ c ∨ sess.player1 = -1 ∨ sess.player2 = -1

/-- Handle in the other slot as `handleDisconnect` and `handleWinCondition`
compute it. -/
def opponentOf (c : Int) (sess : GameSession) : Int :=
  if sess.player1 = c then sess.player2 else sess.player1

/-- Session record after `handleDisconnect` vacated the slot of `c`. -/
def vacate (c : Int) (sess : GameSession) : GameSession :=
  if sess.player1 = c then { sess with player1 := -1 } else { sess with player2 := -1 }

/-- Descriptor an event is about. -/
def Event.fd : Event → Int
  | .connect fd => fd
  | .data fd _ _ => fd
  | .hangup fd => fd

/-- Session record after the rejoin branch of `assignClientToSession` put `c`
in a slot. -/
def rejoinSlot (c : Int) (sess : GameSession) : GameSession :=
  if sess.player1 = -1 then { sess with player1 := c } else { sess with player2 := c }

/-- Turn notifications sent by the rejoin branch of `assignClientToSession` for
the session record `r` it has just updated. -/
def rejoinTurnNotes (r : GameSession) : List (Int × Str) :=
  (r.currentTurn, UR_TURN) ::
    (if (if r.currentTurn = r.player1 then r.player2 else r.player1) ≠ -1 then
      [((if r.currentTurn = r.player1 then r.player2 else r.player1), OPP_TURN)]
    else [])

/-- The elements of a list in order of first occurrence, each kept once. -/
def distinctInOrder : List Char → List Char
  | [] => []
  | x :: xs => x :: (distinctInOrder xs).filter (fun y => !decide (y = x))

/-- Specification of the generated secret, in the words of the claim: the first
four distinct drawn digits in order of first occurrence. -/
def firstFourDistinct (draws : List Nat) : Str :=
  (distinctInOrder (draws.map (fun d => Char.ofNat ('0'.toNat + d)))).take 4

/-- No non-empty nickname is bound in `cn'` that was not bound to the same
descriptor in `cn`. -/
def NoNewNames (cn cn' : List (Int × Str)) : Prop :=
  ∀ (b : Int) (nick : Str), nick ≠ [] → Assoc.find cn' b = some nick →
    Assoc.find cn b = some nick

/-- Nicknames are unique among named clients: two descriptors bound to the same
non-empty nickname are the same descriptor. -/
def UniqueNicknames (cn : List (Int × Str)) : Prop :=
  ∀ (a b : Int) (nick : Str), Assoc.find cn a = some nick → Assoc.find cn b = some nick →
    nick ≠ [] → a = b

/-- Coherence of the registries, an invariant of the reachable states: nicknames
are unique; a client with a session association has a non-empty nickname; the
nickname of a connected client has no reservation; a session whose slot 1 is
vacant while slot 2 is occupied has a reservation pointing at it; the session
registry is in ascending order of identity; descriptors are not negative. -/
structure Coherent (s : ServerState) : Prop where
  unique : UniqueNicknames s.clientNicknames
  named : ∀ (c sid : Int), Assoc.find s.clientSessions c = some sid →
    ∃ nick, Assoc.find s.clientNicknames c = some nick ∧ nick ≠ []
  noLiveReservation : ∀ (c : Int) (nick : Str), Assoc.find s.clientNicknames c = some nick →
    nick ≠ [] → Assoc.find s.disconnectedClients nick = none
  reserved : ∀ (sid : Int) (sess : GameSession), Assoc.find s.gameSessions sid = some sess →
    sess.player1 = -1 → sess.player2 ≠ -1 →
      ∃ nick, Assoc.find s.disconnectedClients nick = some sid
  sorted : (s.gameSessions.map Prod.fst).Pairwise (fun a b => a < b)
  descriptors : ∀ fd ∈ s.master_set, 0 ≤ fd

/-- Exactly one of the two slots of the session is occupied. -/
def oneSlotOccupied (sess : GameSession) : Prop :=
  (sess.player1 ≠ -1 ∧ sess.player2 = -1) ∨ (sess.player1 = -1 ∧ sess.player2 ≠ -1)

/-- Some Reconnection Directory entry points at the session identity. -/
def reservedSession (disconnectedClients : List (Str × Int)) (sid : Int) : Prop :=
  ∃ entry ∈ disconnectedClients, entry.2 = sid

/-- Join candidate as the specification words it: a session of the registry
with exactly one occupied slot and no Reconnection Directory entry pointing at
it. -/
def joinCandidate (s : ServerState) (sid : Int) (sess : GameSession) : Prop :=
  Assoc.find s.gameSessions sid = some sess ∧ oneSlotOccupied sess ∧
    ¬ reservedSession s.disconnectedClients sid

/-- Seating of the players, an invariant of the reachable states: the client
in a slot of a session is associated with that session, and the two slots of a
session hold different clients. -/
structure Seated (s : ServerState) : Prop where
  seat : ∀ (sid : Int) (sess : GameSession) (x : Int),
    Assoc.find s.gameSessions sid = some sess → x ≠ -1 →
      sess.player1 = x ∨ sess.player2 = x → Assoc.find s.clientSessions x = some sid
  distinct : ∀ (sid : Int) (sess : GameSession), Assoc.find s.gameSessions sid = some sess →
    sess.player1 ≠ -1 → sess.player1 ≠ sess.player2

/-- Number of digits two strings have in common: the size of the intersection
of their sets of characters. -/
def commonDigits (a b : Str) : Nat :=
  (a.toFinset ∩ b.toFinset).card

/-- The connection handle has a non-empty nickname. -/
def Named (s : ServerState) (c : Int) : Prop :=
  ∃ nick, Assoc.find s.clientNicknames c = some nick ∧ nick ≠ []

/-- The connection handle has a session association, an entry in
`clientSessions`. -/
def Associated (s : ServerState) (c : Int) : Prop :=
  ∃ sid, Assoc.find s.clientSessions c = some sid

/-- Every named connection handle has a session association. -/
def NamedAssociated (s : ServerState) : Prop :=
  ∀ c, Named s c → Associated s c

/-- The sessions other than `sid` and the Reconnection Directory entries that
point at them are the same in `s` and in `t`. -/
def OthersUntouched (sid : Int) (s t : ServerState) : Prop :=
  (∀ j, j ≠ sid → Assoc.find t.gameSessions j = Assoc.find s.gameSessions j) ∧
    (∀ entry : Str × Int, entry.2 ≠ sid →
      (entry ∈ t.disconnectedClients ↔ entry ∈ s.disconnectedClients))

/-! ## Sample states and traces -/

/-- Trace that brings two clients, on descriptors 4 and 5, into one game with
secret 1234. -/
def twoPlayersTrace : List Event :=
  [.connect 4, .connect 5, .data 4 "alice\n".toList [1, 2, 3, 4], .data 5 "bob\n".toList []]

/-- State after `twoPlayersTrace`: session 0 holds descriptor 4 in slot 1 and
descriptor 5 in slot 2, and descriptor 4 has the turn. -/
def twoPlayers : ServerState :=
  { server_socket := 3
    clientNicknames := [(4, "alice".toList), (5, "bob".toList)]
    clientSessions := [(4, 0), (5, 0)]
    gameSessions :=
      [(0, { player1 := 4, player2 := 5, secretNumber := "1234".toList, currentTurn := 4 })]
    master_set := [3, 4, 5]
    fd_max := 5
    sent :=
      [(4, SUCCESSFUL_CONNECTION), (5, SUCCESSFUL_CONNECTION), (4, NICKNAME_SET),
        (5, NICKNAME_SET), (4, GAME_START), (5, GAME_START), (4, UR_TURN), (5, OPP_TURN)] }

/-- Session 0 of `twoPlayers`. -/
def twoPlayersSession : GameSession :=
  { player1 := 4, player2 := 5, secretNumber := "1234".toList, currentTurn := 4 }

instance (c : Int) (sess : GameSession) : Decidable (TurnViolation c sess) := by
  unfold TurnViolation
  infer_instance

/-- Trace in which descriptor 5 sends two guesses out of turn, descriptor 4 then
guesses the secret, and descriptor 5, still connected after the end of the
game, enters a nickname again and is given a new session. -/
def rematchTrace : List Event :=
  twoPlayersTrace ++
    [.data 5 "G5678\n".toList [], .data 5 "G5678\n".toList [], .data 4 "G1234\n".toList [],
      .data 5 "bob\n".toList [7, 7, 8, 9, 0]]

/-- Session created for descriptor 5 at the end of `rematchTrace`. -/
def rematchSession : GameSession :=
  { player1 := 5, player2 := -1, secretNumber := "7890".toList, currentTurn := 5 }

/-- State after `rematchTrace`. -/
def rematch : ServerState :=
  { server_socket := 3
    clientNicknames := [(5, "bob".toList)]
    clientSessions := [(5, 0)]
    gameSessions := [(0, rematchSession)]
    wrongTurnAttempts := [(4, 0), (5, 2)]
    master_set := [3, 4, 5]
    fd_max := 5
    sent :=
      twoPlayers.sent ++
        [(5, WRONG_TURN), (5, WRONG_TURN), (4, "G1234B4C0\n".toList),
          (5, "G1234B4C0\n".toList), (4, WIN_MSG), (5, LOST_MSG), (4, ENDGAME_MSG),
          (5, ENDGAME_MSG), (5, NICKNAME_SET)] }

/-- Trace in which descriptor 5 sends two guesses out of turn in the game of
`twoPlayersTrace`. -/
def twoStrikesTrace : List Event :=
  twoPlayersTrace ++ [.data 5 "G5678\n".toList [], .data 5 "G5678\n".toList []]

/-- State after `twoStrikesTrace`: the wrong-turn counter of descriptor 5 is 2. -/
def twoStrikes : ServerState :=
  { twoPlayers with
    wrongTurnAttempts := [(5, 2)]
    sent := twoPlayers.sent ++ [(5, WRONG_TURN), (5, WRONG_TURN)] }

/-- State in which descriptor 4 waits alone in session 0 for an opponent. -/
def waitingAlone : ServerState :=
  { server_socket := 3
    clientNicknames := [(4, "alice".toList)]
    clientSessions := [(4, 0)]
    gameSessions :=
      [(0, { player1 := 4, player2 := -1, secretNumber := "1234".toList, currentTurn := 4 })]
    master_set := [3, 4]
    fd_max := 4
    sent := [(4, SUCCESSFUL_CONNECTION), (4, NICKNAME_SET)] }

/-- Session 0 of `waitingAlone`. -/
def waitingAloneSession : GameSession :=
  { player1 := 4, player2 := -1, secretNumber := "1234".toList, currentTurn := 4 }

/-- Trace in which the turn holder of `twoPlayersTrace` (descriptor 4, nickname
alice) drops its connection, a third client connects and is given descriptor
4, and one more connection is accepted on descriptor 6. -/
def rejoinTrace : List Event :=
  twoPlayersTrace ++ [.hangup 4, .connect 4, .connect 6]

/-- State after `rejoinTrace`: slot 1 of session 0 is vacant and reserved for
alice, and the session's turn holder is still descriptor 4. -/
def awaitingRejoin : ServerState :=
  { server_socket := 3
    clientNicknames := [(4, []), (5, "bob".toList), (6, [])]
    clientSessions := [(5, 0)]
    gameSessions :=
      [(0, { player1 := -1, player2 := 5, secretNumber := "1234".toList, currentTurn := 4 })]
    disconnectedClients := [("alice".toList, 0)]
    master_set := [3, 5, 4, 6]
    fd_max := 6
    sent :=
      twoPlayers.sent ++
        [(5, OPPONENT_DISCONNECTED), (4, SUCCESSFUL_CONNECTION), (6, SUCCESSFUL_CONNECTION)]
    closed := [4] }

/-- Session 0 of `awaitingRejoin`. -/
def awaitingRejoinSession : GameSession :=
  { player1 := -1, player2 := 5, secretNumber := "1234".toList, currentTurn := 4 }

/-- State of `awaitingRejoin` once descriptor 6 has been given the nickname
alice, at the call of `assignClientToSession`. -/
def namedRejoiner : ServerState :=
  sendMessage 6 NICKNAME_SET
    { awaitingRejoin with
      clientNicknames := Assoc.insert awaitingRejoin.clientNicknames 6 "alice".toList }

/-- State after descriptor 6 sent the nickname alice in `awaitingRejoin`. -/
def rejoined : ServerState :=
  { awaitingRejoin with
    clientNicknames := [(4, []), (5, "bob".toList), (6, "alice".toList)]
    clientSessions := [(5, 0), (6, 0)]
    gameSessions :=
      [(0, { player1 := 6, player2 := 5, secretNumber := "1234".toList, currentTurn := 4 })]
    disconnectedClients := []
    sent := awaitingRejoin.sent ++ [(6, NICKNAME_SET), (4, UR_TURN), (6, OPP_TURN)] }

/-- Trace with two games, session 0 (alice, bob) and session 1 (carol, dave),
after which both players of session 0 drop their connections. -/
def twoGamesTrace : List Event :=
  [.connect 4, .connect 5, .connect 6, .connect 7,
    .data 4 "alice\n".toList [1, 2, 3, 4], .data 5 "bob\n".toList [],
    .data 6 "carol\n".toList [5, 6, 7, 8], .data 7 "dave\n".toList [],
    .hangup 4, .hangup 5]

/-- Session 1 of `oneGameLeft`: the running game of carol and dave. -/
def carolDaveSession : GameSession :=
  { player1 := 6, player2 := 7, secretNumber := "5678".toList, currentTurn := 6 }

/-- State after `twoGamesTrace`: session 0 is deleted and session 1 is the only
entry of the registry. -/
def oneGameLeft : ServerState :=
  { server_socket := 3
    clientNicknames := [(6, "carol".toList), (7, "dave".toList)]
    clientSessions := [(6, 1), (7, 1)]
    gameSessions := [(1, carolDaveSession)]
    master_set := [3, 6, 7]
    fd_max := 7
    sent :=
      [(4, SUCCESSFUL_CONNECTION), (5, SUCCESSFUL_CONNECTION), (6, SUCCESSFUL_CONNECTION),
        (7, SUCCESSFUL_CONNECTION), (4, NICKNAME_SET), (5, NICKNAME_SET), (4, GAME_START),
        (5, GAME_START), (4, UR_TURN), (5, OPP_TURN), (6, NICKNAME_SET), (7, NICKNAME_SET),
        (6, GAME_START), (7, GAME_START), (6, UR_TURN), (7, OPP_TURN),
        (5, OPPONENT_DISCONNECTED)]
    closed := [4, 5] }

/-- Session stored under identity 1 once erin was given a new session in
`oneGameLeft`. -/
def erinSession : GameSession :=
  { player1 := 4, player2 := -1, secretNumber := "9012".toList, currentTurn := 4 }

/-- State after a new client connected on descriptor 4 in `oneGameLeft` and sent
the nickname erin. -/
def collided : ServerState :=
  { oneGameLeft with
    clientNicknames := [(4, "erin".toList), (6, "carol".toList), (7, "dave".toList)]
    clientSessions := [(4, 1), (6, 1), (7, 1)]
    gameSessions := [(1, erinSession)]
    master_set := [3, 6, 7, 4]
    sent := oneGameLeft.sent ++ [(4, SUCCESSFUL_CONNECTION), (4, NICKNAME_SET)] }

/-- State after erin dropped the connection in `collided` and carol then sent a
guess. -/
def phantom : ServerState :=
  { oneGameLeft with
    gameSessions := [(1, {})]
    wrongTurnAttempts := [(6, 1)]
    sent :=
      oneGameLeft.sent ++ [(4, SUCCESSFUL_CONNECTION), (4, NICKNAME_SET), (6, WRONG_TURN)]
    closed := [4, 5, 4] }

/-- State at the call of `assignClientToSession` for the first client: descriptor
4 has connected and has just been given the nickname alice. -/
def aliceNamed : ServerState :=
  sendMessage 4 NICKNAME_SET
    { handleNewConnection 4 (initialState 3) with clientNicknames := [(4, "alice".toList)] }

/-- Trace after which `alice` waits alone in session 0 and descriptor 5 is
connected and unnamed. -/
def aliceWaitsTrace : List Event :=
  [.connect 4, .connect 5, .data 4 "alice\n".toList [1, 2, 3, 4]]

/-- State after `aliceWaitsTrace`. -/
def aliceWaits : ServerState :=
  { server_socket := 3
    clientNicknames := [(4, "alice".toList), (5, [])]
    clientSessions := [(4, 0)]
    gameSessions :=
      [(0, { player1 := 4, player2 := -1, secretNumber := "1234".toList, currentTurn := 4 })]
    master_set := [3, 4, 5]
    fd_max := 5
    sent := [(4, SUCCESSFUL_CONNECTION), (5, SUCCESSFUL_CONNECTION), (4, NICKNAME_SET)] }

/-- State handed to `assignClientToSession` when descriptor 5 of `aliceWaits`
has entered the nickname `bob`. -/
def bobNamed : ServerState :=
  sendMessage 5 NICKNAME_SET
    { aliceWaits with clientNicknames := Assoc.insert aliceWaits.clientNicknames 5 "bob".toList }

/-- Trace after which two games run side by side: alice and bob in session 0,
carol and dave in session 1. -/
def bothGamesTrace : List Event :=
  [.connect 4, .connect 5, .connect 6, .connect 7,
    .data 4 "alice\n".toList [1, 2, 3, 4], .data 5 "bob\n".toList [],
    .data 6 "carol\n".toList [5, 6, 7, 8], .data 7 "dave\n".toList []]

/-- State after `bothGamesTrace`. -/
def bothGames : ServerState :=
  { server_socket := 3
    clientNicknames :=
      [(4, "alice".toList), (5, "bob".toList), (6, "carol".toList), (7, "dave".toList)]
    clientSessions := [(4, 0), (5, 0), (6, 1), (7, 1)]
    gameSessions :=
      [(0, { player1 := 4, player2 := 5, secretNumber := "1234".toList, currentTurn := 4 }),
        (1, { player1 := 6, player2 := 7, secretNumber := "5678".toList, currentTurn := 6 })]
    master_set := [3, 4, 5, 6, 7]
    fd_max := 7
    sent :=
      [(4, SUCCESSFUL_CONNECTION), (5, SUCCESSFUL_CONNECTION), (6, SUCCESSFUL_CONNECTION),
        (7, SUCCESSFUL_CONNECTION), (4, NICKNAME_SET), (5, NICKNAME_SET), (4, GAME_START),
        (5, GAME_START), (4, UR_TURN), (5, OPP_TURN), (6, NICKNAME_SET), (7, NICKNAME_SET),
        (6, GAME_START), (7, GAME_START), (6, UR_TURN), (7, OPP_TURN)] }

/-- Iterations after which descriptor 4 is closed again while descriptor 5 is
still connected: 4 and 5 connect, then 4 hangs up. -/
def staleTrace : List (Int × Event) :=
  [(100, .connect 4), (101, .connect 5), (102, .hangup 4)]

/-- State of the loop after `staleTrace`. -/
def staleLoop : LoopState :=
  { server :=
      { server_socket := 3
        clientNicknames := [(4, []), (5, [])]
        master_set := [3, 5]
        fd_max := 5
        sent := [(4, SUCCESSFUL_CONNECTION), (5, SUCCESSFUL_CONNECTION)]
        closed := [4] }
    lastActivity := [(4, 102), (5, 101)] }

/-- Trace that leaves a turn holder outside the slots of its session. After
`twoGamesTrace` erin is given identity 1, which the game of carol and dave
holds; frank joins erin; erin guesses, so the turn passes to frank; carol,
still associated with identity 1, hangs up, which vacates slot 2, and returns
under her nickname. -/
def strayTrace : List Event :=
  twoGamesTrace ++
    [.connect 4, .data 4 "erin\n".toList [9, 0, 1, 2], .connect 5, .data 5 "frank\n".toList [],
      .data 4 "G1234\n".toList [], .hangup 6, .connect 6, .data 6 "carol\n".toList []]

/-- Session 1 of `strayTurn`: erin (4) and carol (6) in the slots, the turn
with frank (5). -/
def strayTurnSession : GameSession :=
  { player1 := 4, player2 := 6, secretNumber := "9012".toList, currentTurn := 5
    moveHistory := ["G1234B0C2\n".toList] }

/-- State after `strayTrace`. -/
def strayTurn : ServerState :=
  { server_socket := 3
    clientNicknames :=
      [(4, "erin".toList), (5, "frank".toList), (6, "carol".toList), (7, "dave".toList)]
    clientSessions := [(4, 1), (5, 1), (6, 1), (7, 1)]
    gameSessions := [(1, strayTurnSession)]
    wrongTurnAttempts := [(4, 0)]
    master_set := [3, 7, 4, 5, 6]
    fd_max := 7
    sent :=
      oneGameLeft.sent ++
        [(4, SUCCESSFUL_CONNECTION), (4, NICKNAME_SET), (5, SUCCESSFUL_CONNECTION),
          (5, NICKNAME_SET), (4, GAME_START), (5, GAME_START), (4, UR_TURN), (5, OPP_TURN),
          (4, "G1234B0C2\n".toList), (5, "G1234B0C2\n".toList), (5, UR_TURN), (4, OPP_TURN),
          (4, OPPONENT_DISCONNECTED), (6, SUCCESSFUL_CONNECTION), (6, NICKNAME_SET),
          (6, "G1234B0C2\n".toList), (5, UR_TURN), (4, OPP_TURN)]
    closed := [4, 5, 6] }

/-- Trace after which the registry holds only session 1, with slot 1 vacant,
dave in slot 2 and the reservation of carol pointing at it, and descriptor 4 is
connected and unnamed. -/
def reservedOnlyTrace : List Event :=
  twoGamesTrace ++ [.hangup 6, .connect 4]

/-- State after `reservedOnlyTrace`. -/
def reservedOnly : ServerState :=
  { server_socket := 3
    clientNicknames := [(4, []), (7, "dave".toList)]
    clientSessions := [(7, 1)]
    gameSessions :=
      [(1, { player1 := -1, player2 := 7, secretNumber := "5678".toList, currentTurn := 6 })]
    disconnectedClients := [("carol".toList, 1)]
    master_set := [3, 7, 4]
    fd_max := 7
    sent := oneGameLeft.sent ++ [(7, OPPONENT_DISCONNECTED), (4, SUCCESSFUL_CONNECTION)]
    closed := [4, 5, 6] }

/-- State handed to `assignClientToSession` when descriptor 4 of `reservedOnly`
has entered the nickname `erin`. -/
def erinNamed : ServerState :=
  sendMessage 4 NICKNAME_SET
    { reservedOnly with
      clientNicknames := Assoc.insert reservedOnly.clientNicknames 4 "erin".toList }

/-! ## Lemmas on the containers -/

namespace Assoc

theorem find_insert_self {α : Type} (m : List (Int × α)) (k : Int) (v : α) :
    find (insert m k v) k = some v := by
  induction m with
  | nil => simp [insert, find]
  | cons p rest ih =>
    obtain ⟨k', v'⟩ := p
    unfold insert
    split_ifs with h1 h2
    · simp [find]
    · simp [find]
    · have : k' ≠ k := fun h => h2 h.symm
      simp [find, this, ih]

theorem find_insert_ne {α : Type} (m : List (Int × α)) (k j : Int) (v : α) (h : j ≠ k) :
    find (insert m k v) j = find m j := by
  induction m with
  | nil => simp [insert, find, h.symm]
  | cons p rest ih =>
    obtain ⟨k', v'⟩ := p
    unfold insert
    split_ifs with h1 h2
    · simp [find, h.symm]
    · subst h2
      simp [find, h.symm]
    · simp [find, ih]

theorem find_erase_self {κ α : Type} [DecidableEq κ] (m : List (κ × α)) (k : κ) :
    find (erase m k) k = none := by
  induction m with
  | nil => simp [erase, find]
  | cons p rest ih =>
    obtain ⟨k', v'⟩ := p
    by_cases h : k' = k
    · simpa [erase, h] using ih
    · simpa [erase, h, find] using ih

theorem find_erase_ne {κ α : Type} [DecidableEq κ] (m : List (κ × α)) (k j : κ) (h : j ≠ k) :
    find (erase m k) j = find m j := by
  induction m with
  | nil => simp [erase, find]
  | cons p rest ih =>
    obtain ⟨k', v'⟩ := p
    have ih' : find (List.filter (fun p => !decide (p.1 = k)) rest) j = find rest j := by
      simpa [erase] using ih
    by_cases h' : k' = k
    · subst h'
      have hne : ¬ k' = j := fun e => h e.symm
      simp [erase, List.filter_cons, find, hne, ih']
    · by_cases h'' : k' = j
      · subst h''
        simp [erase, List.filter_cons, find, h']
      · simp [erase, List.filter_cons, find, h', h'', ih']

theorem find_set_self {κ α : Type} [DecidableEq κ] (m : List (κ × α)) (k : κ) (v : α) :
    find (set m k v) k = some v := by
  induction m with
  | nil => simp [set, find]
  | cons p rest ih =>
    obtain ⟨k', v'⟩ := p
    unfold set
    split_ifs with h1
    · simp [find]
    · simp [find, h1, ih]

theorem find_set_ne {κ α : Type} [DecidableEq κ] (m : List (κ × α)) (k j : κ) (v : α)
    (h : j ≠ k) : find (set m k v) j = find m j := by
  induction m with
  | nil => simp [set, find, h.symm]
  | cons p rest ih =>
    obtain ⟨k', v'⟩ := p
    unfold set
    split_ifs with h1
    · subst h1
      simp [find, h.symm]
    · simp [find, ih]

theorem index_of_find {α : Type} (m : List (Int × α)) (k : Int) (d v : α)
    (h : find m k = some v) : index m k d = (v, m) := by
  simp [index, h]

end Assoc

/-! ## Scoring -/

theorem bullsAndCowsLoop_sum_le (guess secret : Str) (n i : Nat) (acc : Nat × Nat) :
    (bullsAndCowsLoop guess secret n i acc).1 + (bullsAndCowsLoop guess secret n i acc).2
      ≤ acc.1 + acc.2 + n := by
  induction n generalizing i acc with
  | zero => simp [bullsAndCowsLoop]
  | succ n ih =>
    obtain ⟨b, c⟩ := acc
    unfold bullsAndCowsLoop
    split_ifs
    · have := ih (i + 1) (b + 1, c); simp at this ⊢; omega
    · have := ih (i + 1) (b, c + 1); simp at this ⊢; omega
    · have := ih (i + 1) (b, c); simp at this ⊢; omega

theorem bullsAndCowsLoop_bulls_le (guess secret : Str) (n i : Nat) (acc : Nat × Nat) :
    (bullsAndCowsLoop guess secret n i acc).1 ≤ acc.1 + n := by
  induction n generalizing i acc with
  | zero => simp [bullsAndCowsLoop]
  | succ n ih =>
    obtain ⟨b, c⟩ := acc
    unfold bullsAndCowsLoop
    split_ifs
    · have := ih (i + 1) (b + 1, c); simp at this ⊢; omega
    · have := ih (i + 1) (b, c + 1); simp at this ⊢; omega
    · have := ih (i + 1) (b, c); simp at this ⊢; omega

theorem bullsAndCowsLoop_bulls_eq (guess secret : Str) (n i : Nat) (acc : Nat × Nat) :
    (bullsAndCowsLoop guess secret n i acc).1 = acc.1 + n ↔
      ∀ j, j < n → guess.getD (i + j) (Char.ofNat 0) = secret.getD (i + j) (Char.ofNat 0) := by
  induction n generalizing i acc with
  | zero => simp [bullsAndCowsLoop]
  | succ n ih =>
    obtain ⟨b, c⟩ := acc
    unfold bullsAndCowsLoop
    split_ifs with h1 h2
    · rw [show b + (n + 1) = (b + 1, c).1 + n by simp; omega, ih]
      constructor
      · intro h j hj
        cases j with
        | zero => simpa using h1
        | succ j => have := h j (by omega); rwa [show i + (j + 1) = i + 1 + j by omega]
      · intro h j hj
        have := h (j + 1) (by omega); rwa [show i + (j + 1) = i + 1 + j by omega] at this
    · have := bullsAndCowsLoop_bulls_le guess secret n (i + 1) (b, c + 1)
      constructor
      · intro h; simp at this h; omega
      · intro h; exact absurd (by simpa using h 0 (by omega)) h1
    · have := bullsAndCowsLoop_bulls_le guess secret n (i + 1) (b, c)
      constructor
      · intro h; simp at this h; omega
      · intro h; exact absurd (by simpa using h 0 (by omega)) h1

/-- C1: for a secret and a guess of 4 pairwise distinct decimal digits each,
`calculateBullsAndCows` returns bulls and cows with `bulls + cows ≤ 4`, and
`bulls = 4` exactly when the guess equals the secret. -/
theorem calculateBullsAndCows_bound_and_win (guess secret : Str)
    (hg : FourDistinctDigits guess) (hs : FourDistinctDigits secret) :
    (calculateBullsAndCows guess secret).1 + (calculateBullsAndCows guess secret).2 ≤ 4 ∧
      ((calculateBullsAndCows guess secret).1 = 4 ↔ guess = secret) := by
  obtain ⟨hgl, -, -⟩ := hg
  obtain ⟨hsl, -, -⟩ := hs
  unfold calculateBullsAndCows
  refine ⟨?_, ?_⟩
  · have := bullsAndCowsLoop_sum_le guess secret guess.length 0 (0, 0)
    rw [hgl] at this ⊢
    exact this
  · have h := bullsAndCowsLoop_bulls_eq guess secret guess.length 0 (0, 0)
    rw [hgl] at h ⊢
    simp only [Nat.zero_add] at h
    rw [h]
    constructor
    · intro hall
      apply List.ext_getElem (by omega)
      intro j h1 h2
      have := hall j (by omega)
      simpa [List.getD_eq_getElem, h1, h2] using this
    · intro e j _; rw [e]

theorem calculateBullsAndCows_bound_and_win_witness :
    FourDistinctDigits "1243".toList ∧ FourDistinctDigits "1234".toList ∧
      (calculateBullsAndCows "1243".toList "1234".toList).1
        + (calculateBullsAndCows "1243".toList "1234".toList).2 ≤ 4 ∧
      ((calculateBullsAndCows "1243".toList "1234".toList).1 = 4 ↔
        "1243".toList = "1234".toList) :=
  ⟨by decide, by decide,
    calculateBullsAndCows_bound_and_win "1243".toList "1234".toList (by decide) (by decide)⟩

/-! ## Guess validation -/

theorem dedup_length_eq_iff (d : Str) : d.dedup.length = d.length ↔ d.Nodup := by
  constructor
  · intro h
    have hsub : d.dedup.Sublist d := List.dedup_sublist d
    have := hsub.eq_of_length h
    rw [← this]
    exact List.nodup_dedup d
  · intro h
    rw [h.dedup]

theorem isValidGuess_marker (d : Str) :
    isValidGuess ('G' :: d) =
      if d.length ≠ 4 then .ERROR_LENGTH
      else if ¬ (∀ c ∈ d, c.isDigit = true) then .ERROR_NOT_DIGITS
      else if ¬ d.Nodup then .ERROR_NOT_UNIQUE
      else .VALID_GUESS := by
  by_cases hl : d.length = 4
  · by_cases hd : ∀ c ∈ d, c.isDigit = true
    · have hd' : ¬ ∃ x ∈ d, x.isDigit = false := by simpa using hd
      have hk : d.dedup.length = 4 ↔ d.Nodup := by rw [← dedup_length_eq_iff, hl]
      by_cases hn : d.Nodup
      · simp [isValidGuess, hl, hd, hd', hn, hk]
      · simp [isValidGuess, hl, hd, hd', hn, hk]
    · have hd' : ∃ x ∈ d, x.isDigit = false := by simpa using hd
      simp [isValidGuess, hl, hd']
  · simp [isValidGuess, hl]

theorem isValidGuess_valid_iff (m : Str) :
    isValidGuess m = .VALID_GUESS ↔ ∃ ds, m = 'G' :: ds ∧ FourDistinctDigits ds := by
  cases m with
  | nil => simp [isValidGuess]
  | cons c ds =>
    by_cases hc : c = 'G'
    · subst hc
      rw [isValidGuess_marker]
      unfold FourDistinctDigits
      split_ifs <;> simp_all
    · simp [isValidGuess, hc]

theorem isValidGuess_no_marker_iff (m : Str) :
    isValidGuess m = .ERROR_NO_G_PREFIX ↔ (m = [] ∨ m.head? ≠ some 'G') := by
  cases m with
  | nil => simp [isValidGuess]
  | cons c ds =>
    by_cases hc : c = 'G'
    · subst hc
      rw [isValidGuess_marker]
      split_ifs <;> simp
    · simp [isValidGuess, hc]

/-- C2: `isValidGuess` accepts exactly `G` followed by 4 pairwise distinct
decimal digits, reports the missing marker exactly for the empty message and
for a first character other than `G`, and otherwise reports the length, then
the non-digit, then the repeated-digit defect, in that order of precedence. -/
theorem isValidGuess_spec (m d : Str) :
    (isValidGuess m = .VALID_GUESS ↔ ∃ ds, m = 'G' :: ds ∧ FourDistinctDigits ds) ∧
    (isValidGuess m = .ERROR_NO_G_PREFIX ↔ (m = [] ∨ m.head? ≠ some 'G')) ∧
    (isValidGuess ('G' :: d) = .ERROR_LENGTH ↔ d.length ≠ 4) ∧
    (isValidGuess ('G' :: d) = .ERROR_NOT_DIGITS ↔
      d.length = 4 ∧ ¬ (∀ c ∈ d, c.isDigit = true)) ∧
    (isValidGuess ('G' :: d) = .ERROR_NOT_UNIQUE ↔
      d.length = 4 ∧ (∀ c ∈ d, c.isDigit = true) ∧ ¬ d.Nodup) := by
  refine ⟨isValidGuess_valid_iff m, isValidGuess_no_marker_iff m, ?_, ?_, ?_⟩
  · rw [isValidGuess_marker]
    split_ifs <;> simp_all
  · rw [isValidGuess_marker]
    split_ifs <;> simp_all
  · rw [isValidGuess_marker]
    split_ifs <;> simp_all

/-! ## Paths through the handlers -/

theorem trimTrailingNewline_append_newline (m : Str) :
    trimTrailingNewline (m ++ ['\n']) = m := by
  simp [trimTrailingNewline]

theorem trimTrailingNewline_of_valid (m : Str) (h : isValidGuess m = .VALID_GUESS) :
    trimTrailingNewline m = m := by
  obtain ⟨ds, rfl, hl, hd, -⟩ := (isValidGuess_valid_iff m).1 h
  unfold trimTrailingNewline
  split_ifs with hlast
  · exfalso
    match ds, hl with
    | [a, b, c, d], _ =>
      simp at hlast
      have := hd d (by simp)
      rw [hlast] at this
      exact absurd this (by decide)
  · rfl

theorem handleDisconnect_sent_endgame (c : Int) (s : ServerState) :
    (handleDisconnect c true s).sent = s.sent := by
  unfold handleDisconnect
  split <;> simp

theorem handleDisconnect_sent_false (c : Int) (s : ServerState) :
    ∃ rest, (handleDisconnect c false s).sent = s.sent ++ rest := by
  unfold handleDisconnect
  split
  · exact ⟨[], by simp⟩
  · simp only []
    split_ifs <;> first | exact ⟨_, rfl⟩ | exact ⟨[], by simp⟩

theorem switchPlayerTurn_eq (session : GameSession) (s : ServerState) :
    switchPlayerTurn session s =
      ({ session with
          currentTurn :=
            if session.currentTurn = session.player1 then session.player2
            else session.player1 },
        { s with
          sent := s.sent ++
            ((if session.currentTurn = session.player1 then session.player2
                else session.player1), UR_TURN) ::
              (if (if (if session.currentTurn = session.player1 then session.player2
                      else session.player1) = session.player1 then session.player2
                    else session.player1) ≠ -1 then
                [((if (if session.currentTurn = session.player1 then session.player2
                      else session.player1) = session.player1 then session.player2
                    else session.player1), OPP_TURN)]
              else []) }) := by
  unfold switchPlayerTurn
  simp only [sendMessage]
  split_ifs <;> simp

theorem handleWinCondition_sent (w : Int) (session : GameSession) (s : ServerState) :
    (handleWinCondition w session s).sent =
      s.sent ++
        [(w, WIN_MSG),
          ((if session.player1 = w then session.player2 else session.player1), LOST_MSG),
          (w, ENDGAME_MSG),
          ((if session.player1 = w then session.player2 else session.player1), ENDGAME_MSG)] := by
  simp [handleWinCondition, handleDisconnect_sent_endgame, sendMessage]

theorem Assoc.insert_insert {α : Type} (m : List (Int × α)) (k : Int) (a b : α) :
    Assoc.insert (Assoc.insert m k a) k b = Assoc.insert m k b := by
  induction m with
  | nil => simp [Assoc.insert]
  | cons p rest ih =>
    obtain ⟨k', v'⟩ := p
    by_cases h1 : k < k'
    · simp [Assoc.insert, h1]
    · by_cases h2 : k = k'
      · subst h2
        simp [Assoc.insert]
      · simp [Assoc.insert, h1, h2, ih]

theorem Assoc.insert_index {α : Type} (m : List (Int × α)) (k : Int) (d v : α) :
    Assoc.insert (Assoc.index m k d).2 k v = Assoc.insert m k v := by
  unfold Assoc.index
  split
  · rfl
  · exact Assoc.insert_insert m k d v

theorem handleGameMessage_wrong_turn (s : ServerState) (c sid : Int) (sess : GameSession)
    (raw : Str)
    (hbound : Assoc.find s.clientSessions c = some sid)
    (hsess : Assoc.find s.gameSessions sid = some sess)
    (hviol : TurnViolation c sess) (hcount : wrongTurnCount s c + 1 < 3) :
    handleGameMessage c raw s =
      { s with
        wrongTurnAttempts := Assoc.insert s.wrongTurnAttempts c (wrongTurnCount s c + 1)
        sent := s.sent ++ [(c, WRONG_TURN)] } := by
  have hcond : isPlayerTurn c sess = false ∨ sess.player1 = -1 ∨ sess.player2 = -1 := by
    rcases hviol with h | h | h
    · exact Or.inl (by simp [isPlayerTurn]; exact fun e => h e.symm)
    · exact Or.inr (Or.inl h)
    · exact Or.inr (Or.inr h)
  have hn : ¬ (wrongTurnCount s c + 1 ≥ 3) := by omega
  simp only [handleGameMessage, Assoc.index_of_find _ _ _ _ hbound,
    Assoc.index_of_find _ _ _ _ hsess]
  rw [if_pos hcond]
  unfold wrongTurnCount at hn
  rw [if_neg hn]
  simp only [sendMessage, Assoc.insert_index, wrongTurnCount]

theorem not_turnViolation_cond (c : Int) (sess : GameSession)
    (hturn : sess.currentTurn = c) (hp1 : sess.player1 ≠ -1) (hp2 : sess.player2 ≠ -1) :
    ¬ (isPlayerTurn c sess = false ∨ sess.player1 = -1 ∨ sess.player2 = -1) := by
  simp [isPlayerTurn, hturn, hp1, hp2]

theorem handleGameMessage_strike_out (s : ServerState) (c sid : Int) (sess : GameSession)
    (raw : Str)
    (hbound : Assoc.find s.clientSessions c = some sid)
    (hsess : Assoc.find s.gameSessions sid = some sess)
    (hviol : TurnViolation c sess) (hcount : 3 ≤ wrongTurnCount s c + 1) :
    handleGameMessage c raw s =
      { closeSocket c (handleDisconnect c false (sendMessage c WRONG_FORMAT
          { s with
            wrongTurnAttempts :=
              Assoc.insert s.wrongTurnAttempts c (wrongTurnCount s c + 1) })) with
        wrongTurnAttempts :=
          Assoc.erase (closeSocket c (handleDisconnect c false (sendMessage c WRONG_FORMAT
            { s with
              wrongTurnAttempts :=
                Assoc.insert s.wrongTurnAttempts c (wrongTurnCount s c + 1) }))).wrongTurnAttempts
            c } := by
  have hcond : isPlayerTurn c sess = false ∨ sess.player1 = -1 ∨ sess.player2 = -1 := by
    rcases hviol with h | h | h
    · exact Or.inl (by simp [isPlayerTurn]; exact fun e => h e.symm)
    · exact Or.inr (Or.inl h)
    · exact Or.inr (Or.inr h)
  have hn : wrongTurnCount s c + 1 ≥ 3 := hcount
  simp only [handleGameMessage, Assoc.index_of_find _ _ _ _ hbound,
    Assoc.index_of_find _ _ _ _ hsess]
  rw [if_pos hcond]
  unfold wrongTurnCount at hn
  rw [if_pos hn]
  simp only [Assoc.insert_index, wrongTurnCount]

theorem handleGameMessage_no_marker (s : ServerState) (c sid : Int) (sess : GameSession)
    (raw : Str)
    (hbound : Assoc.find s.clientSessions c = some sid)
    (hsess : Assoc.find s.gameSessions sid = some sess)
    (hturn : sess.currentTurn = c) (hp1 : sess.player1 ≠ -1) (hp2 : sess.player2 ≠ -1)
    (hcode : isValidGuess (trimTrailingNewline raw) = .ERROR_NO_G_PREFIX) :
    handleGameMessage c raw s =
      closeSocket c (handleDisconnect c false (sendMessage c WRONG_FORMAT
        { s with wrongTurnAttempts := Assoc.insert s.wrongTurnAttempts c 0 })) := by
  simp only [handleGameMessage, Assoc.index_of_find _ _ _ _ hbound,
    Assoc.index_of_find _ _ _ _ hsess]
  rw [if_neg (not_turnViolation_cond c sess hturn hp1 hp2)]
  simp [hcode]

theorem handleGameMessage_invalid_guess (s : ServerState) (c sid : Int) (sess : GameSession)
    (raw : Str)
    (hbound : Assoc.find s.clientSessions c = some sid)
    (hsess : Assoc.find s.gameSessions sid = some sess)
    (hturn : sess.currentTurn = c) (hp1 : sess.player1 ≠ -1) (hp2 : sess.player2 ≠ -1)
    (hcode1 : isValidGuess (trimTrailingNewline raw) ≠ .VALID_GUESS)
    (hcode2 : isValidGuess (trimTrailingNewline raw) ≠ .ERROR_NO_G_PREFIX) :
    handleGameMessage c raw s =
      { s with
        wrongTurnAttempts := Assoc.insert s.wrongTurnAttempts c 0
        sent := s.sent ++ [(c, INVALID_GUESS)] } := by
  simp only [handleGameMessage, Assoc.index_of_find _ _ _ _ hbound,
    Assoc.index_of_find _ _ _ _ hsess]
  rw [if_neg (not_turnViolation_cond c sess hturn hp1 hp2)]
  simp [hcode1, hcode2, sendMessage]

theorem handleGameMessage_win (s : ServerState) (c sid : Int) (sess : GameSession)
    (raw : Str)
    (hbound : Assoc.find s.clientSessions c = some sid)
    (hsess : Assoc.find s.gameSessions sid = some sess)
    (hturn : sess.currentTurn = c) (hp1 : sess.player1 ≠ -1) (hp2 : sess.player2 ≠ -1)
    (hcode : isValidGuess (trimTrailingNewline raw) = .VALID_GUESS)
    (hwin : (calculateBullsAndCows ((trimTrailingNewline raw).drop 1) sess.secretNumber).1 = 4) :
    handleGameMessage c raw s =
      handleWinCondition c
        { sess with
          moveHistory :=
            sess.moveHistory ++ [guessResponse (trimTrailingNewline raw) sess.secretNumber] }
        { s with
          wrongTurnAttempts := Assoc.insert s.wrongTurnAttempts c 0
          gameSessions :=
            Assoc.insert s.gameSessions sid
              { sess with
                moveHistory :=
                  sess.moveHistory ++
                    [guessResponse (trimTrailingNewline raw) sess.secretNumber] }
          sent := s.sent ++
            [(sess.player1, guessResponse (trimTrailingNewline raw) sess.secretNumber),
              (sess.player2, guessResponse (trimTrailingNewline raw) sess.secretNumber)] } := by
  simp only [handleGameMessage, Assoc.index_of_find _ _ _ _ hbound,
    Assoc.index_of_find _ _ _ _ hsess]
  rw [if_neg (not_turnViolation_cond c sess hturn hp1 hp2)]
  rw [if_neg (by simp [hcode]), if_pos hwin]
  simp [sendToBothPlayers, sendMessage]

theorem handleGameMessage_next_turn (s : ServerState) (c sid : Int) (sess : GameSession)
    (raw : Str)
    (hbound : Assoc.find s.clientSessions c = some sid)
    (hsess : Assoc.find s.gameSessions sid = some sess)
    (hturn : sess.currentTurn = c) (hp1 : sess.player1 ≠ -1) (hp2 : sess.player2 ≠ -1)
    (hcode : isValidGuess (trimTrailingNewline raw) = .VALID_GUESS)
    (hwin : (calculateBullsAndCows ((trimTrailingNewline raw).drop 1) sess.secretNumber).1 ≠ 4) :
    handleGameMessage c raw s =
      { s with
        wrongTurnAttempts := Assoc.insert s.wrongTurnAttempts c 0
        gameSessions :=
          Assoc.insert s.gameSessions sid
            { sess with
              currentTurn := if c = sess.player1 then sess.player2 else sess.player1
              moveHistory :=
                sess.moveHistory ++
                  [guessResponse (trimTrailingNewline raw) sess.secretNumber] }
        sent := s.sent ++
          [(sess.player1, guessResponse (trimTrailingNewline raw) sess.secretNumber),
            (sess.player2, guessResponse (trimTrailingNewline raw) sess.secretNumber)] ++
          (((if c = sess.player1 then sess.player2 else sess.player1), UR_TURN) ::
            (if (if (if c = sess.player1 then sess.player2 else sess.player1) = sess.player1
                  then sess.player2 else sess.player1) ≠ -1 then
              [((if (if c = sess.player1 then sess.player2 else sess.player1) = sess.player1
                  then sess.player2 else sess.player1), OPP_TURN)]
            else [])) } := by
  simp only [handleGameMessage, Assoc.index_of_find _ _ _ _ hbound,
    Assoc.index_of_find _ _ _ _ hsess]
  rw [if_neg (not_turnViolation_cond c sess hturn hp1 hp2)]
  rw [if_neg (by simp [hcode]), if_neg hwin]
  simp only [switchPlayerTurn_eq, sendToBothPlayers, sendMessage, Assoc.insert_insert, hturn]
  simp

theorem Assoc.erase_insert {α : Type} (m : List (Int × α)) (k : Int) (v : α) :
    Assoc.erase (Assoc.insert m k v) k = Assoc.erase m k := by
  induction m with
  | nil => simp [Assoc.insert, Assoc.erase]
  | cons p rest ih =>
    obtain ⟨k', v'⟩ := p
    by_cases h1 : k < k'
    · simp [Assoc.insert, Assoc.erase, h1, List.filter_cons]
    · by_cases h2 : k = k'
      · subst h2
        simp [Assoc.insert, Assoc.erase, List.filter_cons]
      · have h3 : ¬ k' = k := fun e => h2 e.symm
        simp only [Assoc.erase] at ih
        simp [Assoc.insert, Assoc.erase, h1, h2, h3, List.filter_cons, ih]

theorem Assoc.erase_index {α : Type} (m : List (Int × α)) (k : Int) (d : α) :
    Assoc.erase (Assoc.index m k d).2 k = Assoc.erase m k := by
  unfold Assoc.index
  split
  · rfl
  · exact Assoc.erase_insert m k d

theorem Assoc.index_fst {α : Type} (m : List (Int × α)) (k : Int) (d : α) :
    (Assoc.index m k d).1 = (Assoc.find m k).getD d := by
  unfold Assoc.index
  split <;> simp [*]

theorem handleDisconnect_bound (s : ServerState) (c sid : Int) (sess : GameSession)
    (endgame : Bool)
    (hbound : Assoc.find s.clientSessions c = some sid)
    (hsess : Assoc.find s.gameSessions sid = some sess) :
    handleDisconnect c endgame s =
      { s with
        clientNicknames := Assoc.erase s.clientNicknames c
        clientSessions := Assoc.erase s.clientSessions c
        gameSessions :=
          if (vacate c sess).player1 = -1 ∧ (vacate c sess).player2 = -1 then
            Assoc.erase s.gameSessions sid
          else Assoc.insert s.gameSessions sid (vacate c sess)
        disconnectedClients :=
          if (vacate c sess).player1 = -1 ∧ (vacate c sess).player2 = -1 then
            (if opponentOf c sess ≠ -1 then
              Assoc.set s.disconnectedClients ((Assoc.find s.clientNicknames c).getD []) sid
            else s.disconnectedClients).filter (fun p => !decide (p.2 = sid))
          else
            (if opponentOf c sess ≠ -1 then
              Assoc.set s.disconnectedClients ((Assoc.find s.clientNicknames c).getD []) sid
            else s.disconnectedClients)
        sent :=
          if endgame = false ∧ opponentOf c sess ≠ -1 then
            s.sent ++ [(opponentOf c sess, OPPONENT_DISCONNECTED)]
          else s.sent } := by
  simp only [handleDisconnect, hbound, Assoc.index_of_find _ _ _ _ hsess, Assoc.erase_index,
    Assoc.index_fst, opponentOf, vacate]
  by_cases hg : (if sess.player1 = c then { sess with player1 := -1 }
        else { sess with player2 := -1 } : GameSession).player1 = -1 ∧
      (if sess.player1 = c then { sess with player1 := -1 }
        else { sess with player2 := -1 } : GameSession).player2 = -1
  · simp [hg, Assoc.erase_insert]
  · simp [hg]

theorem twoPlayers_reachable : Reachable twoPlayers :=
  ⟨3, twoPlayersTrace, by decide, by decide⟩

theorem trim_of_guess (m raw : Str) (hvalid : isValidGuess m = .VALID_GUESS)
    (hraw : raw = m ∨ raw = m ++ ['\n']) : trimTrailingNewline raw = m := by
  rcases hraw with rfl | rfl
  · exact trimTrailingNewline_of_valid _ hvalid
  · exact trimTrailingNewline_append_newline m

/-! ## The guess protocol -/

/-- C3: a structurally valid guess `m` from the turn holder of a session with
both slots occupied produces the line `m`, `B`, the decimal bull count, `C`,
the decimal cow count and a line feed, and the first two messages sent are
that line to slot 1 and to slot 2; secret 1234 with guess G1243 gives
G1243B2C2 and secret 5678 with guess G8765 gives G8765B0C4. -/
theorem handleGameMessage_result_line (s : ServerState) (c sid : Int) (sess : GameSession)
    (m raw : Str)
    (hbound : Assoc.find s.clientSessions c = some sid)
    (hsess : Assoc.find s.gameSessions sid = some sess)
    (hturn : sess.currentTurn = c)
    (hp1 : sess.player1 ≠ -1) (hp2 : sess.player2 ≠ -1)
    (hvalid : isValidGuess m = .VALID_GUESS)
    (hraw : raw = m ∨ raw = m ++ ['\n']) :
    (∃ rest, (handleGameMessage c raw s).sent =
      s.sent ++
        [(sess.player1,
            m ++ ['B'] ++ to_string (calculateBullsAndCows (m.drop 1) sess.secretNumber).1
              ++ ['C'] ++ to_string (calculateBullsAndCows (m.drop 1) sess.secretNumber).2
              ++ ['\n']),
          (sess.player2,
            m ++ ['B'] ++ to_string (calculateBullsAndCows (m.drop 1) sess.secretNumber).1
              ++ ['C'] ++ to_string (calculateBullsAndCows (m.drop 1) sess.secretNumber).2
              ++ ['\n'])] ++ rest) ∧
      (m = "G1243".toList → sess.secretNumber = "1234".toList →
        ∃ rest, (handleGameMessage c raw s).sent =
          s.sent ++ [(sess.player1, "G1243B2C2\n".toList),
            (sess.player2, "G1243B2C2\n".toList)] ++ rest) ∧
      (m = "G8765".toList → sess.secretNumber = "5678".toList →
        ∃ rest, (handleGameMessage c raw s).sent =
          s.sent ++ [(sess.player1, "G8765B0C4\n".toList),
            (sess.player2, "G8765B0C4\n".toList)] ++ rest) := by
  have htrim := trim_of_guess m raw hvalid hraw
  have main : ∃ rest, (handleGameMessage c raw s).sent =
      s.sent ++ [(sess.player1, guessResponse m sess.secretNumber),
        (sess.player2, guessResponse m sess.secretNumber)] ++ rest := by
    by_cases hwin : (calculateBullsAndCows (m.drop 1) sess.secretNumber).1 = 4
    · rw [handleGameMessage_win s c sid sess raw hbound hsess hturn hp1 hp2
        (by rw [htrim]; exact hvalid) (by rw [htrim]; exact hwin), handleWinCondition_sent,
        htrim]
      exact ⟨_, rfl⟩
    · rw [handleGameMessage_next_turn s c sid sess raw hbound hsess hturn hp1 hp2
        (by rw [htrim]; exact hvalid) (by rw [htrim]; exact hwin), htrim]
      exact ⟨_, rfl⟩
  refine ⟨?_, ?_, ?_⟩
  · simpa [guessResponse] using main
  · intro hm hs
    rw [hm, hs] at main
    exact main
  · intro hm hs
    rw [hm, hs] at main
    exact main

theorem handleGameMessage_result_line_witness :
    (∃ rest, (handleGameMessage 4 "G1243\n".toList twoPlayers).sent =
      twoPlayers.sent ++
        [(twoPlayersSession.player1,
            "G1243".toList ++ ['B'] ++
              to_string (calculateBullsAndCows ("G1243".toList.drop 1)
                twoPlayersSession.secretNumber).1
              ++ ['C'] ++
              to_string (calculateBullsAndCows ("G1243".toList.drop 1)
                twoPlayersSession.secretNumber).2
              ++ ['\n']),
          (twoPlayersSession.player2,
            "G1243".toList ++ ['B'] ++
              to_string (calculateBullsAndCows ("G1243".toList.drop 1)
                twoPlayersSession.secretNumber).1
              ++ ['C'] ++
              to_string (calculateBullsAndCows ("G1243".toList.drop 1)
                twoPlayersSession.secretNumber).2
              ++ ['\n'])] ++ rest) ∧
      ("G1243".toList = "G1243".toList → twoPlayersSession.secretNumber = "1234".toList →
        ∃ rest, (handleGameMessage 4 "G1243\n".toList twoPlayers).sent =
          twoPlayers.sent ++ [(twoPlayersSession.player1, "G1243B2C2\n".toList),
            (twoPlayersSession.player2, "G1243B2C2\n".toList)] ++ rest) ∧
      ("G1243".toList = "G8765".toList → twoPlayersSession.secretNumber = "5678".toList →
        ∃ rest, (handleGameMessage 4 "G1243\n".toList twoPlayers).sent =
          twoPlayers.sent ++ [(twoPlayersSession.player1, "G8765B0C4\n".toList),
            (twoPlayersSession.player2, "G8765B0C4\n".toList)] ++ rest) :=
  handleGameMessage_result_line twoPlayers 4 0 twoPlayersSession "G1243".toList
    "G1243\n".toList (by decide) (by decide) (by decide) (by decide) (by decide) (by decide)
    (by decide)

/-- Turn switch for a turn holder seated in its session: after a structurally
valid guess that does not score 4 bulls, sent by the turn holder `c` of a
session with both slots occupied (`c` sits in one of them), the session's turn is the handle in the other slot (different from `c`
when the slots hold different handles), its move history is the old one with
the result line appended, slots and secret are unchanged, and after the two
result lines `UT` is sent to the new turn holder and `OT` to the sender. -/
theorem handleGameMessage_turn_switch (s : ServerState) (c sid : Int) (sess : GameSession)
    (m raw : Str)
    (hbound : Assoc.find s.clientSessions c = some sid)
    (hsess : Assoc.find s.gameSessions sid = some sess)
    (hturn : sess.currentTurn = c)
    (hp1 : sess.player1 ≠ -1) (hp2 : sess.player2 ≠ -1)
    (hslot : sess.player1 = c ∨ sess.player2 = c)
    (hvalid : isValidGuess m = .VALID_GUESS)
    (hraw : raw = m ∨ raw = m ++ ['\n'])
    (hnowin : (calculateBullsAndCows (m.drop 1) sess.secretNumber).1 ≠ 4) :
    Assoc.find (handleGameMessage c raw s).gameSessions sid =
        some
          { player1 := sess.player1
            player2 := sess.player2
            secretNumber := sess.secretNumber
            currentTurn := if sess.player1 = c then sess.player2 else sess.player1
            moveHistory :=
              sess.moveHistory ++
                [m ++ ['B'] ++
                  to_string (calculateBullsAndCows (m.drop 1) sess.secretNumber).1
                  ++ ['C'] ++
                  to_string (calculateBullsAndCows (m.drop 1) sess.secretNumber).2
                  ++ ['\n']] } ∧
      (sess.player1 ≠ sess.player2 →
        (if sess.player1 = c then sess.player2 else sess.player1) ≠ c) ∧
      (handleGameMessage c raw s).sent =
        s.sent ++
          [(sess.player1,
              m ++ ['B'] ++ to_string (calculateBullsAndCows (m.drop 1) sess.secretNumber).1
                ++ ['C'] ++ to_string (calculateBullsAndCows (m.drop 1) sess.secretNumber).2
                ++ ['\n']),
            (sess.player2,
              m ++ ['B'] ++ to_string (calculateBullsAndCows (m.drop 1) sess.secretNumber).1
                ++ ['C'] ++ to_string (calculateBullsAndCows (m.drop 1) sess.secretNumber).2
                ++ ['\n']),
            ((if sess.player1 = c then sess.player2 else sess.player1), UR_TURN),
            (c, OPP_TURN)] := by
  have htrim := trim_of_guess m raw hvalid hraw
  rw [handleGameMessage_next_turn s c sid sess raw hbound hsess hturn hp1 hp2
    (by rw [htrim]; exact hvalid) (by rw [htrim]; exact hnowin), htrim]
  refine ⟨?_, ?_, ?_⟩
  · simp only [Assoc.find_insert_self]
    by_cases h1 : sess.player1 = c
    · simp [h1, guessResponse, eq_comm]
    · have h1' : ¬ c = sess.player1 := fun e => h1 e.symm
      simp [h1, h1', guessResponse]
  · intro hne
    by_cases h1 : sess.player1 = c
    · simp only [h1, if_true]
      intro e
      exact hne (h1.trans e.symm)
    · simp only [h1, if_false]
      exact h1
  · by_cases h1 : sess.player1 = c
    · subst h1
      by_cases h2 : sess.player2 = sess.player1
      · simp [guessResponse, h2, hp1]
      · simp [guessResponse, h2, hp1]
    · have h2 : sess.player2 = c := hslot.resolve_left h1
      subst h2
      have h1' : ¬ sess.player2 = sess.player1 := fun e => h1 e.symm
      simp [guessResponse, h1, h1', hp2]

theorem handleGameMessage_turn_switch_witness :
    Assoc.find (handleGameMessage 4 "G1243\n".toList twoPlayers).gameSessions 0 =
        some
          { player1 := twoPlayersSession.player1
            player2 := twoPlayersSession.player2
            secretNumber := twoPlayersSession.secretNumber
            currentTurn :=
              if twoPlayersSession.player1 = 4 then twoPlayersSession.player2
              else twoPlayersSession.player1
            moveHistory :=
              twoPlayersSession.moveHistory ++
                ["G1243".toList ++ ['B'] ++
                  to_string (calculateBullsAndCows ("G1243".toList.drop 1)
                    twoPlayersSession.secretNumber).1
                  ++ ['C'] ++
                  to_string (calculateBullsAndCows ("G1243".toList.drop 1)
                    twoPlayersSession.secretNumber).2
                  ++ ['\n']] } ∧
      (twoPlayersSession.player1 ≠ twoPlayersSession.player2 →
        (if twoPlayersSession.player1 = 4 then twoPlayersSession.player2
          else twoPlayersSession.player1) ≠ 4) ∧
      (handleGameMessage 4 "G1243\n".toList twoPlayers).sent =
        twoPlayers.sent ++
          [(twoPlayersSession.player1,
              "G1243".toList ++ ['B'] ++
                to_string (calculateBullsAndCows ("G1243".toList.drop 1)
                  twoPlayersSession.secretNumber).1
                ++ ['C'] ++
                to_string (calculateBullsAndCows ("G1243".toList.drop 1)
                  twoPlayersSession.secretNumber).2
                ++ ['\n']),
            (twoPlayersSession.player2,
              "G1243".toList ++ ['B'] ++
                to_string (calculateBullsAndCows ("G1243".toList.drop 1)
                  twoPlayersSession.secretNumber).1
                ++ ['C'] ++
                to_string (calculateBullsAndCows ("G1243".toList.drop 1)
                  twoPlayersSession.secretNumber).2
                ++ ['\n']),
            ((if twoPlayersSession.player1 = 4 then twoPlayersSession.player2
              else twoPlayersSession.player1), UR_TURN),
            (4, OPP_TURN)] :=
  handleGameMessage_turn_switch twoPlayers 4 0 twoPlayersSession "G1243".toList
    "G1243\n".toList (by decide) (by decide) (by decide) (by decide) (by decide) (by decide)
    (by decide) (by decide) (by decide)

/-- C5: a message from the turn holder `c` of a session with both slots
occupied that fails the length, digit or uniqueness check (as `GG123` does) is
answered with exactly `IG` to `c`; sessions, session associations, nicknames,
reservations, the descriptor set and the closed descriptors stay as they were,
so the turn, the move history, the slots and the secret are unchanged and the
sender stays connected. -/
theorem handleGameMessage_invalid_guess_frame (s : ServerState) (c sid : Int)
    (sess : GameSession) (raw : Str)
    (hbound : Assoc.find s.clientSessions c = some sid)
    (hsess : Assoc.find s.gameSessions sid = some sess)
    (hturn : sess.currentTurn = c)
    (hp1 : sess.player1 ≠ -1) (hp2 : sess.player2 ≠ -1)
    (hbad : isValidGuess (trimTrailingNewline raw) = .ERROR_LENGTH ∨
      isValidGuess (trimTrailingNewline raw) = .ERROR_NOT_DIGITS ∨
      isValidGuess (trimTrailingNewline raw) = .ERROR_NOT_UNIQUE) :
    (handleGameMessage c raw s).sent = s.sent ++ [(c, "IG\n".toList)] ∧
      (handleGameMessage c raw s).gameSessions = s.gameSessions ∧
      Assoc.find (handleGameMessage c raw s).gameSessions sid = some sess ∧
      (handleGameMessage c raw s).clientSessions = s.clientSessions ∧
      (handleGameMessage c raw s).clientNicknames = s.clientNicknames ∧
      (handleGameMessage c raw s).disconnectedClients = s.disconnectedClients ∧
      (handleGameMessage c raw s).master_set = s.master_set ∧
      (handleGameMessage c raw s).closed = s.closed ∧
      isValidGuess (trimTrailingNewline "GG123\n".toList) = .ERROR_NOT_DIGITS := by
  have h1 : isValidGuess (trimTrailingNewline raw) ≠ .VALID_GUESS := by
    rcases hbad with h | h | h <;> rw [h] <;> decide
  have h2 : isValidGuess (trimTrailingNewline raw) ≠ .ERROR_NO_G_PREFIX := by
    rcases hbad with h | h | h <;> rw [h] <;> decide
  rw [handleGameMessage_invalid_guess s c sid sess raw hbound hsess hturn hp1 hp2 h1 h2]
  exact ⟨rfl, rfl, hsess, rfl, rfl, rfl, rfl, rfl, by decide⟩

theorem handleGameMessage_invalid_guess_frame_witness :
    (handleGameMessage 4 "GG123\n".toList twoPlayers).sent =
        twoPlayers.sent ++ [(4, "IG\n".toList)] ∧
      (handleGameMessage 4 "GG123\n".toList twoPlayers).gameSessions =
        twoPlayers.gameSessions ∧
      Assoc.find (handleGameMessage 4 "GG123\n".toList twoPlayers).gameSessions 0 =
        some twoPlayersSession ∧
      (handleGameMessage 4 "GG123\n".toList twoPlayers).clientSessions =
        twoPlayers.clientSessions ∧
      (handleGameMessage 4 "GG123\n".toList twoPlayers).clientNicknames =
        twoPlayers.clientNicknames ∧
      (handleGameMessage 4 "GG123\n".toList twoPlayers).disconnectedClients =
        twoPlayers.disconnectedClients ∧
      (handleGameMessage 4 "GG123\n".toList twoPlayers).master_set = twoPlayers.master_set ∧
      (handleGameMessage 4 "GG123\n".toList twoPlayers).closed = twoPlayers.closed ∧
      isValidGuess (trimTrailingNewline "GG123\n".toList) = .ERROR_NOT_DIGITS :=
  handleGameMessage_invalid_guess_frame twoPlayers 4 0 twoPlayersSession "GG123\n".toList
    (by decide) (by decide) (by decide) (by decide) (by decide) (by decide)

theorem isValidGuess_trim_no_marker (raw : Str) (h : raw = [] ∨ raw.head? ≠ some 'G') :
    isValidGuess (trimTrailingNewline raw) = .ERROR_NO_G_PREFIX := by
  rw [isValidGuess_no_marker_iff]
  rcases h with rfl | h
  · left; rfl
  · unfold trimTrailingNewline
    split_ifs with hl
    · cases raw with
      | nil => left; rfl
      | cons a rest =>
        cases rest with
        | nil => left; rfl
        | cons b rest' =>
          right
          simpa [List.dropLast] using h
    · right; exact h

/-- C6: a message that is empty or does not start with `G`, from the turn
holder `c` of a session with both slots occupied, is answered with `WF` to `c`
(followed by `OD` to the opponent), the connection of `c` is closed and its
nickname binding and session association are removed by the disconnect
handling, which also vacates the slot of `c`; the session stays in the
registry with the same secret, current-turn holder and move history. -/
theorem handleGameMessage_no_marker_closes (s : ServerState) (c sid : Int)
    (sess : GameSession) (raw : Str)
    (hbound : Assoc.find s.clientSessions c = some sid)
    (hsess : Assoc.find s.gameSessions sid = some sess)
    (hturn : sess.currentTurn = c)
    (hp1 : sess.player1 ≠ -1) (hp2 : sess.player2 ≠ -1)
    (hnoG : raw = [] ∨ raw.head? ≠ some 'G') :
    (handleGameMessage c raw s).sent =
        s.sent ++ [(c, "WF\n".toList),
          ((if sess.player1 = c then sess.player2 else sess.player1), "OD\n".toList)] ∧
      (handleGameMessage c raw s).closed = s.closed ++ [c] ∧
      c ∉ (handleGameMessage c raw s).master_set ∧
      Assoc.find (handleGameMessage c raw s).clientSessions c = none ∧
      Assoc.find (handleGameMessage c raw s).clientNicknames c = none ∧
      (∃ sess', Assoc.find (handleGameMessage c raw s).gameSessions sid = some sess' ∧
        sess'.secretNumber = sess.secretNumber ∧
        sess'.currentTurn = sess.currentTurn ∧
        sess'.moveHistory = sess.moveHistory) := by
  rw [handleGameMessage_no_marker s c sid sess raw hbound hsess hturn hp1 hp2
    (isValidGuess_trim_no_marker raw hnoG)]
  rw [handleDisconnect_bound _ c sid sess false (by simpa [sendMessage] using hbound)
    (by simpa [sendMessage] using hsess)]
  have hopp : opponentOf c sess ≠ -1 := by
    unfold opponentOf
    split_ifs <;> assumption
  have hstay : ¬ ((vacate c sess).player1 = -1 ∧ (vacate c sess).player2 = -1) := by
    unfold vacate
    split_ifs <;> simp [hp1, hp2]
  refine ⟨?_, ?_, ?_, ?_, ?_, ?_⟩
  · have hopp' := hopp
    unfold opponentOf at hopp'
    simp [closeSocket, sendMessage, hopp', opponentOf, WRONG_FORMAT, OPPONENT_DISCONNECTED]
  · simp [closeSocket, sendMessage]
  · simp [closeSocket, FD_CLR]
  · simp [closeSocket, sendMessage, Assoc.find_erase_self]
  · simp [closeSocket, sendMessage, Assoc.find_erase_self]
  · refine ⟨vacate c sess, ?_, ?_, ?_, ?_⟩
    · simp [closeSocket, sendMessage, hstay, Assoc.find_insert_self]
    · unfold vacate; split_ifs <;> rfl
    · unfold vacate; split_ifs <;> rfl
    · unfold vacate; split_ifs <;> rfl

theorem handleGameMessage_no_marker_closes_witness :
    (handleGameMessage 4 "PONG1234\n".toList twoPlayers).sent =
        twoPlayers.sent ++ [(4, "WF\n".toList),
          ((if twoPlayersSession.player1 = 4 then twoPlayersSession.player2
            else twoPlayersSession.player1), "OD\n".toList)] ∧
      (handleGameMessage 4 "PONG1234\n".toList twoPlayers).closed = twoPlayers.closed ++ [4] ∧
      (4 : Int) ∉ (handleGameMessage 4 "PONG1234\n".toList twoPlayers).master_set ∧
      Assoc.find (handleGameMessage 4 "PONG1234\n".toList twoPlayers).clientSessions 4
        = none ∧
      Assoc.find (handleGameMessage 4 "PONG1234\n".toList twoPlayers).clientNicknames 4
        = none ∧
      (∃ sess', Assoc.find (handleGameMessage 4 "PONG1234\n".toList twoPlayers).gameSessions 0
          = some sess' ∧
        sess'.secretNumber = twoPlayersSession.secretNumber ∧
        sess'.currentTurn = twoPlayersSession.currentTurn ∧
        sess'.moveHistory = twoPlayersSession.moveHistory) :=
  handleGameMessage_no_marker_closes twoPlayers 4 0 twoPlayersSession "PONG1234\n".toList
    (by decide) (by decide) (by decide) (by decide) (by decide) (by decide)

/-! ## The wrong-turn counter -/

theorem handleDisconnect_wrongTurnAttempts (c : Int) (e : Bool) (s : ServerState) :
    (handleDisconnect c e s).wrongTurnAttempts = s.wrongTurnAttempts := by
  unfold handleDisconnect
  split <;> rfl

theorem handleWinCondition_wrongTurnAttempts (w : Int) (session : GameSession)
    (s : ServerState) :
    (handleWinCondition w session s).wrongTurnAttempts = s.wrongTurnAttempts := by
  simp [handleWinCondition, handleDisconnect_wrongTurnAttempts, sendMessage]

theorem handleGameMessage_wrongTurnAttempts_other (d c : Int) (raw : Str) (s : ServerState)
    (h : c ≠ d) :
    Assoc.find (handleGameMessage d raw s).wrongTurnAttempts c =
      Assoc.find s.wrongTurnAttempts c := by
  simp only [handleGameMessage]
  split_ifs <;>
    simp [handleDisconnect_wrongTurnAttempts, handleWinCondition_wrongTurnAttempts,
      switchPlayerTurn_eq, sendMessage, sendToBothPlayers, closeSocket, Assoc.insert_index,
      Assoc.find_insert_ne _ _ _ _ h, Assoc.find_erase_ne _ _ _ h]

theorem assignClientToSession_wrongTurnAttempts (draws : List Nat) (c : Int)
    (s s' : ServerState) (h : assignClientToSession draws c s = some s') :
    s'.wrongTurnAttempts = s.wrongTurnAttempts := by
  unfold assignClientToSession at h
  simp only [] at h
  split at h
  · split_ifs at h <;> simp [sendMessage] at h <;> rw [← h]
  · split at h
    · simp [sendMessage] at h
      rw [← h]
    · split at h
      · exact absurd h (by simp)
      · simp at h
        rw [← h]

theorem handleNewConnection_wrongTurnAttempts (fd : Int) (s : ServerState) :
    (handleNewConnection fd s).wrongTurnAttempts = s.wrongTurnAttempts := by
  unfold handleNewConnection
  by_cases h1 : fd = -1
  · simp [h1]
  · by_cases h2 : fd > s.fd_max <;> simp [h1, h2, sendMessage]

theorem step_wrongTurnAttempts_other (s s' : ServerState) (e : Event) (c : Int)
    (hfd : e.fd ≠ c) (h : step s e = some s') :
    Assoc.find s'.wrongTurnAttempts c = Assoc.find s.wrongTurnAttempts c := by
  unfold step at h
  split_ifs at h
  cases e with
  | connect fd =>
    simp only [Option.some.injEq] at h
    rw [← h, handleNewConnection_wrongTurnAttempts]
  | data fd message draws =>
    have hc : c ≠ fd := fun e => hfd e.symm
    simp only [handleClientData, processClientMessage] at h
    split_ifs at h with hping hempty
    · simp only [Option.some.injEq] at h
      rw [← h]
    · simp only [handleNicknameSetup] at h
      split_ifs at h
      · simp only [Option.some.injEq] at h
        rw [← h]
      · simp only [Option.some.injEq] at h
        rw [← h]
        rfl
      · rw [assignClientToSession_wrongTurnAttempts _ _ _ _ h]
        rfl
    · simp only [Option.some.injEq] at h
      rw [← h, handleGameMessage_wrongTurnAttempts_other _ _ _ _ hc]
  | hangup fd =>
    simp only [handleClientData, Option.some.injEq] at h
    rw [← h, handleDisconnect_wrongTurnAttempts]
    rfl

theorem run_wrongTurnAttempts_other (es : List Event) (s s' : ServerState) (c : Int)
    (hfd : ∀ e ∈ es, e.fd ≠ c) (h : run s es = some s') :
    Assoc.find s'.wrongTurnAttempts c = Assoc.find s.wrongTurnAttempts c := by
  induction es generalizing s with
  | nil =>
    simp only [run, Option.some.injEq] at h
    rw [h]
  | cons e es ih =>
    simp only [run] at h
    cases hstep : step s e with
    | none => rw [hstep] at h; exact absurd h (by simp)
    | some s1 =>
      rw [hstep] at h
      simp only [Option.some_bind] at h
      rw [ih s1 (fun e' he' => hfd e' (List.mem_cons_of_mem _ he')) h]
      exact step_wrongTurnAttempts_other s s1 e c (hfd e (List.mem_cons_self _ _)) hstep

theorem rematch_reachable : Reachable rematch :=
  ⟨3, rematchTrace, by decide, by decide⟩

theorem twoStrikes_reachable : Reachable twoStrikes :=
  ⟨3, twoStrikesTrace, by decide, by decide⟩

theorem waitingAlone_reachable : Reachable waitingAlone :=
  ⟨3, [.connect 4, .data 4 "alice\n".toList [1, 2, 3, 4]], by decide, by decide⟩

/-- C7, as stated, fails: after `rematchTrace` descriptor 5 has just been bound
to a new session and has sent nothing since, yet its first turn violation (a
guess while slot 2 is vacant) is answered with `WF` and closes the connection,
because the counter still holds the two violations of the previous game. -/
theorem rematch_first_violation_closes :
    run (initialState 3) rematchTrace = some rematch ∧
      Assoc.find rematch.clientSessions 5 = some 0 ∧
      Assoc.find rematch.gameSessions 0 = some rematchSession ∧
      TurnViolation 5 rematchSession ∧
      step rematch (.data 5 "G5678\n".toList []) =
        some (handleGameMessage 5 "G5678\n".toList rematch) ∧
      (handleGameMessage 5 "G5678\n".toList rematch).sent =
        rematch.sent ++ [(5, "WF\n".toList)] ∧
      (handleGameMessage 5 "G5678\n".toList rematch).closed = [5] ∧
      Assoc.find (handleGameMessage 5 "G5678\n".toList rematch).clientSessions 5 = none := by
  decide

theorem wrongTurnCount_eq (s : ServerState) (c : Int) :
    wrongTurnCount s c = (Assoc.find s.wrongTurnAttempts c).getD 0 := by
  unfold wrongTurnCount
  exact Assoc.index_fst _ _ _

theorem handleGameMessage_strike_out_effect (s : ServerState) (c sid : Int)
    (sess : GameSession) (raw : Str)
    (hbound : Assoc.find s.clientSessions c = some sid)
    (hsess : Assoc.find s.gameSessions sid = some sess)
    (hviol : TurnViolation c sess) (hcount : 3 ≤ wrongTurnCount s c + 1) :
    (handleGameMessage c raw s).sent =
        s.sent ++ (c, WRONG_FORMAT) ::
          (if opponentOf c sess ≠ -1 then [(opponentOf c sess, OPPONENT_DISCONNECTED)]
            else []) ∧
      (handleGameMessage c raw s).closed = s.closed ++ [c] ∧
      c ∉ (handleGameMessage c raw s).master_set ∧
      Assoc.find (handleGameMessage c raw s).clientSessions c = none ∧
      Assoc.find (handleGameMessage c raw s).clientNicknames c = none := by
  rw [handleGameMessage_strike_out s c sid sess raw hbound hsess hviol hcount]
  rw [handleDisconnect_bound _ c sid sess false (by simpa [sendMessage] using hbound)
    (by simpa [sendMessage] using hsess)]
  refine ⟨?_, ?_, ?_, ?_, ?_⟩
  · by_cases hopp : opponentOf c sess = -1
    · simp [closeSocket, sendMessage, hopp]
    · simp [closeSocket, sendMessage, hopp]
  · simp [closeSocket, sendMessage]
  · simp [closeSocket, FD_CLR]
  · simp [closeSocket, sendMessage, Assoc.find_erase_self]
  · simp [closeSocket, sendMessage, Assoc.find_erase_self]

/-- C7, amended: a client `c` whose wrong-turn counter is zero gets `WT` for its
first and for its second turn violation, which change nothing but the counter
and the messages sent (so `c` stays connected and in its session), and `WF`
for the third, which closes its connection and removes its nickname binding
and session association; events of other descriptors may be handled between
the three messages, and a vacant opponent slot counts as a violation. -/
theorem three_turn_violations (s0 s1 s2 : ServerState) (c sid0 sid1 sid2 : Int)
    (sess0 sess1 sess2 : GameSession) (m1 m2 m3 : Str) (es1 es2 : List Event)
    (hzero : wrongTurnCount s0 c = 0)
    (hb0 : Assoc.find s0.clientSessions c = some sid0)
    (hs0 : Assoc.find s0.gameSessions sid0 = some sess0)
    (hv0 : TurnViolation c sess0)
    (hes1 : ∀ e ∈ es1, e.fd ≠ c)
    (hrun1 : run (handleGameMessage c m1 s0) es1 = some s1)
    (hb1 : Assoc.find s1.clientSessions c = some sid1)
    (hs1 : Assoc.find s1.gameSessions sid1 = some sess1)
    (hv1 : TurnViolation c sess1)
    (hes2 : ∀ e ∈ es2, e.fd ≠ c)
    (hrun2 : run (handleGameMessage c m2 s1) es2 = some s2)
    (hb2 : Assoc.find s2.clientSessions c = some sid2)
    (hs2 : Assoc.find s2.gameSessions sid2 = some sess2)
    (hv2 : TurnViolation c sess2) :
    handleGameMessage c m1 s0 =
        { s0 with
          wrongTurnAttempts := Assoc.insert s0.wrongTurnAttempts c 1
          sent := s0.sent ++ [(c, "WT\n".toList)] } ∧
      handleGameMessage c m2 s1 =
        { s1 with
          wrongTurnAttempts := Assoc.insert s1.wrongTurnAttempts c 2
          sent := s1.sent ++ [(c, "WT\n".toList)] } ∧
      (∃ rest, (handleGameMessage c m3 s2).sent = s2.sent ++ (c, "WF\n".toList) :: rest) ∧
      (handleGameMessage c m3 s2).closed = s2.closed ++ [c] ∧
      c ∉ (handleGameMessage c m3 s2).master_set ∧
      Assoc.find (handleGameMessage c m3 s2).clientSessions c = none ∧
      Assoc.find (handleGameMessage c m3 s2).clientNicknames c = none := by
  have e0 := handleGameMessage_wrong_turn s0 c sid0 sess0 m1 hb0 hs0 hv0 (by omega)
  rw [hzero] at e0
  have c1 : wrongTurnCount s1 c = 1 := by
    rw [wrongTurnCount_eq, run_wrongTurnAttempts_other es1 _ s1 c hes1 hrun1, e0]
    simp [Assoc.find_insert_self]
  have e1 := handleGameMessage_wrong_turn s1 c sid1 sess1 m2 hb1 hs1 hv1 (by omega)
  rw [c1] at e1
  have c2 : wrongTurnCount s2 c = 2 := by
    rw [wrongTurnCount_eq, run_wrongTurnAttempts_other es2 _ s2 c hes2 hrun2, e1]
    simp [Assoc.find_insert_self]
  obtain ⟨h1, h2, h3, h4, h5⟩ :=
    handleGameMessage_strike_out_effect s2 c sid2 sess2 m3 hb2 hs2 hv2 (by omega)
  exact ⟨e0, e1, ⟨_, h1⟩, h2, h3, h4, h5⟩

theorem three_turn_violations_witness :
    handleGameMessage 4 "G5678\n".toList waitingAlone =
        { waitingAlone with
          wrongTurnAttempts := Assoc.insert waitingAlone.wrongTurnAttempts 4 1
          sent := waitingAlone.sent ++ [(4, "WT\n".toList)] } ∧
      handleGameMessage 4 "G5679\n".toList
          (handleNewConnection 5 (handleGameMessage 4 "G5678\n".toList waitingAlone)) =
        { handleNewConnection 5 (handleGameMessage 4 "G5678\n".toList waitingAlone) with
          wrongTurnAttempts :=
            Assoc.insert
              (handleNewConnection 5
                (handleGameMessage 4 "G5678\n".toList waitingAlone)).wrongTurnAttempts 4 2
          sent :=
            (handleNewConnection 5 (handleGameMessage 4 "G5678\n".toList waitingAlone)).sent
              ++ [(4, "WT\n".toList)] } ∧
      (∃ rest,
        (handleGameMessage 4 "G1234\n".toList
          (handleGameMessage 4 "G5679\n".toList
            (handleNewConnection 5
              (handleGameMessage 4 "G5678\n".toList waitingAlone)))).sent =
          (handleGameMessage 4 "G5679\n".toList
            (handleNewConnection 5
              (handleGameMessage 4 "G5678\n".toList waitingAlone))).sent
            ++ (4, "WF\n".toList) :: rest) ∧
      (handleGameMessage 4 "G1234\n".toList
          (handleGameMessage 4 "G5679\n".toList
            (handleNewConnection 5
              (handleGameMessage 4 "G5678\n".toList waitingAlone)))).closed =
        (handleGameMessage 4 "G5679\n".toList
          (handleNewConnection 5
            (handleGameMessage 4 "G5678\n".toList waitingAlone))).closed ++ [4] ∧
      (4 : Int) ∉
        (handleGameMessage 4 "G1234\n".toList
          (handleGameMessage 4 "G5679\n".toList
            (handleNewConnection 5
              (handleGameMessage 4 "G5678\n".toList waitingAlone)))).master_set ∧
      Assoc.find
        (handleGameMessage 4 "G1234\n".toList
          (handleGameMessage 4 "G5679\n".toList
            (handleNewConnection 5
              (handleGameMessage 4 "G5678\n".toList waitingAlone)))).clientSessions 4
        = none ∧
      Assoc.find
        (handleGameMessage 4 "G1234\n".toList
          (handleGameMessage 4 "G5679\n".toList
            (handleNewConnection 5
              (handleGameMessage 4 "G5678\n".toList waitingAlone)))).clientNicknames 4
        = none :=
  three_turn_violations waitingAlone
    (handleNewConnection 5 (handleGameMessage 4 "G5678\n".toList waitingAlone))
    (handleGameMessage 4 "G5679\n".toList
      (handleNewConnection 5 (handleGameMessage 4 "G5678\n".toList waitingAlone)))
    4 0 0 0 waitingAloneSession waitingAloneSession waitingAloneSession
    "G5678\n".toList "G5679\n".toList "G1234\n".toList [.connect 5] []
    (by decide) (by decide) (by decide) (by decide) (by decide) (by decide) (by decide)
    (by decide) (by decide) (by decide) (by decide) (by decide) (by decide) (by decide)

/-- C8, as stated, fails: after `twoStrikesTrace` the third out-of-turn message
of descriptor 5 is answered with `WF`, and `OD` is sent to its opponent on
descriptor 4, whose slot is occupied. -/
theorem strike_out_notifies_opponent :
    run (initialState 3) twoStrikesTrace = some twoStrikes ∧
      Assoc.find twoStrikes.clientSessions 5 = some 0 ∧
      Assoc.find twoStrikes.gameSessions 0 = some twoPlayersSession ∧
      TurnViolation 5 twoPlayersSession ∧
      wrongTurnCount twoStrikes 5 + 1 = 3 ∧
      (handleGameMessage 5 "G5678\n".toList twoStrikes).sent =
        twoStrikes.sent ++ [(5, "WF\n".toList), (4, "OD\n".toList)] ∧
      (handleGameMessage 5 "G5678\n".toList twoStrikes).closed = [5] := by
  decide

/-- C8, amended: when the wrong-turn counter of `c` reaches 3, the messages
sent are `WF` to `c` and then, when the opponent slot is occupied, `OD` to the
handle in that slot; when it is vacant `WF` is the only message. The
connection of `c` is closed. -/
theorem handleGameMessage_strike_out_sends (s : ServerState) (c sid : Int)
    (sess : GameSession) (raw : Str)
    (hbound : Assoc.find s.clientSessions c = some sid)
    (hsess : Assoc.find s.gameSessions sid = some sess)
    (hviol : TurnViolation c sess) (hcount : 3 ≤ wrongTurnCount s c + 1) :
    (handleGameMessage c raw s).sent =
        s.sent ++ (c, "WF\n".toList) ::
          (if (if sess.player1 = c then sess.player2 else sess.player1) ≠ -1 then
            [((if sess.player1 = c then sess.player2 else sess.player1), "OD\n".toList)]
          else []) ∧
      (handleGameMessage c raw s).closed = s.closed ++ [c] := by
  obtain ⟨h1, h2, -⟩ :=
    handleGameMessage_strike_out_effect s c sid sess raw hbound hsess hviol hcount
  exact ⟨h1, h2⟩

theorem handleGameMessage_strike_out_sends_witness :
    (handleGameMessage 5 "G5678\n".toList twoStrikes).sent =
        twoStrikes.sent ++ (5, "WF\n".toList) ::
          (if (if twoPlayersSession.player1 = 5 then twoPlayersSession.player2
                else twoPlayersSession.player1) ≠ -1 then
            [((if twoPlayersSession.player1 = 5 then twoPlayersSession.player2
                else twoPlayersSession.player1), "OD\n".toList)]
          else []) ∧
      (handleGameMessage 5 "G5678\n".toList twoStrikes).closed = twoStrikes.closed ++ [5] :=
  handleGameMessage_strike_out_sends twoStrikes 5 0 twoPlayersSession "G5678\n".toList
    (by decide) (by decide) (by decide) (by decide)

/-! ## Rejoining a session -/

theorem awaitingRejoin_reachable : Reachable awaitingRejoin :=
  ⟨3, rejoinTrace, by decide, by decide⟩

theorem assignClientToSession_rejoin_eq (draws : List Nat) (s : ServerState) (c sid : Int)
    (nick : Str) (sess : GameSession)
    (hnick : Assoc.find s.clientNicknames c = some nick)
    (hdir : Assoc.find s.disconnectedClients nick = some sid)
    (hsess : Assoc.find s.gameSessions sid = some sess) :
    assignClientToSession draws c s =
      some
        { s with
          gameSessions := Assoc.insert s.gameSessions sid (rejoinSlot c sess)
          clientSessions := Assoc.insert s.clientSessions c sid
          disconnectedClients := Assoc.erase s.disconnectedClients nick
          sent := s.sent ++ sess.moveHistory.map (fun move => (c, move)) ++
            rejoinTurnNotes (rejoinSlot c sess) } := by
  simp only [assignClientToSession, Assoc.index_of_find _ _ _ _ hnick, hdir,
    Assoc.index_of_find _ _ _ _ hsess, rejoinTurnNotes, rejoinSlot, sendMessage]
  by_cases hp1 : sess.player1 = -1
  · simp only [hp1, if_true]
    split_ifs <;> simp
  · simp only [hp1, if_false]
    split_ifs <;> simp

/-- C9: a client `c` whose nickname has a reservation pointing at an existing
session with a vacant slot is put in the vacant slot of that session; the
reservation is removed, `c` is associated with the session, every other
session is untouched and no session identity is added, the secret, the turn
holder and the move history of the session are unchanged, and `c` is sent the
move history, one line per move in the recorded order, before the turn
notifications. -/
theorem assignClientToSession_rejoin (draws : List Nat) (s : ServerState) (c sid : Int)
    (nick : Str) (sess : GameSession)
    (hnick : Assoc.find s.clientNicknames c = some nick)
    (hdir : Assoc.find s.disconnectedClients nick = some sid)
    (hsess : Assoc.find s.gameSessions sid = some sess)
    (hvac : sess.player1 = -1 ∨ sess.player2 = -1) :
    ∃ s', assignClientToSession draws c s = some s' ∧
      Assoc.find s'.gameSessions sid =
        some
          { player1 := if sess.player1 = -1 then c else sess.player1
            player2 := if sess.player1 = -1 then sess.player2 else c
            secretNumber := sess.secretNumber
            currentTurn := sess.currentTurn
            moveHistory := sess.moveHistory } ∧
      (sess.player1 ≠ -1 → sess.player2 = -1) ∧
      (∀ j, j ≠ sid → Assoc.find s'.gameSessions j = Assoc.find s.gameSessions j) ∧
      (∀ j, (Assoc.find s'.gameSessions j).isSome = (Assoc.find s.gameSessions j).isSome) ∧
      Assoc.find s'.disconnectedClients nick = none ∧
      Assoc.find s'.clientSessions c = some sid ∧
      (∃ turnNotes,
        s'.sent = s.sent ++ sess.moveHistory.map (fun move => (c, move)) ++ turnNotes ∧
        ∀ p ∈ turnNotes, p.2 = "UT\n".toList ∨ p.2 = "OT\n".toList) := by
  have hgs : ∀ (x : GameSession) (j : Int),
      (Assoc.find (Assoc.insert s.gameSessions sid x) j).isSome =
        (Assoc.find s.gameSessions j).isSome := by
    intro x j
    by_cases hj : j = sid
    · subst hj
      simp [Assoc.find_insert_self, hsess]
    · rw [Assoc.find_insert_ne _ _ _ _ hj]
  rw [assignClientToSession_rejoin_eq draws s c sid nick sess hnick hdir hsess]
  refine ⟨_, rfl, ?_, ?_, ?_, ?_, ?_, ?_, rejoinTurnNotes (rejoinSlot c sess), rfl, ?_⟩
  · simp only [Assoc.find_insert_self, rejoinSlot]
    split_ifs <;> rfl
  · intro h
    exact hvac.resolve_left h
  · intro j hj
    simp only [Assoc.find_insert_ne _ _ _ _ hj]
  · intro j
    exact hgs _ j
  · simp only [Assoc.find_erase_self]
  · simp only [Assoc.find_insert_self]
  · intro p hp
    unfold rejoinTurnNotes at hp
    have key : p.2 = UR_TURN ∨ p.2 = OPP_TURN := by
      split_ifs at hp <;>
        simp only [List.mem_cons, List.mem_singleton, List.not_mem_nil, or_false] at hp <;>
        rcases hp with rfl | rfl <;> simp
    exact key

theorem assignClientToSession_rejoin_witness :
    ∃ s', assignClientToSession [] 6 namedRejoiner = some s' ∧
      Assoc.find s'.gameSessions 0 =
        some
          { player1 := if awaitingRejoinSession.player1 = -1 then 6
              else awaitingRejoinSession.player1
            player2 := if awaitingRejoinSession.player1 = -1 then awaitingRejoinSession.player2
              else 6
            secretNumber := awaitingRejoinSession.secretNumber
            currentTurn := awaitingRejoinSession.currentTurn
            moveHistory := awaitingRejoinSession.moveHistory } ∧
      (awaitingRejoinSession.player1 ≠ -1 → awaitingRejoinSession.player2 = -1) ∧
      (∀ j, j ≠ 0 →
        Assoc.find s'.gameSessions j = Assoc.find namedRejoiner.gameSessions j) ∧
      (∀ j, (Assoc.find s'.gameSessions j).isSome =
        (Assoc.find namedRejoiner.gameSessions j).isSome) ∧
      Assoc.find s'.disconnectedClients "alice".toList = none ∧
      Assoc.find s'.clientSessions 6 = some 0 ∧
      (∃ turnNotes,
        s'.sent =
          namedRejoiner.sent ++
            awaitingRejoinSession.moveHistory.map (fun move => ((6 : Int), move)) ++
            turnNotes ∧
        ∀ p ∈ turnNotes, p.2 = "UT\n".toList ∨ p.2 = "OT\n".toList) :=
  assignClientToSession_rejoin [] namedRejoiner 6 0 "alice".toList awaitingRejoinSession
    (by decide) (by decide) (by decide) (by decide)

/-- C10 fails on the code: in `awaitingRejoin` the departed turn holder alice
returns on descriptor 6 while bob waits on descriptor 5. The rejoin branch
sends `UT` to descriptor 4, the handle alice had before (now a third client),
and `OT` to alice; bob is sent nothing, no player of the session is sent `UT`,
and the next valid guess of either player is answered with `WT`. -/
theorem rejoin_turn_notes_miss_players :
    run (initialState 3) rejoinTrace = some awaitingRejoin ∧
      step awaitingRejoin (.data 6 "alice\n".toList []) = some rejoined ∧
      rejoined.sent =
        awaitingRejoin.sent ++
          [(6, "NS\n".toList), (4, "UT\n".toList), (6, "OT\n".toList)] ∧
      Assoc.find rejoined.gameSessions 0 =
        some
          { player1 := 6, player2 := 5, secretNumber := "1234".toList, currentTurn := 4,
            moveHistory := [] } ∧
      Assoc.find rejoined.clientSessions 4 = none ∧
      (handleGameMessage 6 "G5678\n".toList rejoined).sent =
        rejoined.sent ++ [(6, "WT\n".toList)] ∧
      (handleGameMessage 5 "G5678\n".toList rejoined).sent =
        rejoined.sent ++ [(5, "WT\n".toList)] := by
  decide

/-! ## Session identities and the registry -/

/-- C12 fails on the code: in `oneGameLeft` the registry holds one session,
under identity 1, so the next created session is given identity
`gameSessions.size() = 1` as well; the record of the running game of carol and
dave is replaced by the new session of erin while both stay associated with
identity 1. -/
theorem new_session_identity_collides :
    run (initialState 3) twoGamesTrace = some oneGameLeft ∧
      Assoc.find oneGameLeft.gameSessions 1 = some carolDaveSession ∧
      oneGameLeft.gameSessions.length = 1 ∧
      run oneGameLeft [.connect 4, .data 4 "erin\n".toList [9, 0, 1, 2]] = some collided ∧
      Assoc.find collided.gameSessions 1 = some erinSession ∧
      erinSession ≠ carolDaveSession ∧
      Assoc.find collided.clientSessions 6 = some 1 ∧
      Assoc.find collided.clientSessions 7 = some 1 := by
  decide

/-- C11 fails on the code: after erin was given identity 1, held by the game of
carol and dave, erin drops the connection, which deletes the record under
identity 1, and the
next message of carol, still associated with identity 1, makes
`gameSessions[1]` insert a default session; the registry then holds a session
with both slots vacant. -/
theorem phantom_session_with_both_slots_vacant :
    run (initialState 3)
        (twoGamesTrace ++
          [.connect 4, .data 4 "erin\n".toList [9, 0, 1, 2], .hangup 4,
            .data 6 "G1234\n".toList []]) = some phantom ∧
      Assoc.find phantom.gameSessions 1 =
        some
          { player1 := -1, player2 := -1, secretNumber := [], currentTurn := -1,
            moveHistory := [] } := by
  decide

/-- C13 fails on the code: the state `rejoined`, reached when the departed turn
holder returns on descriptor 6, has a session with both slots occupied (6 and
5) whose current-turn holder is descriptor 4, the handle of neither slot. -/
theorem rejoined_turn_holder_in_no_slot :
    run (initialState 3) (rejoinTrace ++ [.data 6 "alice\n".toList []]) = some rejoined ∧
      (∃ sess, Assoc.find rejoined.gameSessions 0 = some sess ∧
        sess.player1 ≠ -1 ∧ sess.player2 ≠ -1 ∧
        sess.currentTurn ≠ sess.player1 ∧ sess.currentTurn ≠ sess.player2) := by
  refine ⟨by decide, ⟨_, rfl, ?_⟩⟩
  decide

/-! ## Disconnect handling -/

theorem handleDisconnect_unbound (c : Int) (endgame : Bool) (s : ServerState)
    (h : Assoc.find s.clientSessions c = none) : handleDisconnect c endgame s = s := by
  simp only [handleDisconnect, h]

/-- C15: for a client `c` in a slot of the session `sid` it is associated with,
`handleDisconnect` either finds the opponent slot occupied, and then records
the reservation from the nickname of `c` to `sid`, keeps every other
reservation, and keeps the session with the slot of `c` vacated and the
opponent slot, secret, turn and history unchanged; or finds it vacant, and then
deletes the session and every reservation pointing at it. In both cases the
nickname binding and the session association of `c` are removed. For a
descriptor with no session association the state is returned unchanged. -/
theorem handleDisconnect_spec (s t : ServerState) (c d sid : Int) (sess : GameSession)
    (nick : Str) (endgame : Bool)
    (hbound : Assoc.find s.clientSessions c = some sid)
    (hsess : Assoc.find s.gameSessions sid = some sess)
    (hnick : Assoc.find s.clientNicknames c = some nick)
    (hslot : sess.player1 = c ∨ sess.player2 = c)
    (hfree : Assoc.find t.clientSessions d = none) :
    ((if sess.player1 = c then sess.player2 else sess.player1) ≠ -1 →
        Assoc.find (handleDisconnect c endgame s).disconnectedClients nick = some sid ∧
        (∀ n, n ≠ nick →
          Assoc.find (handleDisconnect c endgame s).disconnectedClients n =
            Assoc.find s.disconnectedClients n) ∧
        Assoc.find (handleDisconnect c endgame s).gameSessions sid =
          some
            { player1 := if sess.player1 = c then -1 else sess.player1
              player2 := if sess.player1 ≠ c ∧ sess.player2 = c then -1 else sess.player2
              secretNumber := sess.secretNumber
              currentTurn := sess.currentTurn
              moveHistory := sess.moveHistory }) ∧
      ((if sess.player1 = c then sess.player2 else sess.player1) = -1 →
        Assoc.find (handleDisconnect c endgame s).gameSessions sid = none ∧
        (handleDisconnect c endgame s).disconnectedClients =
          s.disconnectedClients.filter (fun p => !decide (p.2 = sid)) ∧
        ∀ p ∈ (handleDisconnect c endgame s).disconnectedClients, p.2 ≠ sid) ∧
      Assoc.find (handleDisconnect c endgame s).clientNicknames c = none ∧
      Assoc.find (handleDisconnect c endgame s).clientSessions c = none ∧
      (∀ j, j ≠ sid →
        Assoc.find (handleDisconnect c endgame s).gameSessions j =
          Assoc.find s.gameSessions j) ∧
      handleDisconnect d endgame t = t := by
  rw [handleDisconnect_bound s c sid sess endgame hbound hsess]
  simp only [hnick, Option.getD_some, opponentOf]
  refine ⟨?_, ?_, ?_, ?_, ?_, handleDisconnect_unbound d endgame t hfree⟩
  · intro hopp
    have hstay : ¬ ((vacate c sess).player1 = -1 ∧ (vacate c sess).player2 = -1) := by
      unfold vacate
      by_cases h1 : sess.player1 = c
      · simp only [h1, if_true] at hopp
        simp [h1, hopp]
      · simp only [h1, if_false] at hopp
        simp [h1, hopp]
    simp only [hstay, hopp, if_false, if_true, ne_eq, not_false_eq_true]
    refine ⟨Assoc.find_set_self _ _ _, fun n hn => Assoc.find_set_ne _ _ _ _ hn, ?_⟩
    rw [Assoc.find_insert_self]
    unfold vacate
    by_cases h1 : sess.player1 = c
    · simp [h1]
    · have h2 : sess.player2 = c := hslot.resolve_left h1
      simp [h1, h2]
  · intro hopp
    have hgone : (vacate c sess).player1 = -1 ∧ (vacate c sess).player2 = -1 := by
      unfold vacate
      by_cases h1 : sess.player1 = c
      · rw [if_pos h1] at hopp ⊢
        exact ⟨rfl, hopp⟩
      · rw [if_neg h1] at hopp ⊢
        exact ⟨hopp, rfl⟩
    simp only [hgone, hopp, and_self, if_true, ne_eq, not_true_eq_false, if_false]
    refine ⟨Assoc.find_erase_self _ _, trivial, ?_⟩
    intro p hp
    simpa using (List.mem_filter.1 hp).2
  · exact Assoc.find_erase_self _ _
  · exact Assoc.find_erase_self _ _
  · intro j hj
    split_ifs
    · exact Assoc.find_erase_ne _ _ _ hj
    · exact Assoc.find_insert_ne _ _ _ _ hj

theorem handleDisconnect_spec_witness :
    ((if twoPlayersSession.player1 = 4 then twoPlayersSession.player2
          else twoPlayersSession.player1) ≠ -1 →
        Assoc.find (handleDisconnect 4 false twoPlayers).disconnectedClients "alice".toList
          = some 0 ∧
        (∀ n, n ≠ "alice".toList →
          Assoc.find (handleDisconnect 4 false twoPlayers).disconnectedClients n =
            Assoc.find twoPlayers.disconnectedClients n) ∧
        Assoc.find (handleDisconnect 4 false twoPlayers).gameSessions 0 =
          some
            { player1 := if twoPlayersSession.player1 = 4 then -1
                else twoPlayersSession.player1
              player2 :=
                if twoPlayersSession.player1 ≠ 4 ∧ twoPlayersSession.player2 = 4 then -1
                else twoPlayersSession.player2
              secretNumber := twoPlayersSession.secretNumber
              currentTurn := twoPlayersSession.currentTurn
              moveHistory := twoPlayersSession.moveHistory }) ∧
      ((if twoPlayersSession.player1 = 4 then twoPlayersSession.player2
          else twoPlayersSession.player1) = -1 →
        Assoc.find (handleDisconnect 4 false twoPlayers).gameSessions 0 = none ∧
        (handleDisconnect 4 false twoPlayers).disconnectedClients =
          twoPlayers.disconnectedClients.filter (fun p => !decide (p.2 = 0)) ∧
        ∀ p ∈ (handleDisconnect 4 false twoPlayers).disconnectedClients, p.2 ≠ 0) ∧
      Assoc.find (handleDisconnect 4 false twoPlayers).clientNicknames 4 = none ∧
      Assoc.find (handleDisconnect 4 false twoPlayers).clientSessions 4 = none ∧
      (∀ j, j ≠ 0 →
        Assoc.find (handleDisconnect 4 false twoPlayers).gameSessions j =
          Assoc.find twoPlayers.gameSessions j) ∧
      handleDisconnect 9 false twoPlayers = twoPlayers :=
  handleDisconnect_spec twoPlayers twoPlayers 4 9 0 twoPlayersSession "alice".toList false
    (by decide) (by decide) (by decide) (by decide) (by decide)

/-! ## Nickname setup -/

theorem Assoc.mem_of_find {κ α : Type} [DecidableEq κ] (m : List (κ × α)) (k : κ) (v : α)
    (h : Assoc.find m k = some v) : (k, v) ∈ m := by
  induction m with
  | nil => simp [Assoc.find] at h
  | cons p rest ih =>
    obtain ⟨k', v'⟩ := p
    by_cases hk : k' = k
    · subst hk
      simp only [Assoc.find, if_true, Option.some.injEq] at h
      subst h
      exact List.mem_cons_self _ _
    · simp only [Assoc.find, hk, if_false] at h
      exact List.mem_cons_of_mem _ (ih h)

theorem isNicknameInUse_of_find (cn : List (Int × Str)) (d : Int) (nick : Str)
    (h : Assoc.find cn d = some nick) : isNicknameInUse cn nick = true := by
  unfold isNicknameInUse
  rw [List.any_eq_true]
  exact ⟨(d, nick), Assoc.mem_of_find cn d nick h, by simp⟩

/-- C17: when the sanitized nickname of the message of an unnamed client `c`
is non-empty and is the nickname of a client `d` (then another client),
`handleNicknameSetup` returns the state with `NIU` to `c` as the only message
sent and nothing else changed: `c` stays unnamed and no nickname binding,
session, session association or reservation changes. -/
theorem handleNicknameSetup_in_use (draws : List Nat) (s : ServerState) (c d : Int)
    (raw : Str)
    (hunnamed : (Assoc.find s.clientNicknames c).getD [] = [])
    (hne : sanitizeNickname raw ≠ [])
    (hused : Assoc.find s.clientNicknames d = some (sanitizeNickname raw)) :
    handleNicknameSetup draws c raw s =
        some { s with sent := s.sent ++ [(c, "NIU\n".toList)] } ∧
      d ≠ c := by
  refine ⟨?_, ?_⟩
  · have hused' := isNicknameInUse_of_find _ _ _ hused
    have hne' : (sanitizeNickname raw).isEmpty = false := by
      cases hs : sanitizeNickname raw with
      | nil => exact absurd hs hne
      | cons a l => rfl
    simp [handleNicknameSetup, hne', hused', sendMessage, NICKNAME_IN_USE]
  · intro e
    subst e
    rw [hused] at hunnamed
    exact hne hunnamed

theorem handleNicknameSetup_in_use_witness :
    handleNicknameSetup [] 6 "bob\n".toList awaitingRejoin =
        some { awaitingRejoin with sent := awaitingRejoin.sent ++ [(6, "NIU\n".toList)] } ∧
      (5 : Int) ≠ 6 :=
  handleNicknameSetup_in_use [] awaitingRejoin 6 5 "bob\n".toList (by decide) (by decide)
    (by decide)

/-- C18: `sanitizeNickname` removes one trailing line feed, when there is one,
and keeps the first 20 characters of the rest, so the result has at most 20
characters; when the result is empty `handleNicknameSetup` returns the state
unchanged, with nothing sent and the client still unnamed. -/
theorem sanitizeNickname_spec (draws : List Nat) (s : ServerState) (c : Int) (r r' : Str) :
    sanitizeNickname (r' ++ ['\n']) = r'.take 20 ∧
      (r.getLast? ≠ some '\n' → sanitizeNickname r = r.take 20) ∧
      (sanitizeNickname r).length ≤ 20 ∧
      (sanitizeNickname r = [] → handleNicknameSetup draws c r s = some s) := by
  refine ⟨?_, ?_, ?_, ?_⟩
  · simp [sanitizeNickname, MAX_NICKNAME_LENGTH]
  · intro h
    simp [sanitizeNickname, MAX_NICKNAME_LENGTH, h]
  · simp only [sanitizeNickname, MAX_NICKNAME_LENGTH, List.length_take]
    exact Nat.min_le_left _ _
  · intro h
    simp [handleNicknameSetup, h]

/-! ## Creating a session -/

theorem distinctInOrder_subset (l : List Char) : ∀ c ∈ distinctInOrder l, c ∈ l := by
  induction l with
  | nil => simp [distinctInOrder]
  | cons x xs ih =>
    intro c hc
    simp only [distinctInOrder, List.mem_cons, List.mem_filter] at hc
    rcases hc with rfl | ⟨h, -⟩
    · exact List.mem_cons_self _ _
    · exact List.mem_cons_of_mem _ (ih c h)

theorem distinctInOrder_nodup (l : List Char) : (distinctInOrder l).Nodup := by
  induction l with
  | nil => simp [distinctInOrder]
  | cons x xs ih =>
    simp only [distinctInOrder, List.nodup_cons, List.mem_filter]
    exact ⟨fun h => by simp at h, ih.filter _⟩

theorem generateSecretLoop_eq (draws : List Nat) (number : Str) (hlen : number.length ≤ 4) :
    generateSecretLoop draws number =
      if 4 ≤ (number ++ (distinctInOrder (draws.map (fun d => Char.ofNat ('0'.toNat + d)))).filter
            (fun x => !decide (x ∈ number))).length then
        some ((number ++ (distinctInOrder
            (draws.map (fun d => Char.ofNat ('0'.toNat + d)))).filter
            (fun x => !decide (x ∈ number))).take 4)
      else none := by
  induction draws generalizing number with
  | nil =>
    simp only [generateSecretLoop, List.map_nil, distinctInOrder, List.filter_nil,
      List.append_nil]
    by_cases h : number.length < 4
    · have h' : ¬ 4 ≤ number.length := by omega
      simp [h, h']
    · have h' : 4 ≤ number.length := by omega
      have h4 : number.length = 4 := by omega
      simp only [h, h', if_false, if_true]
      rw [List.take_of_length_le (by omega)]
  | cons d rest ih =>
    by_cases h : number.length < 4
    · by_cases hm : Char.ofNat ('0'.toNat + d) ∈ number
      · have key : (distinctInOrder
            ((d :: rest).map (fun d => Char.ofNat ('0'.toNat + d)))).filter
              (fun x => !decide (x ∈ number)) =
            (distinctInOrder (rest.map (fun d => Char.ofNat ('0'.toNat + d)))).filter
              (fun x => !decide (x ∈ number)) := by
          simp only [List.map_cons, distinctInOrder, List.filter_cons, hm, decide_True,
            Bool.not_true, List.filter_filter]
          simp only [Bool.false_eq_true, if_false]
          apply List.filter_congr
          intro x _
          by_cases hx : x ∈ number
          · simp [hx]
          · have : x ≠ Char.ofNat ('0'.toNat + d) := fun e => hx (e ▸ hm)
            simpa [hx] using this
        rw [key]
        simp only [generateSecretLoop, h, hm, if_true]
        exact ih number hlen
      · have key : number ++ (distinctInOrder
            ((d :: rest).map (fun d => Char.ofNat ('0'.toNat + d)))).filter
              (fun x => !decide (x ∈ number)) =
            (number ++ [Char.ofNat ('0'.toNat + d)]) ++
              (distinctInOrder (rest.map (fun d => Char.ofNat ('0'.toNat + d)))).filter
                (fun x => !decide (x ∈ number ++ [Char.ofNat ('0'.toNat + d)])) := by
          simp only [List.map_cons, distinctInOrder, List.filter_cons, hm, decide_False,
            Bool.not_false, if_true, List.filter_filter, List.append_assoc,
            List.singleton_append]
          congr 2
          apply List.filter_congr
          intro x _
          by_cases hx : x ∈ number
          · simp [hx]
          · by_cases hx' : x = Char.ofNat ('0'.toNat + d)
            · simp [hx, hx']
            · simp [hx, hx']
        rw [key]
        simp only [generateSecretLoop, h, hm, if_true, if_false]
        exact ih (number ++ [Char.ofNat ('0'.toNat + d)]) (by simp; omega)
    · have h4 : number.length = 4 := by omega
      have h' : 4 ≤ (number ++ (distinctInOrder
          ((d :: rest).map (fun d => Char.ofNat ('0'.toNat + d)))).filter
            (fun x => !decide (x ∈ number))).length := by
        simp only [List.length_append]
        omega
      simp only [generateSecretLoop, h, if_false, h', if_true]
      rw [List.take_append_of_le_length (by omega), List.take_of_length_le (by omega)]

theorem generateSecretNumber_eq (draws : List Nat) :
    generateSecretNumber draws =
      if 4 ≤ (distinctInOrder (draws.map (fun d => Char.ofNat ('0'.toNat + d)))).length then
        some (firstFourDistinct draws)
      else none := by
  unfold generateSecretNumber firstFourDistinct
  rw [generateSecretLoop_eq draws [] (by simp)]
  simp

theorem digit_of_draw (d : Nat) (h : d ≤ 9) : (Char.ofNat ('0'.toNat + d)).isDigit = true := by
  interval_cases d <;> decide

theorem firstFourDistinct_shape (draws : List Nat) (hd : ∀ d ∈ draws, d ≤ 9)
    (h4 : 4 ≤ (distinctInOrder (draws.map (fun d => Char.ofNat ('0'.toNat + d)))).length) :
    FourDistinctDigits (firstFourDistinct draws) := by
  unfold firstFourDistinct
  refine ⟨?_, ?_, ?_⟩
  · rw [List.length_take]
    omega
  · intro c hc
    have h1 := distinctInOrder_subset _ c (List.mem_of_mem_take hc)
    rw [List.mem_map] at h1
    obtain ⟨d, hdm, rfl⟩ := h1
    exact digit_of_draw d (hd d hdm)
  · exact (distinctInOrder_nodup _).sublist (List.take_sublist _ _)

theorem joinable_eq_true (dc : List (Str × Int)) (p : Int × GameSession) :
    joinable dc p = true ↔
      (p.2.player1 ≠ -1 ∧ p.2.player2 = -1 ∧ ∀ q ∈ dc, q.2 ≠ p.1) := by
  unfold joinable
  simp only [Bool.and_eq_true, Bool.not_eq_true', List.any_eq_false, decide_eq_true_eq]
  constructor
  · rintro ⟨⟨h1, h2⟩, h3⟩
    exact ⟨h2, h3, h1⟩
  · rintro ⟨h2, h3, h1⟩
    exact ⟨⟨h1, h2⟩, h3⟩

/-- C20: for a named client `c` whose nickname has no reservation, when no
session has slot 1 occupied, slot 2 vacant and no reservation pointing at it,
and the draws hold four distinct digits, `assignClientToSession` stores under
the identity `gameSessions.size()` a session with `c` in slot 1, slot 2
vacant, `c` as turn holder, no moves and a secret of 4 pairwise distinct
decimal digits, associates `c` with it and changes nothing else; and whenever
`generateSecretNumber` returns, it returns the first four distinct drawn digits
in order of first occurrence. -/
theorem assignClientToSession_create (draws : List Nat) (s : ServerState) (c : Int)
    (nick : Str)
    (hnick : Assoc.find s.clientNicknames c = some nick)
    (hnores : Assoc.find s.disconnectedClients nick = none)
    (hnojoin : ∀ p ∈ s.gameSessions,
      ¬ (p.2.player1 ≠ -1 ∧ p.2.player2 = -1 ∧ ∀ q ∈ s.disconnectedClients, q.2 ≠ p.1))
    (hdraws : ∀ d ∈ draws, d ≤ 9)
    (hfour : 4 ≤ (distinctInOrder (draws.map (fun d => Char.ofNat ('0'.toNat + d)))).length) :
    assignClientToSession draws c s =
        some
          { s with
            gameSessions :=
              Assoc.insert s.gameSessions s.gameSessions.length
                { player1 := c, player2 := -1, secretNumber := firstFourDistinct draws,
                  currentTurn := c, moveHistory := [] }
            clientSessions := Assoc.insert s.clientSessions c s.gameSessions.length } ∧
      Assoc.find
          (Assoc.insert s.gameSessions s.gameSessions.length
            { player1 := c, player2 := -1, secretNumber := firstFourDistinct draws,
              currentTurn := c, moveHistory := [] }) s.gameSessions.length =
        some
          { player1 := c, player2 := -1, secretNumber := firstFourDistinct draws,
            currentTurn := c, moveHistory := [] } ∧
      (∀ j : Int, j ≠ s.gameSessions.length →
        Assoc.find
            (Assoc.insert s.gameSessions s.gameSessions.length
              { player1 := c, player2 := -1, secretNumber := firstFourDistinct draws,
                currentTurn := c, moveHistory := [] }) j =
          Assoc.find s.gameSessions j) ∧
      FourDistinctDigits (firstFourDistinct draws) ∧
      (∀ (ds : List Nat) (secret : Str), generateSecretNumber ds = some secret →
        secret = firstFourDistinct ds ∧ secret.length = 4 ∧ secret.Nodup) := by
  refine ⟨?_, Assoc.find_insert_self _ _ _, fun j hj => Assoc.find_insert_ne _ _ _ _ hj,
    firstFourDistinct_shape draws hdraws hfour, ?_⟩
  · have hfind : s.gameSessions.find? (joinable s.disconnectedClients) = none := by
      rw [List.find?_eq_none]
      intro p hp hj
      exact hnojoin p hp ((joinable_eq_true _ _).1 hj)
    simp only [assignClientToSession, Assoc.index_of_find _ _ _ _ hnick, hnores, hfind,
      generateSecretNumber_eq, hfour, if_true]
  · intro ds secret h
    rw [generateSecretNumber_eq] at h
    split_ifs at h with h4
    simp only [Option.some.injEq] at h
    subst h
    refine ⟨rfl, ?_, ?_⟩
    · unfold firstFourDistinct
      rw [List.length_take]
      omega
    · unfold firstFourDistinct
      exact (distinctInOrder_nodup _).sublist (List.take_sublist _ _)

theorem assignClientToSession_create_witness :
    assignClientToSession [7, 7, 8, 9, 0] 4 aliceNamed =
        some
          { aliceNamed with
            gameSessions :=
              Assoc.insert aliceNamed.gameSessions aliceNamed.gameSessions.length
                { player1 := 4, player2 := -1,
                  secretNumber := firstFourDistinct [7, 7, 8, 9, 0],
                  currentTurn := 4, moveHistory := [] }
            clientSessions :=
              Assoc.insert aliceNamed.clientSessions 4 aliceNamed.gameSessions.length } ∧
      Assoc.find
          (Assoc.insert aliceNamed.gameSessions aliceNamed.gameSessions.length
            { player1 := 4, player2 := -1, secretNumber := firstFourDistinct [7, 7, 8, 9, 0],
              currentTurn := 4, moveHistory := [] })
          aliceNamed.gameSessions.length =
        some
          { player1 := 4, player2 := -1, secretNumber := firstFourDistinct [7, 7, 8, 9, 0],
            currentTurn := 4, moveHistory := [] } ∧
      (∀ j : Int, j ≠ aliceNamed.gameSessions.length →
        Assoc.find
            (Assoc.insert aliceNamed.gameSessions aliceNamed.gameSessions.length
              { player1 := 4, player2 := -1,
                secretNumber := firstFourDistinct [7, 7, 8, 9, 0],
                currentTurn := 4, moveHistory := [] }) j =
          Assoc.find aliceNamed.gameSessions j) ∧
      FourDistinctDigits (firstFourDistinct [7, 7, 8, 9, 0]) ∧
      (∀ (ds : List Nat) (secret : Str), generateSecretNumber ds = some secret →
        secret = firstFourDistinct ds ∧ secret.length = 4 ∧ secret.Nodup) :=
  assignClientToSession_create [7, 7, 8, 9, 0] aliceNamed 4 "alice".toList
    (by decide) (by decide) (by decide) (by decide) (by decide)

/-! ## Winning a game -/

theorem calculateBullsAndCows_self (g : Str) : (calculateBullsAndCows g g).1 = g.length := by
  unfold calculateBullsAndCows
  have h := bullsAndCowsLoop_bulls_eq g g g.length 0 (0, 0)
  simp only [Nat.zero_add] at h
  exact h.2 (by intros; trivial)

theorem handleWinCondition_teardown (s : ServerState) (c opp sid : Int)
    (sess : GameSession)
    (hbound : Assoc.find s.clientSessions c = some sid)
    (hsess : Assoc.find s.gameSessions sid = some sess)
    (hslots : (sess.player1 = c ∧ sess.player2 = opp) ∨ (sess.player1 = opp ∧ sess.player2 = c))
    (hopp : opp ≠ -1) (hdiff : opp ≠ c)
    (hoppbound : Assoc.find s.clientSessions opp = some sid) :
    (handleWinCondition c sess s).sent =
        s.sent ++ [(c, WIN_MSG), (opp, LOST_MSG), (c, ENDGAME_MSG), (opp, ENDGAME_MSG)] ∧
      Assoc.find (handleWinCondition c sess s).gameSessions sid = none ∧
      Assoc.find (handleWinCondition c sess s).clientNicknames c = none ∧
      Assoc.find (handleWinCondition c sess s).clientNicknames opp = none ∧
      Assoc.find (handleWinCondition c sess s).clientSessions c = none ∧
      Assoc.find (handleWinCondition c sess s).clientSessions opp = none ∧
      (∀ p ∈ (handleWinCondition c sess s).disconnectedClients, p.2 ≠ sid) := by
  have hcd : ¬ c = opp := fun e => hdiff e.symm
  have hopp' : ¬ (-1 : Int) = opp := fun e => hopp e.symm
  have hoppof : (if sess.player1 = c then sess.player2 else sess.player1) = opp := by
    rcases hslots with ⟨h1, h2⟩ | ⟨h1, h2⟩
    · rw [if_pos h1, h2]
    · rw [if_neg (by rw [h1]; exact hdiff), h1]
  have hoppof1 : opponentOf c sess = opp := hoppof
  have hstay : ¬ ((vacate c sess).player1 = -1 ∧ (vacate c sess).player2 = -1) := by
    obtain ⟨p1, p2, sec, turn, hist⟩ := sess
    simp only at hslots
    rcases hslots with ⟨rfl, rfl⟩ | ⟨rfl, rfl⟩
    · simp [vacate, hopp]
    · simp [vacate, hdiff, hopp]
  have hgone : (vacate opp (vacate c sess)).player1 = -1 ∧
      (vacate opp (vacate c sess)).player2 = -1 := by
    obtain ⟨p1, p2, sec, turn, hist⟩ := sess
    simp only at hslots
    rcases hslots with ⟨rfl, rfl⟩ | ⟨rfl, rfl⟩
    · simp [vacate, hopp']
    · simp [vacate, hdiff]
  have hoppof2 : opponentOf opp (vacate c sess) = -1 := by
    obtain ⟨p1, p2, sec, turn, hist⟩ := sess
    simp only at hslots
    rcases hslots with ⟨rfl, rfl⟩ | ⟨rfl, rfl⟩
    · simp [vacate, opponentOf, hopp']
    · simp [vacate, opponentOf, hdiff]
  simp only [handleWinCondition, hoppof]
  obtain ⟨sB, hsB⟩ : ∃ sB, sB = sendMessage opp ENDGAME_MSG
      (sendMessage c ENDGAME_MSG (sendMessage opp LOST_MSG (sendMessage c WIN_MSG s))) :=
    ⟨_, rfl⟩
  rw [← hsB]
  have hB1 : Assoc.find sB.clientSessions c = some sid := by rw [hsB]; exact hbound
  have hB2 : Assoc.find sB.gameSessions sid = some sess := by rw [hsB]; exact hsess
  have hB3 : Assoc.find sB.clientSessions opp = some sid := by rw [hsB]; exact hoppbound
  have hB4 : sB.sent =
      s.sent ++ [(c, WIN_MSG), (opp, LOST_MSG), (c, ENDGAME_MSG), (opp, ENDGAME_MSG)] := by
    rw [hsB]
    simp [sendMessage]
  rw [handleDisconnect_bound sB c sid sess true hB1 hB2]
  simp only [hstay, if_false, hoppof1]
  rw [handleDisconnect_bound _ opp sid (vacate c sess) true
    (by simpa [Assoc.find_erase_ne _ _ _ hdiff] using hB3)
    (by simp [Assoc.find_insert_self])]
  simp only [hgone, and_self, if_true, hoppof2]
  refine ⟨?_, ?_, ?_, ?_, ?_, ?_, ?_⟩
  · simpa using hB4
  · simp [Assoc.find_erase_self]
  · simp [Assoc.find_erase_ne _ _ _ hcd, Assoc.find_erase_self]
  · simp [Assoc.find_erase_self]
  · simp [Assoc.find_erase_ne _ _ _ hcd, Assoc.find_erase_self]
  · simp [Assoc.find_erase_self]
  · intro p hp
    simp only [ne_eq, not_true_eq_false, if_false] at hp
    simpa using (List.mem_filter.1 hp).2

theorem handleGameMessage_win_effect (s : ServerState) (c opp sid : Int)
    (sess : GameSession) (m raw : Str)
    (hbound : Assoc.find s.clientSessions c = some sid)
    (hsess : Assoc.find s.gameSessions sid = some sess)
    (hturn : sess.currentTurn = c)
    (hslots : (sess.player1 = c ∧ sess.player2 = opp) ∨ (sess.player1 = opp ∧ sess.player2 = c))
    (hc : c ≠ -1) (hopp : opp ≠ -1) (hdiff : opp ≠ c)
    (hoppbound : Assoc.find s.clientSessions opp = some sid)
    (hvalid : isValidGuess m = .VALID_GUESS)
    (hraw : raw = m ∨ raw = m ++ ['\n'])
    (hsecret : m.drop 1 = sess.secretNumber) :
    (handleGameMessage c raw s).sent =
        s.sent ++
          [(sess.player1, m ++ "B4C0\n".toList), (sess.player2, m ++ "B4C0\n".toList),
            (c, "WIN\n".toList), (opp, "LOST\n".toList), (c, "EG\n".toList),
            (opp, "EG\n".toList)] ∧
      Assoc.find (handleGameMessage c raw s).gameSessions sid = none ∧
      Assoc.find (handleGameMessage c raw s).clientNicknames c = none ∧
      Assoc.find (handleGameMessage c raw s).clientNicknames opp = none ∧
      Assoc.find (handleGameMessage c raw s).clientSessions c = none ∧
      Assoc.find (handleGameMessage c raw s).clientSessions opp = none ∧
      (∀ p ∈ (handleGameMessage c raw s).disconnectedClients, p.2 ≠ sid) := by
  have htrim := trim_of_guess m raw hvalid hraw
  have hp1 : sess.player1 ≠ -1 := by
    rcases hslots with ⟨h, -⟩ | ⟨h, -⟩ <;> rw [h] <;> assumption
  have hp2 : sess.player2 ≠ -1 := by
    rcases hslots with ⟨-, h⟩ | ⟨-, h⟩ <;> rw [h] <;> assumption
  obtain ⟨ds, hm, hlen, -, -⟩ := (isValidGuess_valid_iff m).1 hvalid
  have hds : m.drop 1 = ds := by rw [hm]; rfl
  have hbulls : (calculateBullsAndCows (m.drop 1) sess.secretNumber).1 = 4 := by
    rw [← hsecret, calculateBullsAndCows_self, hds, hlen]
  have hcows : (calculateBullsAndCows (m.drop 1) sess.secretNumber).2 = 0 := by
    have hsum := bullsAndCowsLoop_sum_le (m.drop 1) sess.secretNumber (m.drop 1).length 0 (0, 0)
    unfold calculateBullsAndCows at hbulls ⊢
    rw [hds, hlen] at hsum
    rw [hds, hlen] at hbulls ⊢
    simp only [Nat.zero_add] at hsum
    omega
  have hline : guessResponse m sess.secretNumber = m ++ "B4C0\n".toList := by
    unfold guessResponse
    simp only [hbulls, hcows]
    simp [to_string]
    decide
  have hoppof : (if sess.player1 = c then sess.player2 else sess.player1) = opp := by
    rcases hslots with ⟨h1, h2⟩ | ⟨h1, h2⟩
    · rw [if_pos h1, h2]
    · rw [if_neg (by rw [h1]; exact hdiff), h1]
  rw [handleGameMessage_win s c sid sess raw hbound hsess hturn hp1 hp2
    (by rw [htrim]; exact hvalid) (by rw [htrim]; exact hbulls), htrim, hline]
  obtain ⟨h1, h2, h3, h4, h5, h6, h7⟩ :=
    handleWinCondition_teardown
      { s with
        wrongTurnAttempts := Assoc.insert s.wrongTurnAttempts c 0
        gameSessions :=
          Assoc.insert s.gameSessions sid
            { sess with moveHistory := sess.moveHistory ++ [m ++ "B4C0\n".toList] }
        sent := s.sent ++
          [(sess.player1, m ++ "B4C0\n".toList), (sess.player2, m ++ "B4C0\n".toList)] }
      c opp sid { sess with moveHistory := sess.moveHistory ++ [m ++ "B4C0\n".toList] }
      hbound (Assoc.find_insert_self _ _ _) hslots hopp hdiff hoppbound
  refine ⟨?_, h2, h3, h4, h5, h6, h7⟩
  rw [h1]
  simp [WIN_MSG, LOST_MSG, ENDGAME_MSG]

/-! ## Invariants of the reachable states -/

theorem run_invariant (P : ServerState → Prop)
    (hstep : ∀ s e s', P s → step s e = some s' → P s') :
    ∀ (es : List Event) (s s' : ServerState), P s → run s es = some s' → P s' := by
  intro es
  induction es with
  | nil =>
    intro s s' hs h
    simp only [run, Option.some.injEq] at h
    rw [← h]
    exact hs
  | cons e es ih =>
    intro s s' hs h
    simp only [run] at h
    cases hstep1 : step s e with
    | none => rw [hstep1] at h; exact absurd h (by simp)
    | some s1 =>
      rw [hstep1] at h
      simp only [Option.some_bind] at h
      exact ih s1 s' (hstep s e s1 hs hstep1) h

theorem reachable_invariant (P : ServerState → Prop)
    (hinit : ∀ server_socket : Int, 0 ≤ server_socket → P (initialState server_socket))
    (hstep : ∀ s e s', P s → step s e = some s' → P s') :
    ∀ s, Reachable s → P s := by
  rintro s ⟨ss, es, hss, hrun⟩
  exact run_invariant P hstep es _ s (hinit ss hss) hrun

theorem NoNewNames.refl (cn : List (Int × Str)) : NoNewNames cn cn :=
  fun _ _ _ h => h

theorem NoNewNames.trans {cn cn' cn'' : List (Int × Str)} (h1 : NoNewNames cn cn')
    (h2 : NoNewNames cn' cn'') : NoNewNames cn cn'' :=
  fun b nick hne h => h1 b nick hne (h2 b nick hne h)

theorem NoNewNames.erase (cn : List (Int × Str)) (c : Int) :
    NoNewNames cn (Assoc.erase cn c) := by
  intro b nick _ h
  by_cases hb : b = c
  · subst hb
    rw [Assoc.find_erase_self] at h
    exact absurd h (by simp)
  · rwa [Assoc.find_erase_ne _ _ _ hb] at h

theorem NoNewNames.insert_empty (cn : List (Int × Str)) (c : Int) :
    NoNewNames cn (Assoc.insert cn c []) := by
  intro b nick hne h
  by_cases hb : b = c
  · subst hb
    rw [Assoc.find_insert_self] at h
    simp only [Option.some.injEq] at h
    exact absurd h.symm hne
  · rwa [Assoc.find_insert_ne _ _ _ _ hb] at h

theorem NoNewNames.index (cn : List (Int × Str)) (c : Int) :
    NoNewNames cn (Assoc.index cn c []).2 := by
  unfold Assoc.index
  split
  · exact NoNewNames.refl cn
  · exact NoNewNames.insert_empty cn c

theorem UniqueNicknames.of_noNewNames {cn cn' : List (Int × Str)} (h : UniqueNicknames cn)
    (hn : NoNewNames cn cn') : UniqueNicknames cn' :=
  fun a b nick ha hb hne => h a b nick (hn a nick hne ha) (hn b nick hne hb) hne

theorem handleDisconnect_names (c : Int) (e : Bool) (s : ServerState) :
    NoNewNames s.clientNicknames (handleDisconnect c e s).clientNicknames := by
  unfold handleDisconnect
  split
  · exact NoNewNames.refl _
  · simp only [Assoc.erase_index]
    exact NoNewNames.erase _ _

theorem handleWinCondition_names (w : Int) (session : GameSession) (s : ServerState) :
    NoNewNames s.clientNicknames (handleWinCondition w session s).clientNicknames := by
  unfold handleWinCondition
  simp only []
  refine NoNewNames.trans ?_ (handleDisconnect_names _ _ _)
  exact handleDisconnect_names _ _ _

theorem handleGameMessage_names (c : Int) (raw : Str) (s : ServerState) :
    NoNewNames s.clientNicknames (handleGameMessage c raw s).clientNicknames := by
  simp only [handleGameMessage]
  split_ifs
  · exact handleDisconnect_names c false _
  · exact NoNewNames.refl _
  · exact handleDisconnect_names c false _
  · exact NoNewNames.refl _
  · exact handleWinCondition_names c _ _
  · simp only [switchPlayerTurn_eq]
    exact NoNewNames.refl _

theorem assignClientToSession_names (draws : List Nat) (c : Int) (s s' : ServerState)
    (h : assignClientToSession draws c s = some s') :
    NoNewNames s.clientNicknames s'.clientNicknames := by
  unfold assignClientToSession at h
  simp only [] at h
  split at h
  · split_ifs at h <;> simp [sendMessage] at h <;> rw [← h] <;> exact NoNewNames.index _ _
  · split at h
    · simp [sendMessage] at h
      rw [← h]
      exact NoNewNames.index _ _
    · split at h
      · exact absurd h (by simp)
      · simp at h
        rw [← h]
        exact NoNewNames.index _ _

theorem handleNewConnection_names (fd : Int) (s : ServerState) :
    NoNewNames s.clientNicknames (handleNewConnection fd s).clientNicknames := by
  unfold handleNewConnection
  by_cases h1 : fd = -1
  · simp only [h1, if_true]
    exact NoNewNames.refl _
  · simp only [h1, if_false, sendMessage]
    split_ifs
    · exact NoNewNames.trans (NoNewNames.index _ _) (NoNewNames.insert_empty _ _)
    · exact NoNewNames.index _ _
    · exact NoNewNames.trans (NoNewNames.index _ _) (NoNewNames.insert_empty _ _)
    · exact NoNewNames.index _ _

theorem isNicknameInUse_false (cn : List (Int × Str)) (nick : Str)
    (h : isNicknameInUse cn nick = false) (b : Int) : Assoc.find cn b ≠ some nick := by
  intro hb
  rw [isNicknameInUse_of_find cn b nick hb] at h
  exact absurd h (by simp)

theorem UniqueNicknames.insert_fresh {cn : List (Int × Str)} (h : UniqueNicknames cn)
    (c : Int) (nick : Str) (hfresh : isNicknameInUse cn nick = false) :
    UniqueNicknames (Assoc.insert cn c nick) := by
  intro a b n ha hb hne
  by_cases hac : a = c
  · by_cases hbc : b = c
    · rw [hac, hbc]
    · subst hac
      rw [Assoc.find_insert_self] at ha
      rw [Assoc.find_insert_ne _ _ _ _ hbc] at hb
      simp only [Option.some.injEq] at ha
      subst ha
      exact absurd hb (isNicknameInUse_false cn _ hfresh b)
  · by_cases hbc : b = c
    · subst hbc
      rw [Assoc.find_insert_self] at hb
      rw [Assoc.find_insert_ne _ _ _ _ hac] at ha
      simp only [Option.some.injEq] at hb
      subst hb
      exact absurd ha (isNicknameInUse_false cn _ hfresh a)
    · rw [Assoc.find_insert_ne _ _ _ _ hac] at ha
      rw [Assoc.find_insert_ne _ _ _ _ hbc] at hb
      exact h a b n ha hb hne

theorem handleNicknameSetup_unique (draws : List Nat) (c : Int) (raw : Str)
    (s s' : ServerState) (hu : UniqueNicknames s.clientNicknames)
    (h : handleNicknameSetup draws c raw s = some s') : UniqueNicknames s'.clientNicknames := by
  simp only [handleNicknameSetup] at h
  split_ifs at h with h1 h2
  · simp only [Option.some.injEq] at h
    rw [← h]
    exact hu
  · simp only [Option.some.injEq] at h
    rw [← h]
    exact hu
  · have hfresh : isNicknameInUse s.clientNicknames (sanitizeNickname raw) = false := by
      simpa using h2
    exact (hu.insert_fresh c _ hfresh).of_noNewNames
      (assignClientToSession_names draws c _ s' h)

theorem step_unique (s : ServerState) (e : Event) (s' : ServerState)
    (hu : UniqueNicknames s.clientNicknames) (h : step s e = some s') :
    UniqueNicknames s'.clientNicknames := by
  unfold step at h
  split_ifs at h
  cases e with
  | connect fd =>
    simp only [Option.some.injEq] at h
    rw [← h]
    exact hu.of_noNewNames (handleNewConnection_names fd s)
  | data fd message draws =>
    simp only [handleClientData, processClientMessage] at h
    split_ifs at h with hping hempty
    · simp only [Option.some.injEq] at h
      rw [← h]
      exact hu
    · exact handleNicknameSetup_unique draws fd message _ s'
        (hu.of_noNewNames (NoNewNames.index _ _)) h
    · simp only [Option.some.injEq] at h
      rw [← h]
      exact (hu.of_noNewNames (NoNewNames.index _ _)).of_noNewNames
        (handleGameMessage_names fd message _)
  | hangup fd =>
    simp only [handleClientData, Option.some.injEq] at h
    rw [← h]
    exact hu.of_noNewNames (handleDisconnect_names fd false _)

/-- C16: in every reachable state a non-empty nickname bound to a descriptor
is bound to no other descriptor. -/
theorem reachable_nicknames_unique (s : ServerState) (hreach : Reachable s) (a b : Int)
    (nick : Str) (ha : Assoc.find s.clientNicknames a = some nick) (hne : nick ≠ [])
    (hab : b ≠ a) : Assoc.find s.clientNicknames b ≠ some nick := by
  have key : ∀ t, Reachable t → UniqueNicknames t.clientNicknames := by
    apply reachable_invariant (fun t => UniqueNicknames t.clientNicknames)
    · intro ss _ a b n ha _ _
      simp [initialState, Assoc.find] at ha
    · intro t e t' ht hstep
      exact step_unique t e t' ht hstep
  intro hb
  exact hab (key s hreach b a nick hb ha hne)

theorem reachable_nicknames_unique_witness :
    Reachable twoPlayers ∧ Assoc.find twoPlayers.clientNicknames 5 ≠ some "alice".toList :=
  ⟨⟨3, twoPlayersTrace, by decide, by decide⟩,
    reachable_nicknames_unique twoPlayers ⟨3, twoPlayersTrace, by decide, by decide⟩ 4 5
      "alice".toList (by decide) (by decide) (by decide)⟩

/-! ## Coherence of the registries -/

theorem Assoc.find_filter_value {κ : Type} [DecidableEq κ] (m : List (κ × Int)) (k : κ)
    (v sid : Int) (h : Assoc.find m k = some v) (hv : v ≠ sid) :
    Assoc.find (m.filter (fun p => !decide (p.2 = sid))) k = some v := by
  induction m with
  | nil => simp [Assoc.find] at h
  | cons p rest ih =>
    obtain ⟨k', v'⟩ := p
    by_cases hk : k' = k
    · subst hk
      simp only [Assoc.find, if_true, Option.some.injEq] at h
      subst h
      simp [List.filter_cons, hv, Assoc.find]
    · simp only [Assoc.find, hk, if_false] at h
      by_cases hv' : v' = sid
      · simp [List.filter_cons, hv', ih h]
      · simp [List.filter_cons, hv', Assoc.find, hk, ih h]

theorem Assoc.find_filter_none {κ α : Type} [DecidableEq κ] (m : List (κ × α)) (k : κ)
    (p : κ × α → Bool) (h : Assoc.find m k = none) : Assoc.find (m.filter p) k = none := by
  induction m with
  | nil => simp [Assoc.find]
  | cons q rest ih =>
    obtain ⟨k', v'⟩ := q
    by_cases hk : k' = k
    · subst hk
      simp [Assoc.find] at h
    · simp only [Assoc.find, hk, if_false] at h
      by_cases hp : p (k', v') = true
      · simp [List.filter_cons, hp, Assoc.find, hk, ih h]
      · simp [List.filter_cons, hp, ih h]

theorem Assoc.find_erase_none {κ α : Type} [DecidableEq κ] (m : List (κ × α)) (k j : κ)
    (h : Assoc.find m j = none) : Assoc.find (Assoc.erase m k) j = none :=
  Assoc.find_filter_none m j _ h

theorem Assoc.keys_insert {α : Type} (m : List (Int × α)) (k : Int) (v : α) :
    ∀ x ∈ (Assoc.insert m k v).map Prod.fst, x = k ∨ x ∈ m.map Prod.fst := by
  induction m with
  | nil => simp [Assoc.insert]
  | cons p rest ih =>
    obtain ⟨k', v'⟩ := p
    intro x hx
    unfold Assoc.insert at hx
    split_ifs at hx with h1 h2
    · simp only [List.map_cons, List.mem_cons] at hx ⊢
      rcases hx with h | h | h
      · exact Or.inl h
      · exact Or.inr (Or.inl h)
      · exact Or.inr (Or.inr h)
    · simp only [List.map_cons, List.mem_cons] at hx ⊢
      rcases hx with h | h
      · exact Or.inl h
      · exact Or.inr (Or.inr h)
    · simp only [List.map_cons, List.mem_cons] at hx ⊢
      rcases hx with h | h
      · exact Or.inr (Or.inl h)
      · rcases ih x h with h' | h'
        · exact Or.inl h'
        · exact Or.inr (Or.inr h')

theorem Assoc.sorted_insert {α : Type} (m : List (Int × α)) (k : Int) (v : α)
    (h : (m.map Prod.fst).Pairwise (fun a b => a < b)) :
    ((Assoc.insert m k v).map Prod.fst).Pairwise (fun a b => a < b) := by
  induction m with
  | nil => simp [Assoc.insert]
  | cons p rest ih =>
    obtain ⟨k', v'⟩ := p
    simp only [List.map_cons, List.pairwise_cons] at h
    unfold Assoc.insert
    split_ifs with h1 h2
    · simp only [List.map_cons, List.pairwise_cons, List.mem_cons]
      refine ⟨?_, h.1, h.2⟩
      rintro x (rfl | hx)
      · exact h1
      · exact lt_trans h1 (h.1 x hx)
    · subst h2
      simp only [List.map_cons, List.pairwise_cons]
      exact h
    · simp only [List.map_cons, List.pairwise_cons]
      refine ⟨?_, ih h.2⟩
      intro x hx
      rcases Assoc.keys_insert rest k v x hx with rfl | hx'
      · omega
      · exact h.1 x hx'

theorem Assoc.sorted_erase {α : Type} (m : List (Int × α)) (k : Int)
    (h : (m.map Prod.fst).Pairwise (fun a b => a < b)) :
    ((Assoc.erase m k).map Prod.fst).Pairwise (fun a b => a < b) := by
  unfold Assoc.erase
  exact h.sublist ((List.filter_sublist m).map Prod.fst)

theorem Assoc.sorted_index {α : Type} (m : List (Int × α)) (k : Int) (d : α)
    (h : (m.map Prod.fst).Pairwise (fun a b => a < b)) :
    (((Assoc.index m k d).2).map Prod.fst).Pairwise (fun a b => a < b) := by
  unfold Assoc.index
  split
  · exact h
  · exact Assoc.sorted_insert m k d h

theorem Assoc.find_index_ne {α : Type} (m : List (Int × α)) (k j : Int) (d : α)
    (h : j ≠ k) : Assoc.find (Assoc.index m k d).2 j = Assoc.find m j := by
  unfold Assoc.index
  split
  · rfl
  · exact Assoc.find_insert_ne m k j d h

theorem Assoc.find_index_self {α : Type} (m : List (Int × α)) (k : Int) (d : α) :
    Assoc.find (Assoc.index m k d).2 k = some ((Assoc.find m k).getD d) := by
  unfold Assoc.index
  split
  · next v hv => simp [hv]
  · next hv => simp [hv, Assoc.find_insert_self]

theorem handleDisconnect_eq (s : ServerState) (c sid : Int) (endgame : Bool)
    (hbound : Assoc.find s.clientSessions c = some sid) :
    handleDisconnect c endgame s =
      { s with
        clientNicknames := Assoc.erase s.clientNicknames c
        clientSessions := Assoc.erase s.clientSessions c
        gameSessions :=
          if (vacate c ((Assoc.find s.gameSessions sid).getD {})).player1 = -1 ∧
              (vacate c ((Assoc.find s.gameSessions sid).getD {})).player2 = -1 then
            Assoc.erase s.gameSessions sid
          else
            Assoc.insert s.gameSessions sid
              (vacate c ((Assoc.find s.gameSessions sid).getD {}))
        disconnectedClients :=
          if (vacate c ((Assoc.find s.gameSessions sid).getD {})).player1 = -1 ∧
              (vacate c ((Assoc.find s.gameSessions sid).getD {})).player2 = -1 then
            (if opponentOf c ((Assoc.find s.gameSessions sid).getD {}) ≠ -1 then
              Assoc.set s.disconnectedClients ((Assoc.find s.clientNicknames c).getD []) sid
            else s.disconnectedClients).filter (fun p => !decide (p.2 = sid))
          else
            (if opponentOf c ((Assoc.find s.gameSessions sid).getD {}) ≠ -1 then
              Assoc.set s.disconnectedClients ((Assoc.find s.clientNicknames c).getD []) sid
            else s.disconnectedClients)
        sent :=
          if endgame = false ∧ opponentOf c ((Assoc.find s.gameSessions sid).getD {}) ≠ -1 then
            s.sent ++
              [(opponentOf c ((Assoc.find s.gameSessions sid).getD {}), OPPONENT_DISCONNECTED)]
          else s.sent } := by
  simp only [handleDisconnect, hbound, Assoc.erase_index, Assoc.index_fst, Assoc.insert_index,
    opponentOf, vacate]
  by_cases hg : (if ((Assoc.find s.gameSessions sid).getD {}).player1 = c then
        { (Assoc.find s.gameSessions sid).getD {} with player1 := -1 }
        else { (Assoc.find s.gameSessions sid).getD {} with player2 := -1 } :
          GameSession).player1 = -1 ∧
      (if ((Assoc.find s.gameSessions sid).getD {}).player1 = c then
        { (Assoc.find s.gameSessions sid).getD {} with player1 := -1 }
        else { (Assoc.find s.gameSessions sid).getD {} with player2 := -1 } :
          GameSession).player2 = -1
  · simp [hg, Assoc.erase_insert, Assoc.erase_index]
  · simp [hg]
theorem Coherent.handleDisconnect {s : ServerState} (h : Coherent s) (c : Int)
    (endgame : Bool) : Coherent (handleDisconnect c endgame s) := by
  cases hb : Assoc.find s.clientSessions c with
  | none => rw [handleDisconnect_unbound c endgame s hb]; exact h
  | some sid =>
    obtain ⟨nick, hnick, hne⟩ := h.named c sid hb
    have hres : Assoc.find s.disconnectedClients nick = none :=
      h.noLiveReservation c nick hnick hne
    rw [handleDisconnect_eq s c sid endgame hb]
    simp only [hnick, Option.getD_some]
    refine ⟨?_, ?_, ?_, ?_, ?_, ?_⟩
    · exact h.unique.of_noNewNames (NoNewNames.erase _ _)
    · intro a sid' ha
      have hac : a ≠ c := by
        intro e
        rw [e, Assoc.find_erase_self] at ha
        exact absurd ha (by simp)
      simp only [Assoc.find_erase_ne _ _ _ hac] at ha ⊢
      exact h.named a sid' ha
    · intro a n ha hn
      have hac : a ≠ c := by
        intro e
        rw [e] at ha
        simp only [Assoc.find_erase_self] at ha
        exact absurd ha (by simp)
      simp only [Assoc.find_erase_ne _ _ _ hac] at ha
      have hnn : n ≠ nick := by
        intro e
        rw [e] at ha
        exact hac (h.unique a c nick ha hnick hne)
      have h0 := h.noLiveReservation a n ha hn
      simp only []
      split_ifs
      · exact Assoc.find_filter_none _ _ _ (by rw [Assoc.find_set_ne _ _ _ _ hnn]; exact h0)
      · exact Assoc.find_filter_none _ _ _ h0
      · rw [Assoc.find_set_ne _ _ _ _ hnn]; exact h0
      · exact h0
    · intro sid' sess' hs' hp1 hp2
      simp only [] at hs' ⊢
      by_cases hsid : sid' = sid
      · subst hsid
        by_cases hg : (vacate c ((Assoc.find s.gameSessions sid').getD {})).player1 = -1 ∧
            (vacate c ((Assoc.find s.gameSessions sid').getD {})).player2 = -1
        · simp only [hg, and_self, if_true, Assoc.find_erase_self] at hs'
          exact absurd hs' (by simp)
        · simp only [hg, if_false, Assoc.find_insert_self, Option.some.injEq] at hs' ⊢
          subst hs'
          have hopp : opponentOf c ((Assoc.find s.gameSessions sid').getD {}) ≠ -1 := by
            unfold vacate at hp1 hp2
            unfold opponentOf
            split_ifs at hp1 hp2 ⊢ with h1
            · exact hp2
            · exact absurd rfl hp2
          simp only [hopp, ne_eq, not_false_eq_true, if_true]
          exact ⟨nick, Assoc.find_set_self _ _ _⟩
      · have hs0 : Assoc.find s.gameSessions sid' = some sess' := by
          split_ifs at hs'
          · rwa [Assoc.find_erase_ne _ _ _ hsid] at hs'
          · rwa [Assoc.find_insert_ne _ _ _ _ hsid] at hs'
        obtain ⟨n, hn⟩ := h.reserved sid' sess' hs0 hp1 hp2
        have hnn : n ≠ nick := by
          intro e
          rw [e, hres] at hn
          exact absurd hn (by simp)
        refine ⟨n, ?_⟩
        split_ifs
        · exact Assoc.find_filter_value _ _ _ _
            (by rw [Assoc.find_set_ne _ _ _ _ hnn]; exact hn) hsid
        · exact Assoc.find_filter_value _ _ _ _ hn hsid
        · rw [Assoc.find_set_ne _ _ _ _ hnn]; exact hn
        · exact hn
    · simp only []
      split_ifs
      · exact Assoc.sorted_erase _ _ h.sorted
      · exact Assoc.sorted_insert _ _ _ h.sorted
    · exact h.descriptors

theorem Coherent.of_fields {s t : ServerState} (h : Coherent s)
    (h1 : t.clientNicknames = s.clientNicknames) (h2 : t.clientSessions = s.clientSessions)
    (h3 : t.gameSessions = s.gameSessions)
    (h4 : t.disconnectedClients = s.disconnectedClients)
    (h5 : ∀ fd ∈ t.master_set, fd ∈ s.master_set) : Coherent t := by
  refine ⟨?_, ?_, ?_, ?_, ?_, ?_⟩
  · rw [h1]; exact h.unique
  · rw [h1, h2]; exact h.named
  · rw [h1, h4]; exact h.noLiveReservation
  · rw [h3, h4]; exact h.reserved
  · rw [h3]; exact h.sorted
  · exact fun fd hfd => h.descriptors fd (h5 fd hfd)

theorem mem_FD_CLR (fd x : Int) (set : List Int) (h : x ∈ FD_CLR fd set) : x ∈ set := by
  unfold FD_CLR at h
  exact (List.mem_filter.1 h).1

theorem Coherent.handleWinCondition {s : ServerState} (h : Coherent s) (w : Int)
    (session : GameSession) : Coherent (handleWinCondition w session s) := by
  unfold SemUPS.handleWinCondition
  simp only []
  apply Coherent.handleDisconnect
  apply Coherent.handleDisconnect
  exact h.of_fields rfl rfl rfl rfl (fun _ hfd => hfd)

theorem Coherent.update_session {s : ServerState} (h : Coherent s) (sid : Int)
    (sess sess' : GameSession) (hs : Assoc.find s.gameSessions sid = some sess)
    (h1 : sess'.player1 = sess.player1) (h2 : sess'.player2 = sess.player2) :
    Coherent { s with gameSessions := Assoc.insert s.gameSessions sid sess' } := by
  refine ⟨h.unique, h.named, h.noLiveReservation, ?_, Assoc.sorted_insert _ _ _ h.sorted,
    h.descriptors⟩
  intro sid' x hx hp1 hp2
  simp only [] at hx ⊢
  by_cases hsid : sid' = sid
  · subst hsid
    rw [Assoc.find_insert_self] at hx
    simp only [Option.some.injEq] at hx
    subst hx
    exact h.reserved sid' sess hs (h1 ▸ hp1) (h2 ▸ hp2)
  · rw [Assoc.find_insert_ne _ _ _ _ hsid] at hx
    exact h.reserved sid' x hx hp1 hp2

theorem Coherent.index_lookups {s : ServerState} (h : Coherent s) (c : Int)
    (hnamed : ∃ nick, Assoc.find s.clientNicknames c = some nick ∧ nick ≠ []) (sid : Int) :
    Coherent
      { s with
        clientSessions := (Assoc.index s.clientSessions c 0).2
        gameSessions := (Assoc.index s.gameSessions sid {}).2 } := by
  refine ⟨h.unique, ?_, h.noLiveReservation, ?_, Assoc.sorted_index _ _ _ h.sorted,
    h.descriptors⟩
  · intro a sid' ha
    simp only [] at ha ⊢
    by_cases hac : a = c
    · subst hac
      exact hnamed
    · rw [Assoc.find_index_ne _ _ _ _ hac] at ha
      exact h.named a sid' ha
  · intro sid' x hx hp1 hp2
    simp only [] at hx ⊢
    by_cases hsid : sid' = sid
    · subst hsid
      rw [Assoc.find_index_self] at hx
      simp only [Option.some.injEq] at hx
      cases hf : Assoc.find s.gameSessions sid' with
      | none =>
        rw [hf] at hx
        simp only [Option.getD_none] at hx
        subst hx
        exact absurd rfl hp2
      | some y =>
        rw [hf] at hx
        simp only [Option.getD_some] at hx
        subst hx
        exact h.reserved sid' y hf hp1 hp2
    · rw [Assoc.find_index_ne _ _ _ _ hsid] at hx
      exact h.reserved sid' x hx hp1 hp2

theorem Coherent.handleGameMessage {s : ServerState} (h : Coherent s) (c : Int) (raw : Str)
    (hnamed : ∃ nick, Assoc.find s.clientNicknames c = some nick ∧ nick ≠ []) :
    Coherent (handleGameMessage c raw s) := by
  have h0 := h.index_lookups c hnamed (Assoc.index s.clientSessions c 0).1
  have hf0 : Assoc.find (Assoc.index s.gameSessions (Assoc.index s.clientSessions c 0).1 {}).2
      (Assoc.index s.clientSessions c 0).1 =
        some (Assoc.index s.gameSessions (Assoc.index s.clientSessions c 0).1 {}).1 := by
    rw [Assoc.find_index_self, ← Assoc.index_fst]
  simp only [SemUPS.handleGameMessage]
  generalize Assoc.index s.wrongTurnAttempts c 0 = iwt
  generalize Assoc.index s.gameSessions (Assoc.index s.clientSessions c 0).1 {} = igs
    at h0 hf0 ⊢
  generalize Assoc.index s.clientSessions c 0 = ics at h0 hf0 ⊢
  obtain ⟨sid, cs0⟩ := ics
  obtain ⟨sess, gs0⟩ := igs
  obtain ⟨n, wt0⟩ := iwt
  simp only at h0 hf0 ⊢
  split_ifs
  · have hA : Coherent (sendMessage c WRONG_FORMAT
        { s with
          clientSessions := cs0
          gameSessions := gs0
          wrongTurnAttempts := Assoc.insert wt0 c (n + 1) }) :=
      h0.of_fields rfl rfl rfl rfl (fun _ hfd => hfd)
    exact (hA.handleDisconnect c false).of_fields rfl rfl rfl rfl
      (fun fd hfd => mem_FD_CLR _ _ _ hfd)
  · exact h0.of_fields rfl rfl rfl rfl (fun _ hfd => hfd)
  · have hA : Coherent (sendMessage c WRONG_FORMAT
        { s with
          clientSessions := cs0
          gameSessions := gs0
          wrongTurnAttempts := Assoc.insert s.wrongTurnAttempts c 0 }) :=
      h0.of_fields rfl rfl rfl rfl (fun _ hfd => hfd)
    exact (hA.handleDisconnect c false).of_fields rfl rfl rfl rfl
      (fun fd hfd => mem_FD_CLR _ _ _ hfd)
  · exact h0.of_fields rfl rfl rfl rfl (fun _ hfd => hfd)
  · apply Coherent.handleWinCondition
    have h1 := h0.update_session sid sess
      { sess with
        moveHistory :=
          sess.moveHistory ++ [guessResponse (trimTrailingNewline raw) sess.secretNumber] }
      hf0 rfl rfl
    exact h1.of_fields rfl rfl rfl rfl (fun _ hfd => hfd)
  · simp only [switchPlayerTurn_eq, sendToBothPlayers, sendMessage]
    have h1 := h0.update_session sid sess
      { sess with
        moveHistory :=
          sess.moveHistory ++ [guessResponse (trimTrailingNewline raw) sess.secretNumber] }
      hf0 rfl rfl
    have h2 := h1.update_session sid _
      { sess with
        currentTurn := if sess.currentTurn = sess.player1 then sess.player2 else sess.player1
        moveHistory :=
          sess.moveHistory ++ [guessResponse (trimTrailingNewline raw) sess.secretNumber] }
      (Assoc.find_insert_self _ _ _) rfl rfl
    exact h2.of_fields rfl rfl rfl rfl (fun _ hfd => hfd)

theorem assignClientToSession_rejoin_eq_general (draws : List Nat) (s : ServerState)
    (c sid : Int) (nick : Str)
    (hnick : Assoc.find s.clientNicknames c = some nick)
    (hdir : Assoc.find s.disconnectedClients nick = some sid) :
    assignClientToSession draws c s =
      some
        { s with
          gameSessions :=
            Assoc.insert s.gameSessions sid
              (rejoinSlot c ((Assoc.find s.gameSessions sid).getD {}))
          clientSessions := Assoc.insert s.clientSessions c sid
          disconnectedClients := Assoc.erase s.disconnectedClients nick
          sent := s.sent ++
            ((Assoc.find s.gameSessions sid).getD {}).moveHistory.map (fun move => (c, move)) ++
            rejoinTurnNotes (rejoinSlot c ((Assoc.find s.gameSessions sid).getD {})) } := by
  simp only [assignClientToSession, Assoc.index_of_find _ _ _ _ hnick, hdir,
    Assoc.insert_index, Assoc.index_fst, rejoinTurnNotes, rejoinSlot, sendMessage]
  by_cases hp1 : ((Assoc.find s.gameSessions sid).getD {}).player1 = -1
  · simp only [hp1, if_true]
    split_ifs <;> simp
  · simp only [hp1, if_false]
    split_ifs <;> simp

theorem assignClientToSession_join_eq (draws : List Nat) (s : ServerState) (c sid : Int)
    (nick : Str) (sess : GameSession)
    (hnick : Assoc.find s.clientNicknames c = some nick)
    (hnores : Assoc.find s.disconnectedClients nick = none)
    (hfind : s.gameSessions.find? (joinable s.disconnectedClients) = some (sid, sess)) :
    assignClientToSession draws c s =
      some
        { s with
          gameSessions :=
            Assoc.insert s.gameSessions sid
              { sess with player2 := c, currentTurn := sess.player1 }
          clientSessions := Assoc.insert s.clientSessions c sid
          sent := s.sent ++
            [(sess.player1, GAME_START), (c, GAME_START), (sess.player1, UR_TURN),
              (c, OPP_TURN)] } := by
  simp only [assignClientToSession, Assoc.index_of_find _ _ _ _ hnick, hnores, hfind,
    sendMessage]
  simp

theorem assignClientToSession_create_eq (draws : List Nat) (s : ServerState) (c : Int)
    (nick : Str)
    (hnick : Assoc.find s.clientNicknames c = some nick)
    (hnores : Assoc.find s.disconnectedClients nick = none)
    (hfind : s.gameSessions.find? (joinable s.disconnectedClients) = none) :
    assignClientToSession draws c s =
      (generateSecretNumber draws).map (fun secret =>
        { s with
          gameSessions :=
            Assoc.insert s.gameSessions s.gameSessions.length
              { player1 := c, player2 := -1, secretNumber := secret, currentTurn := c,
                moveHistory := [] }
          clientSessions := Assoc.insert s.clientSessions c s.gameSessions.length }) := by
  simp only [assignClientToSession, Assoc.index_of_find _ _ _ _ hnick, hnores, hfind]
  cases generateSecretNumber draws <;> rfl

theorem Coherent.assign_result {s : ServerState} (h : Coherent s) (c sid : Int) (nick : Str)
    (hne : nick ≠ []) (hfresh : isNicknameInUse s.clientNicknames nick = false)
    (t : ServerState)
    (hcn : t.clientNicknames = Assoc.insert s.clientNicknames c nick)
    (hcs : t.clientSessions = Assoc.insert s.clientSessions c sid)
    (hms : t.master_set = s.master_set)
    (hdc_c : Assoc.find t.disconnectedClients nick = none)
    (hdc_none : ∀ n, Assoc.find s.disconnectedClients n = none →
      Assoc.find t.disconnectedClients n = none)
    (hres : ∀ (sid' : Int) (sess' : GameSession), Assoc.find t.gameSessions sid' = some sess' →
      sess'.player1 = -1 → sess'.player2 ≠ -1 →
        ∃ n, Assoc.find t.disconnectedClients n = some sid')
    (hsorted : (t.gameSessions.map Prod.fst).Pairwise (fun a b => a < b)) : Coherent t := by
  refine ⟨?_, ?_, ?_, hres, hsorted, ?_⟩
  · rw [hcn]
    exact h.unique.insert_fresh c nick hfresh
  · intro a sid' ha
    rw [hcs] at ha
    rw [hcn]
    by_cases hac : a = c
    · subst hac
      exact ⟨nick, Assoc.find_insert_self _ _ _, hne⟩
    · rw [Assoc.find_insert_ne _ _ _ _ hac] at ha ⊢
      exact h.named a sid' ha
  · intro a n ha hn
    rw [hcn] at ha
    by_cases hac : a = c
    · subst hac
      rw [Assoc.find_insert_self] at ha
      simp only [Option.some.injEq] at ha
      subst ha
      exact hdc_c
    · rw [Assoc.find_insert_ne _ _ _ _ hac] at ha
      exact hdc_none n (h.noLiveReservation a n ha hn)
  · rw [hms]
    exact h.descriptors

theorem Coherent.handleNicknameSetup {s s' : ServerState} (h : Coherent s)
    (draws : List Nat) (c : Int) (raw : Str) (hc : c ≠ -1)
    (heq : handleNicknameSetup draws c raw s = some s') : Coherent s' := by
  simp only [SemUPS.handleNicknameSetup] at heq
  split_ifs at heq with h1 h2
  · simp only [Option.some.injEq] at heq
    rw [← heq]
    exact h
  · simp only [Option.some.injEq] at heq
    rw [← heq]
    exact h.of_fields rfl rfl rfl rfl (fun _ hfd => hfd)
  · have hfresh : isNicknameInUse s.clientNicknames (sanitizeNickname raw) = false := by
      simpa using h2
    have hne : sanitizeNickname raw ≠ [] := by
      intro e
      rw [e] at h1
      exact h1 rfl
    generalize sanitizeNickname raw = nick at heq hfresh hne
    have hnick : Assoc.find
        (sendMessage c NICKNAME_SET
          { s with clientNicknames := Assoc.insert s.clientNicknames c nick }).clientNicknames c
          = some nick := Assoc.find_insert_self _ _ _
    cases hdir : Assoc.find s.disconnectedClients nick with
    | some sid =>
      rw [assignClientToSession_rejoin_eq_general draws _ c sid nick hnick hdir] at heq
      simp only [Option.some.injEq] at heq
      rw [← heq]
      refine h.assign_result c sid nick hne hfresh _ rfl rfl rfl ?_ ?_ ?_ ?_
      · exact Assoc.find_erase_self _ _
      · intro n hn
        exact Assoc.find_erase_none _ _ _ hn
      · intro sid' sess' hs' hp1 hp2
        simp only [sendMessage] at hs' ⊢
        by_cases hsid : sid' = sid
        · subst hsid
          rw [Assoc.find_insert_self] at hs'
          simp only [Option.some.injEq] at hs'
          subst hs'
          unfold rejoinSlot at hp1 hp2
          split_ifs at hp1 hp2 with hv
          · exact absurd hp1 hc
          · exact absurd hp1 hv
        · rw [Assoc.find_insert_ne _ _ _ _ hsid] at hs'
          obtain ⟨n, hn⟩ := h.reserved sid' sess' hs' hp1 hp2
          have hnn : n ≠ nick := by
            intro e
            rw [e, hdir] at hn
            simp only [Option.some.injEq] at hn
            exact hsid hn.symm
          exact ⟨n, by rw [Assoc.find_erase_ne _ _ _ hnn]; exact hn⟩
      · exact Assoc.sorted_insert _ _ _ h.sorted
    | none =>
      cases hfind : s.gameSessions.find? (joinable s.disconnectedClients) with
      | some p =>
        obtain ⟨sid, sess⟩ := p
        rw [assignClientToSession_join_eq draws _ c sid nick sess hnick hdir hfind] at heq
        simp only [Option.some.injEq] at heq
        rw [← heq]
        have hj : joinable s.disconnectedClients (sid, sess) = true :=
          List.find?_some hfind
        have hjp := (joinable_eq_true _ _).1 hj
        refine h.assign_result c sid nick hne hfresh _ rfl rfl rfl hdir (fun n hn => hn) ?_ ?_
        · intro sid' sess' hs' hp1 hp2
          simp only [sendMessage] at hs' ⊢
          by_cases hsid : sid' = sid
          · subst hsid
            rw [Assoc.find_insert_self] at hs'
            simp only [Option.some.injEq] at hs'
            subst hs'
            exact absurd hp1 hjp.1
          · rw [Assoc.find_insert_ne _ _ _ _ hsid] at hs'
            exact h.reserved sid' sess' hs' hp1 hp2
        · exact Assoc.sorted_insert _ _ _ h.sorted
      | none =>
        rw [assignClientToSession_create_eq draws _ c nick hnick hdir hfind] at heq
        cases hsec : generateSecretNumber draws with
        | none =>
          rw [hsec] at heq
          exact absurd heq (by simp)
        | some secret =>
          rw [hsec] at heq
          simp only [Option.map_some', Option.some.injEq] at heq
          rw [← heq]
          refine h.assign_result c _ nick hne hfresh _ rfl rfl rfl hdir (fun n hn => hn) ?_ ?_
          · intro sid' sess' hs' hp1 hp2
            simp only [sendMessage] at hs' ⊢
            by_cases hsid : sid' = (s.gameSessions.length : Int)
            · subst hsid
              rw [Assoc.find_insert_self] at hs'
              simp only [Option.some.injEq] at hs'
              subst hs'
              exact absurd rfl hp2
            · rw [Assoc.find_insert_ne _ _ _ _ hsid] at hs'
              exact h.reserved sid' sess' hs' hp1 hp2
          · exact Assoc.sorted_insert _ _ _ h.sorted

theorem Coherent.of_names {s t : ServerState} (h : Coherent s)
    (hnew : NoNewNames s.clientNicknames t.clientNicknames)
    (hkeep : ∀ (a : Int) (nick : Str), Assoc.find s.clientNicknames a = some nick → nick ≠ [] →
      Assoc.find t.clientNicknames a = some nick)
    (h2 : t.clientSessions = s.clientSessions) (h3 : t.gameSessions = s.gameSessions)
    (h4 : t.disconnectedClients = s.disconnectedClients)
    (h5 : ∀ fd ∈ t.master_set, 0 ≤ fd) : Coherent t := by
  refine ⟨h.unique.of_noNewNames hnew, ?_, ?_, ?_, ?_, h5⟩
  · intro a sid ha
    rw [h2] at ha
    obtain ⟨nick, hn, hne⟩ := h.named a sid ha
    exact ⟨nick, hkeep a nick hn hne, hne⟩
  · intro a nick ha hne
    rw [h4]
    exact h.noLiveReservation a nick (hnew a nick hne ha) hne
  · rw [h3, h4]; exact h.reserved
  · rw [h3]; exact h.sorted

theorem Assoc.find_index_keep (cn : List (Int × Str)) (c a : Int) (nick : Str)
    (h : Assoc.find cn a = some nick) : Assoc.find (Assoc.index cn c []).2 a = some nick := by
  by_cases hac : a = c
  · subst hac
    rw [Assoc.find_index_self, h]
    rfl
  · rw [Assoc.find_index_ne _ _ _ _ hac]
    exact h

theorem Coherent.index_names {s : ServerState} (h : Coherent s) (c : Int) :
    Coherent { s with clientNicknames := (Assoc.index s.clientNicknames c []).2 } :=
  h.of_names (NoNewNames.index _ _) (fun a nick ha _ => Assoc.find_index_keep _ c a nick ha)
    rfl rfl rfl h.descriptors

theorem mem_FD_SET (fd x : Int) (set : List Int) (h : x ∈ FD_SET fd set) :
    x ∈ set ∨ x = fd := by
  unfold FD_SET at h
  split_ifs at h
  · exact Or.inl h
  · simpa using h

theorem Coherent.handleNewConnection {s : ServerState} (h : Coherent s) (fd : Int)
    (hfd : 0 ≤ fd) : Coherent (handleNewConnection fd s) := by
  apply h.of_names (handleNewConnection_names fd s)
  · intro a nick ha hne
    unfold SemUPS.handleNewConnection
    by_cases h1 : fd = -1
    · simp only [h1, if_true]
      exact ha
    · simp only [h1, if_false, sendMessage]
      have hk : Assoc.find (Assoc.index s.clientNicknames fd []).2 a = some nick :=
        Assoc.find_index_keep _ fd a nick ha
      by_cases hac : a = fd
      · subst hac
        have h1 : (Assoc.index s.clientNicknames a []).1 = nick := by
          rw [Assoc.index_fst, ha]
          rfl
        have h2 : (Assoc.index s.clientNicknames a []).1.isEmpty = false := by
          rw [h1]
          cases nick with
          | nil => exact absurd rfl hne
          | cons x xs => rfl
        split_ifs <;> simp only [h2] at * <;> first | exact hk | contradiction
      · split_ifs
        · rw [Assoc.find_insert_ne _ _ _ _ hac]; exact hk
        · exact hk
        · rw [Assoc.find_insert_ne _ _ _ _ hac]; exact hk
        · exact hk
  · unfold SemUPS.handleNewConnection
    by_cases h1 : fd = -1
    · simp only [h1, if_true]
    · simp only [h1, if_false, sendMessage]
      split_ifs <;> rfl
  · unfold SemUPS.handleNewConnection
    by_cases h1 : fd = -1
    · simp only [h1, if_true]
    · simp only [h1, if_false, sendMessage]
      split_ifs <;> rfl
  · unfold SemUPS.handleNewConnection
    by_cases h1 : fd = -1
    · simp only [h1, if_true]
    · simp only [h1, if_false, sendMessage]
      split_ifs <;> rfl
  · intro x hx
    unfold SemUPS.handleNewConnection at hx
    by_cases h1 : fd = -1
    · simp only [h1, if_true] at hx
      exact h.descriptors x hx
    · simp only [h1, if_false, sendMessage] at hx
      have hx' : x ∈ FD_SET fd s.master_set := by
        split_ifs at hx <;> exact hx
      rcases mem_FD_SET fd x _ hx' with hm | rfl
      · exact h.descriptors x hm
      · exact hfd

theorem step_coherent (s : ServerState) (e : Event) (s' : ServerState)
    (h : Coherent s) (hstep : step s e = some s') : Coherent s' := by
  unfold step at hstep
  split_ifs at hstep with hen
  cases e with
  | connect fd =>
    simp only [Option.some.injEq] at hstep
    rw [← hstep]
    simp only [Event.enabled, Bool.and_eq_true, decide_eq_true_eq] at hen
    exact h.handleNewConnection fd hen.1
  | data fd message draws =>
    simp only [Event.enabled, Bool.and_eq_true, decide_eq_true_eq] at hen
    have hfd : 0 ≤ fd := h.descriptors fd hen.1.1.1.1
    have hc : fd ≠ -1 := by omega
    simp only [handleClientData, processClientMessage] at hstep
    split_ifs at hstep with hping hempty
    · simp only [Option.some.injEq] at hstep
      rw [← hstep]
      exact h
    · exact (h.index_names fd).handleNicknameSetup draws fd message hc hstep
    · simp only [Option.some.injEq] at hstep
      rw [← hstep]
      apply (h.index_names fd).handleGameMessage fd message
      refine ⟨(Assoc.index s.clientNicknames fd []).1, ?_, ?_⟩
      · show Assoc.find (Assoc.index s.clientNicknames fd []).2 fd = _
        rw [Assoc.find_index_self, Assoc.index_fst]
      · intro e
        rw [e] at hempty
        exact hempty rfl
  | hangup fd =>
    simp only [handleClientData, Option.some.injEq] at hstep
    rw [← hstep]
    apply Coherent.handleDisconnect
    exact h.of_fields rfl rfl rfl rfl (fun x hx => mem_FD_CLR _ _ _ hx)

theorem initialState_coherent (server_socket : Int) (h : 0 ≤ server_socket) :
    Coherent (initialState server_socket) := by
  refine ⟨?_, ?_, ?_, ?_, ?_, ?_⟩
  · intro a b n ha _ _
    simp [initialState, Assoc.find] at ha
  · intro a sid ha
    simp [initialState, Assoc.find] at ha
  · intro a n ha _
    simp [initialState, Assoc.find] at ha
  · intro sid sess ha
    simp [initialState, Assoc.find] at ha
  · simp [initialState]
  · intro fd hfd
    simp only [initialState, List.mem_singleton] at hfd
    rw [hfd]
    exact h

theorem reachable_coherent (s : ServerState) (h : Reachable s) : Coherent s :=
  reachable_invariant Coherent initialState_coherent step_coherent s h

/-! ## Joining a waiting session -/

theorem Assoc.find_of_mem_sorted {α : Type} (m : List (Int × α)) (k : Int) (v : α)
    (hs : (m.map Prod.fst).Pairwise (fun a b => a < b)) (h : (k, v) ∈ m) :
    Assoc.find m k = some v := by
  induction m with
  | nil => simp at h
  | cons p rest ih =>
    obtain ⟨k', v'⟩ := p
    simp only [List.map_cons, List.pairwise_cons] at hs
    rcases List.mem_cons.1 h with heq | hmem
    · simp only [Prod.mk.injEq] at heq
      obtain ⟨rfl, rfl⟩ := heq
      simp [Assoc.find]
    · have hlt : k' < k := hs.1 k (List.mem_map.2 ⟨(k, v), hmem, rfl⟩)
      have hne : ¬ k' = k := by omega
      simp only [Assoc.find, hne, if_false]
      exact ih hs.2 hmem

theorem Assoc.keys_insert_present {α : Type} (m : List (Int × α)) (k : Int) (v0 v : α)
    (hs : (m.map Prod.fst).Pairwise (fun a b => a < b)) (h : Assoc.find m k = some v0) :
    (Assoc.insert m k v).map Prod.fst = m.map Prod.fst := by
  induction m with
  | nil => simp [Assoc.find] at h
  | cons p rest ih =>
    obtain ⟨k', v'⟩ := p
    simp only [List.map_cons, List.pairwise_cons] at hs
    by_cases hk : k' = k
    · subst hk
      simp [Assoc.insert]
    · simp only [Assoc.find, hk, if_false] at h
      have hmem := Assoc.mem_of_find rest k v0 h
      have hlt : k' < k := hs.1 k (List.mem_map.2 ⟨(k, v0), hmem, rfl⟩)
      have h1 : ¬ k < k' := by omega
      have h2 : ¬ k = k' := fun e => hk e.symm
      simp only [Assoc.insert, h1, h2, if_false, List.map_cons, ih hs.2 h]

theorem find?_first_sorted {α : Type} (p : Int × α → Bool) (l : List (Int × α))
    (hs : (l.map Prod.fst).Pairwise (fun a b => a < b)) (x y : Int × α)
    (hx : l.find? p = some x) (hy : y ∈ l) (hp : p y = true) : x.1 ≤ y.1 := by
  induction l with
  | nil => simp at hy
  | cons q rest ih =>
    simp only [List.map_cons, List.pairwise_cons] at hs
    by_cases hq : p q = true
    · simp only [List.find?, hq, Option.some.injEq] at hx
      subst hx
      rcases List.mem_cons.1 hy with rfl | hmem
      · exact le_refl _
      · exact le_of_lt (hs.1 y.1 (List.mem_map.2 ⟨y, hmem, rfl⟩))
    · have hq' : p q = false := by simpa using hq
      simp only [List.find?, hq'] at hx
      rcases List.mem_cons.1 hy with rfl | hmem
      · exact absurd hp hq
      · exact ih hs.2 hx hmem

theorem joinCandidate_iff (s : ServerState)
    (hres : ∀ (sid : Int) (sess : GameSession), Assoc.find s.gameSessions sid = some sess →
      sess.player1 = -1 → sess.player2 ≠ -1 → reservedSession s.disconnectedClients sid)
    (hs : (s.gameSessions.map Prod.fst).Pairwise (fun a b => a < b)) (sid : Int)
    (sess : GameSession) :
    joinCandidate s sid sess ↔
      ((sid, sess) ∈ s.gameSessions ∧ joinable s.disconnectedClients (sid, sess) = true) := by
  rw [joinable_eq_true]
  constructor
  · rintro ⟨hf, hone, hno⟩
    refine ⟨Assoc.mem_of_find _ _ _ hf, ?_⟩
    have hno' : ∀ q ∈ s.disconnectedClients, q.2 ≠ sid :=
      fun q hq e => hno ⟨q, hq, e⟩
    rcases hone with ⟨h1, h2⟩ | ⟨h1, h2⟩
    · exact ⟨h1, h2, hno'⟩
    · exact absurd (hres sid sess hf h1 h2) hno
  · rintro ⟨hmem, h1, h2, hno⟩
    refine ⟨Assoc.find_of_mem_sorted _ _ _ hs hmem, Or.inl ⟨h1, h2⟩, ?_⟩
    rintro ⟨q, hq, e⟩
    exact hno q hq e

/-- The join branch: a newly named client whose nickname has no Reconnection
Directory entry, in a state whose session registry and Reconnection Directory are those
of a reachable state (entering the nickname changes neither): when some session
has exactly one occupied slot and no entry pointing at it, the session of least
identity among these has slot 1 occupied and slot 2 vacant, and
`assignClientToSession` puts the client in its slot 2, gives the turn to slot 1,
sends SG to slot 1 and to the client, then UT to slot 1 and OT to the client,
adds no identity to the registry, and leaves every session that has an entry
pointing at it as it was. -/
theorem assignClientToSession_join (draws : List Nat) (s0 s : ServerState) (c : Int)
    (nick : Str) (hreach : Reachable s0)
    (hgs : s.gameSessions = s0.gameSessions)
    (hdc : s.disconnectedClients = s0.disconnectedClients)
    (hnick : Assoc.find s.clientNicknames c = some nick)
    (hnores : Assoc.find s.disconnectedClients nick = none)
    (hcand : ∃ sid sess, joinCandidate s sid sess) :
    ∃ (sid : Int) (sess : GameSession) (s' : ServerState),
      joinCandidate s sid sess ∧
      (∀ sid' sess', joinCandidate s sid' sess' → sid ≤ sid') ∧
      sess.player1 ≠ -1 ∧ sess.player2 = -1 ∧
      assignClientToSession draws c s = some s' ∧
      s' =
        { s with
          gameSessions :=
            Assoc.insert s.gameSessions sid
              { sess with player2 := c, currentTurn := sess.player1 }
          clientSessions := Assoc.insert s.clientSessions c sid
          sent := s.sent ++
            [(sess.player1, GAME_START), (c, GAME_START), (sess.player1, UR_TURN),
              (c, OPP_TURN)] } ∧
      s'.gameSessions.map Prod.fst = s.gameSessions.map Prod.fst ∧
      (∀ sid', reservedSession s.disconnectedClients sid' →
        Assoc.find s'.gameSessions sid' = Assoc.find s.gameSessions sid') := by
  have hco := reachable_coherent s0 hreach
  have hres : ∀ (sid : Int) (sess : GameSession), Assoc.find s.gameSessions sid = some sess →
      sess.player1 = -1 → sess.player2 ≠ -1 → reservedSession s.disconnectedClients sid := by
    intro sid sess hf h1 h2
    rw [hgs] at hf
    obtain ⟨n, hn⟩ := hco.reserved sid sess hf h1 h2
    rw [hdc]
    exact ⟨(n, sid), Assoc.mem_of_find _ _ _ hn, rfl⟩
  have hs : (s.gameSessions.map Prod.fst).Pairwise (fun a b => a < b) := by
    rw [hgs]
    exact hco.sorted
  obtain ⟨sid0, sess0, hc0⟩ := hcand
  have hj0 := (joinCandidate_iff s hres hs sid0 sess0).1 hc0
  cases hfind : s.gameSessions.find? (joinable s.disconnectedClients) with
  | none =>
    rw [List.find?_eq_none] at hfind
    exact absurd hj0.2 (hfind _ hj0.1)
  | some p =>
    obtain ⟨sid, sess⟩ := p
    have hj : joinable s.disconnectedClients (sid, sess) = true := List.find?_some hfind
    have hmem : (sid, sess) ∈ s.gameSessions := List.mem_of_find?_eq_some hfind
    have hcd : joinCandidate s sid sess := (joinCandidate_iff s hres hs sid sess).2 ⟨hmem, hj⟩
    have hjp := (joinable_eq_true _ _).1 hj
    refine ⟨sid, sess, _, hcd, ?_, hjp.1, hjp.2.1,
      assignClientToSession_join_eq draws s c sid nick sess hnick hnores hfind, rfl, ?_, ?_⟩
    · intro sid' sess' hc'
      have hj' := (joinCandidate_iff s hres hs sid' sess').1 hc'
      exact find?_first_sorted _ _ hs (sid, sess) (sid', sess') hfind hj'.1 hj'.2
    · exact Assoc.keys_insert_present _ sid sess _ hs hcd.1
    · intro sid' hr
      have hne : sid' ≠ sid := by
        rintro rfl
        exact hcd.2.2 hr
      exact Assoc.find_insert_ne _ _ _ _ hne

theorem assignClientToSession_join_witness :
    ∃ (sid : Int) (sess : GameSession) (s' : ServerState),
      joinCandidate bobNamed sid sess ∧
      (∀ sid' sess', joinCandidate bobNamed sid' sess' → sid ≤ sid') ∧
      sess.player1 ≠ -1 ∧ sess.player2 = -1 ∧
      assignClientToSession [] 5 bobNamed = some s' ∧
      s' =
        { bobNamed with
          gameSessions :=
            Assoc.insert bobNamed.gameSessions sid
              { sess with player2 := 5, currentTurn := sess.player1 }
          clientSessions := Assoc.insert bobNamed.clientSessions 5 sid
          sent := bobNamed.sent ++
            [(sess.player1, GAME_START), (5, GAME_START), (sess.player1, UR_TURN),
              (5, OPP_TURN)] } ∧
      s'.gameSessions.map Prod.fst = bobNamed.gameSessions.map Prod.fst ∧
      (∀ sid', reservedSession bobNamed.disconnectedClients sid' →
        Assoc.find s'.gameSessions sid' = Assoc.find bobNamed.gameSessions sid') :=
  assignClientToSession_join [] aliceWaits bobNamed 5 "bob".toList
    ⟨3, aliceWaitsTrace, by decide, by decide⟩ rfl rfl (by decide) (by decide)
    ⟨0, { player1 := 4, player2 := -1, secretNumber := "1234".toList, currentTurn := 4 },
      by decide, Or.inl ⟨by decide, by decide⟩, by
        rintro ⟨q, hq, _⟩
        simp [bobNamed, aliceWaits, sendMessage] at hq⟩

/-! ## Seating of the players -/

theorem Seated.keep {s t : ServerState} (h : Seated s)
    (h2 : t.clientSessions = s.clientSessions) (h3 : t.gameSessions = s.gameSessions) :
    Seated t := by
  refine ⟨?_, ?_⟩
  · rw [h2, h3]; exact h.seat
  · rw [h3]; exact h.distinct

theorem Seated.free {s : ServerState} (h : Seated s) (c : Int) (hc : c ≠ -1)
    (hfree : Assoc.find s.clientSessions c = none) (sid : Int) (sess : GameSession)
    (hs : Assoc.find s.gameSessions sid = some sess) :
    sess.player1 ≠ c ∧ sess.player2 ≠ c := by
  constructor
  · intro e
    have := h.seat sid sess c hs hc (Or.inl e)
    rw [hfree] at this
    exact absurd this (by simp)
  · intro e
    have := h.seat sid sess c hs hc (Or.inr e)
    rw [hfree] at this
    exact absurd this (by simp)

theorem vacate_occupant (c x : Int) (sess : GameSession) (hx : x ≠ -1)
    (hd : sess.player1 ≠ -1 → sess.player1 ≠ sess.player2)
    (h : (vacate c sess).player1 = x ∨ (vacate c sess).player2 = x) :
    (sess.player1 = x ∨ sess.player2 = x) ∧ x ≠ c := by
  unfold vacate at h
  by_cases h1 : sess.player1 = c
  · rw [if_pos h1] at h
    rcases h with h | h
    · exact absurd h.symm hx
    · simp only at h
      refine ⟨Or.inr h, ?_⟩
      intro e
      have hp1 : sess.player1 ≠ -1 := by rw [h1, ← e]; exact hx
      exact hd hp1 (by rw [h1, h, e])
  · rw [if_neg h1] at h
    rcases h with h | h
    · simp only at h
      exact ⟨Or.inl h, fun e => h1 (by rw [h, e])⟩
    · exact absurd h.symm hx

theorem vacate_distinct (c : Int) (sess : GameSession) :
    (vacate c sess).player1 ≠ -1 → (vacate c sess).player1 ≠ (vacate c sess).player2 := by
  unfold vacate
  by_cases h1 : sess.player1 = c
  · rw [if_pos h1]
    intro h
    exact absurd rfl h
  · rw [if_neg h1]
    intro h
    exact h

theorem Seated.disconnect {s : ServerState} (h : Seated s) (c : Int)
    (endgame : Bool) : Seated (handleDisconnect c endgame s) := by
  cases hb : Assoc.find s.clientSessions c with
  | none => rw [handleDisconnect_unbound c endgame s hb]; exact h
  | some sid =>
    rw [handleDisconnect_eq s c sid endgame hb]
    have hother : ∀ (sid' : Int) (x : Int), sid' ≠ sid →
        Assoc.find s.clientSessions x = some sid' →
          Assoc.find (Assoc.erase s.clientSessions c) x = some sid' := by
      intro sid' x hsid hx
      have hxc : x ≠ c := by
        intro e
        rw [e, hb] at hx
        simp only [Option.some.injEq] at hx
        exact hsid hx.symm
      rw [Assoc.find_erase_ne _ _ _ hxc]
      exact hx
    refine ⟨?_, ?_⟩
    · intro sid' sess' x hs' hx hslot
      simp only [] at hs' ⊢
      by_cases hsid : sid' = sid
      · subst hsid
        by_cases hg : (vacate c ((Assoc.find s.gameSessions sid').getD {})).player1 = -1 ∧
            (vacate c ((Assoc.find s.gameSessions sid').getD {})).player2 = -1
        · simp only [hg, and_self, if_true, Assoc.find_erase_self] at hs'
          exact absurd hs' (by simp)
        · simp only [hg, if_false, Assoc.find_insert_self, Option.some.injEq] at hs'
          subst hs'
          cases hf : Assoc.find s.gameSessions sid' with
          | none =>
            rw [hf] at hslot
            simp only [Option.getD_none, vacate] at hslot
            split_ifs at hslot <;> rcases hslot with e | e <;> exact absurd e.symm hx
          | some sess0 =>
            rw [hf] at hslot
            simp only [Option.getD_some] at hslot
            obtain ⟨hocc, hxc⟩ := vacate_occupant c x sess0 hx (h.distinct sid' sess0 hf) hslot
            rw [Assoc.find_erase_ne _ _ _ hxc]
            exact h.seat sid' sess0 x hf hx hocc
      · have hs0 : Assoc.find s.gameSessions sid' = some sess' := by
          split_ifs at hs'
          · rwa [Assoc.find_erase_ne _ _ _ hsid] at hs'
          · rwa [Assoc.find_insert_ne _ _ _ _ hsid] at hs'
        exact hother sid' x hsid (h.seat sid' sess' x hs0 hx hslot)
    · intro sid' sess' hs'
      simp only [] at hs'
      by_cases hsid : sid' = sid
      · subst hsid
        by_cases hg : (vacate c ((Assoc.find s.gameSessions sid').getD {})).player1 = -1 ∧
            (vacate c ((Assoc.find s.gameSessions sid').getD {})).player2 = -1
        · simp only [hg, and_self, if_true, Assoc.find_erase_self] at hs'
          exact absurd hs' (by simp)
        · simp only [hg, if_false, Assoc.find_insert_self, Option.some.injEq] at hs'
          subst hs'
          exact vacate_distinct c _
      · have hs0 : Assoc.find s.gameSessions sid' = some sess' := by
          split_ifs at hs'
          · rwa [Assoc.find_erase_ne _ _ _ hsid] at hs'
          · rwa [Assoc.find_insert_ne _ _ _ _ hsid] at hs'
        exact h.distinct sid' sess' hs0

theorem Seated.win {s : ServerState} (h : Seated s) (w : Int)
    (session : GameSession) : Seated (handleWinCondition w session s) := by
  unfold SemUPS.handleWinCondition
  simp only []
  apply Seated.disconnect
  apply Seated.disconnect
  exact h.keep rfl rfl

theorem Seated.update {s : ServerState} (h : Seated s) (sid : Int)
    (sess sess' : GameSession) (hs : Assoc.find s.gameSessions sid = some sess)
    (h1 : sess'.player1 = sess.player1) (h2 : sess'.player2 = sess.player2) :
    Seated { s with gameSessions := Assoc.insert s.gameSessions sid sess' } := by
  refine ⟨?_, ?_⟩
  · intro sid' y x hy hx hslot
    simp only [] at hy ⊢
    by_cases hsid : sid' = sid
    · subst hsid
      rw [Assoc.find_insert_self] at hy
      simp only [Option.some.injEq] at hy
      subst hy
      rw [h1, h2] at hslot
      exact h.seat sid' sess x hs hx hslot
    · rw [Assoc.find_insert_ne _ _ _ _ hsid] at hy
      exact h.seat sid' y x hy hx hslot
  · intro sid' y hy
    simp only [] at hy
    by_cases hsid : sid' = sid
    · subst hsid
      rw [Assoc.find_insert_self] at hy
      simp only [Option.some.injEq] at hy
      subst hy
      rw [h1, h2]
      exact h.distinct sid' sess hs
    · rw [Assoc.find_insert_ne _ _ _ _ hsid] at hy
      exact h.distinct sid' y hy

theorem Seated.lookups {s : ServerState} (h : Seated s) (c sid : Int) :
    Seated
      { s with
        clientSessions := (Assoc.index s.clientSessions c 0).2
        gameSessions := (Assoc.index s.gameSessions sid {}).2 } := by
  have hold : ∀ (sid' : Int) (y : GameSession),
      Assoc.find (Assoc.index s.gameSessions sid {}).2 sid' = some y →
        Assoc.find s.gameSessions sid' = some y ∨ (y.player1 = -1 ∧ y.player2 = -1) := by
    intro sid' y hy
    by_cases hsid : sid' = sid
    · subst hsid
      rw [Assoc.find_index_self] at hy
      simp only [Option.some.injEq] at hy
      cases hf : Assoc.find s.gameSessions sid' with
      | none =>
        rw [hf] at hy
        simp only [Option.getD_none] at hy
        subst hy
        exact Or.inr ⟨rfl, rfl⟩
      | some z =>
        rw [hf] at hy
        simp only [Option.getD_some] at hy
        subst hy
        exact Or.inl rfl
    · rw [Assoc.find_index_ne _ _ _ _ hsid] at hy
      exact Or.inl hy
  refine ⟨?_, ?_⟩
  · intro sid' y x hy hx hslot
    simp only [] at hy ⊢
    rcases hold sid' y hy with hy0 | ⟨e1, e2⟩
    · have hb := h.seat sid' y x hy0 hx hslot
      by_cases hxc : x = c
      · subst hxc
        rw [Assoc.find_index_self, hb]
        rfl
      · rw [Assoc.find_index_ne _ _ _ _ hxc]
        exact hb
    · rw [e1, e2] at hslot
      rcases hslot with e | e <;> exact absurd e.symm hx
  · intro sid' y hy
    simp only [] at hy
    rcases hold sid' y hy with hy0 | ⟨e1, _⟩
    · exact h.distinct sid' y hy0
    · intro hp
      exact absurd e1 hp

theorem Seated.gameMessage {s : ServerState} (h : Seated s) (c : Int) (raw : Str) :
    Seated (handleGameMessage c raw s) := by
  have h0 := h.lookups c (Assoc.index s.clientSessions c 0).1
  have hf0 : Assoc.find (Assoc.index s.gameSessions (Assoc.index s.clientSessions c 0).1 {}).2
      (Assoc.index s.clientSessions c 0).1 =
        some (Assoc.index s.gameSessions (Assoc.index s.clientSessions c 0).1 {}).1 := by
    rw [Assoc.find_index_self, ← Assoc.index_fst]
  simp only [SemUPS.handleGameMessage]
  generalize Assoc.index s.wrongTurnAttempts c 0 = iwt
  generalize Assoc.index s.gameSessions (Assoc.index s.clientSessions c 0).1 {} = igs
    at h0 hf0 ⊢
  generalize Assoc.index s.clientSessions c 0 = ics at h0 hf0 ⊢
  obtain ⟨sid, cs0⟩ := ics
  obtain ⟨sess, gs0⟩ := igs
  obtain ⟨n, wt0⟩ := iwt
  simp only at h0 hf0 ⊢
  split_ifs
  · have hA : Seated (sendMessage c WRONG_FORMAT
        { s with
          clientSessions := cs0
          gameSessions := gs0
          wrongTurnAttempts := Assoc.insert wt0 c (n + 1) }) :=
      h0.keep rfl rfl
    exact (hA.disconnect c false).keep rfl rfl
  · exact h0.keep rfl rfl
  · have hA : Seated (sendMessage c WRONG_FORMAT
        { s with
          clientSessions := cs0
          gameSessions := gs0
          wrongTurnAttempts := Assoc.insert s.wrongTurnAttempts c 0 }) :=
      h0.keep rfl rfl
    exact (hA.disconnect c false).keep rfl rfl
  · exact h0.keep rfl rfl
  · apply Seated.win
    have h1 := h0.update sid sess
      { sess with
        moveHistory :=
          sess.moveHistory ++ [guessResponse (trimTrailingNewline raw) sess.secretNumber] }
      hf0 rfl rfl
    exact h1.keep rfl rfl
  · simp only [switchPlayerTurn_eq, sendToBothPlayers, sendMessage]
    have h1 := h0.update sid sess
      { sess with
        moveHistory :=
          sess.moveHistory ++ [guessResponse (trimTrailingNewline raw) sess.secretNumber] }
      hf0 rfl rfl
    have h2 := h1.update sid _
      { sess with
        currentTurn := if sess.currentTurn = sess.player1 then sess.player2 else sess.player1
        moveHistory :=
          sess.moveHistory ++ [guessResponse (trimTrailingNewline raw) sess.secretNumber] }
      (Assoc.find_insert_self _ _ _) rfl rfl
    exact h2.keep rfl rfl

theorem Seated.assigned {s : ServerState} (h : Seated s) (c sid : Int)
    (hfree : Assoc.find s.clientSessions c = none) (sess' : GameSession) (t : ServerState)
    (hcs : t.clientSessions = Assoc.insert s.clientSessions c sid)
    (hgs : t.gameSessions = Assoc.insert s.gameSessions sid sess')
    (hocc : ∀ x, x ≠ -1 → sess'.player1 = x ∨ sess'.player2 = x →
      x = c ∨ ∃ old, Assoc.find s.gameSessions sid = some old ∧
        (old.player1 = x ∨ old.player2 = x))
    (hd : sess'.player1 ≠ -1 → sess'.player1 ≠ sess'.player2) : Seated t := by
  have hkeep : ∀ (sid' x : Int), Assoc.find s.clientSessions x = some sid' →
      Assoc.find (Assoc.insert s.clientSessions c sid) x = some sid' := by
    intro sid' x hx
    have hxc : x ≠ c := by
      intro e
      rw [e, hfree] at hx
      exact absurd hx (by simp)
    rw [Assoc.find_insert_ne _ _ _ _ hxc]
    exact hx
  refine ⟨?_, ?_⟩
  · intro sid' y x hy hx hslot
    rw [hgs] at hy
    rw [hcs]
    by_cases hsid : sid' = sid
    · subst hsid
      rw [Assoc.find_insert_self] at hy
      simp only [Option.some.injEq] at hy
      subst hy
      rcases hocc x hx hslot with rfl | ⟨old, hold, hoslot⟩
      · exact Assoc.find_insert_self _ _ _
      · exact hkeep sid' x (h.seat sid' old x hold hx hoslot)
    · rw [Assoc.find_insert_ne _ _ _ _ hsid] at hy
      exact hkeep sid' x (h.seat sid' y x hy hx hslot)
  · intro sid' y hy
    rw [hgs] at hy
    by_cases hsid : sid' = sid
    · subst hsid
      rw [Assoc.find_insert_self] at hy
      simp only [Option.some.injEq] at hy
      subst hy
      exact hd
    · rw [Assoc.find_insert_ne _ _ _ _ hsid] at hy
      exact h.distinct sid' y hy

theorem Seated.nicknameSetup {s s' : ServerState} (h : Seated s) (hco : Coherent s)
    (draws : List Nat) (c : Int) (raw : Str) (hc : c ≠ -1)
    (hun : (Assoc.find s.clientNicknames c).getD [] = [])
    (heq : handleNicknameSetup draws c raw s = some s') : Seated s' := by
  have hfree : Assoc.find s.clientSessions c = none := by
    cases hb : Assoc.find s.clientSessions c with
    | none => rfl
    | some sid =>
      obtain ⟨nick, hn, hne⟩ := hco.named c sid hb
      rw [hn] at hun
      exact absurd hun hne
  simp only [SemUPS.handleNicknameSetup] at heq
  split_ifs at heq with h1 h2
  · simp only [Option.some.injEq] at heq
    rw [← heq]
    exact h
  · simp only [Option.some.injEq] at heq
    rw [← heq]
    exact h.keep rfl rfl
  · generalize sanitizeNickname raw = nick at heq
    have hnick : Assoc.find
        (sendMessage c NICKNAME_SET
          { s with clientNicknames := Assoc.insert s.clientNicknames c nick }).clientNicknames c
          = some nick := Assoc.find_insert_self _ _ _
    cases hdir : Assoc.find s.disconnectedClients nick with
    | some sid =>
      rw [assignClientToSession_rejoin_eq_general draws _ c sid nick hnick hdir] at heq
      simp only [Option.some.injEq] at heq
      rw [← heq]
      refine h.assigned c sid hfree
        (rejoinSlot c ((Assoc.find s.gameSessions sid).getD {})) _ rfl rfl ?_ ?_
      · intro x hx hslot
        cases hf : Assoc.find s.gameSessions sid with
        | none =>
          rw [hf] at hslot
          simp only [Option.getD_none, rejoinSlot] at hslot
          split_ifs at hslot with hv
          · rcases hslot with e | e
            · exact Or.inl e.symm
            · exact absurd e.symm hx
          · exact absurd trivial hv
        | some old =>
          rw [hf] at hslot
          simp only [Option.getD_some, rejoinSlot] at hslot
          split_ifs at hslot with hv
          · rcases hslot with e | e
            · exact Or.inl e.symm
            · exact Or.inr ⟨old, rfl, Or.inr e⟩
          · rcases hslot with e | e
            · exact Or.inr ⟨old, rfl, Or.inl e⟩
            · exact Or.inl e.symm
      · cases hf : Assoc.find s.gameSessions sid with
        | none =>
          simp only [Option.getD_none, rejoinSlot]
          split_ifs with hv
          · intro _ e
            exact hc e
          · exact absurd trivial hv
        | some old =>
          have hfr := h.free c hc hfree sid old hf
          simp only [Option.getD_some, rejoinSlot]
          split_ifs with hv
          · intro _ e
            exact hfr.2 e.symm
          · intro _ e
            exact hfr.1 e
    | none =>
      cases hfind : s.gameSessions.find? (joinable s.disconnectedClients) with
      | some p =>
        obtain ⟨sid, sess⟩ := p
        rw [assignClientToSession_join_eq draws _ c sid nick sess hnick hdir hfind] at heq
        simp only [Option.some.injEq] at heq
        rw [← heq]
        have hmem : (sid, sess) ∈ s.gameSessions := List.mem_of_find?_eq_some hfind
        have hf : Assoc.find s.gameSessions sid = some sess :=
          Assoc.find_of_mem_sorted _ _ _ hco.sorted hmem
        have hfr := h.free c hc hfree sid sess hf
        refine h.assigned c sid hfree
          { sess with player2 := c, currentTurn := sess.player1 } _ rfl rfl ?_ ?_
        · intro x hx hslot
          rcases hslot with e | e
          · exact Or.inr ⟨sess, hf, Or.inl e⟩
          · exact Or.inl e.symm
        · intro _ e
          exact hfr.1 e
      | none =>
        rw [assignClientToSession_create_eq draws _ c nick hnick hdir hfind] at heq
        cases hsec : generateSecretNumber draws with
        | none =>
          rw [hsec] at heq
          exact absurd heq (by simp)
        | some secret =>
          rw [hsec] at heq
          simp only [Option.map_some', Option.some.injEq] at heq
          rw [← heq]
          refine h.assigned c _ hfree
            { player1 := c, player2 := -1, secretNumber := secret, currentTurn := c,
              moveHistory := [] } _ rfl rfl ?_ ?_
          · intro x hx hslot
            rcases hslot with e | e
            · exact Or.inl e.symm
            · exact absurd e.symm hx
          · intro _ e
            exact hc e

theorem handleNewConnection_sessions (fd : Int) (s : ServerState) :
    (handleNewConnection fd s).clientSessions = s.clientSessions ∧
      (handleNewConnection fd s).gameSessions = s.gameSessions := by
  unfold handleNewConnection
  by_cases h1 : fd = -1
  · simp only [h1, if_true, and_self]
  · simp only [h1, if_false, sendMessage]
    split_ifs <;> exact ⟨rfl, rfl⟩

theorem step_seated (s : ServerState) (e : Event) (s' : ServerState)
    (h : Coherent s ∧ Seated s) (hstep : step s e = some s') : Coherent s' ∧ Seated s' := by
  refine ⟨step_coherent s e s' h.1 hstep, ?_⟩
  obtain ⟨hco, hse⟩ := h
  unfold step at hstep
  split_ifs at hstep with hen
  cases e with
  | connect fd =>
    simp only [Option.some.injEq] at hstep
    rw [← hstep]
    exact hse.keep (handleNewConnection_sessions fd s).1 (handleNewConnection_sessions fd s).2
  | data fd message draws =>
    simp only [Event.enabled, Bool.and_eq_true, decide_eq_true_eq] at hen
    have hfd : 0 ≤ fd := hco.descriptors fd hen.1.1.1.1
    have hc : fd ≠ -1 := by omega
    simp only [handleClientData, processClientMessage] at hstep
    split_ifs at hstep with hping hempty
    · simp only [Option.some.injEq] at hstep
      rw [← hstep]
      exact hse
    · have hse0 : Seated { s with clientNicknames := (Assoc.index s.clientNicknames fd []).2 } :=
        hse.keep rfl rfl
      refine hse0.nicknameSetup (hco.index_names fd) draws fd message hc ?_ hstep
      show (Assoc.find (Assoc.index s.clientNicknames fd []).2 fd).getD [] = []
      rw [Assoc.find_index_self, ← Assoc.index_fst]
      simp only [Option.getD_some]
      cases hn : (Assoc.index s.clientNicknames fd []).1 with
      | nil => rfl
      | cons a l =>
        rw [hn] at hempty
        exact absurd hempty (by simp)
    · simp only [Option.some.injEq] at hstep
      rw [← hstep]
      have hse0 : Seated { s with clientNicknames := (Assoc.index s.clientNicknames fd []).2 } :=
        hse.keep rfl rfl
      exact hse0.gameMessage fd message
  | hangup fd =>
    simp only [handleClientData, Option.some.injEq] at hstep
    rw [← hstep]
    apply Seated.disconnect
    exact hse.keep rfl rfl

theorem reachable_seated (s : ServerState) (h : Reachable s) : Seated s := by
  have key := reachable_invariant (fun t => Coherent t ∧ Seated t)
    (fun ss hss => ⟨initialState_coherent ss hss, by
      refine ⟨?_, ?_⟩
      · intro sid sess x hs
        simp [initialState, Assoc.find] at hs
      · intro sid sess hs
        simp [initialState, Assoc.find] at hs⟩)
    step_seated s h
  exact key.2

/-! ## Winning a game, in reachable states -/

/-- Win by a turn holder seated in its session: in every reachable state, for a
session with both slots occupied whose turn holder `c` is one of its two players, a valid guess of `c` that
equals the secret makes `handleGameMessage` send the result line to slot 1 and
slot 2, then `WIN` to `c`, `LOST` to the opponent (the client in the other
slot), `EG` to `c` and `EG` to the opponent, and nothing else (no `OD`);
afterwards the session is not in the registry, neither player has a nickname
binding or a session association, and no reservation points at the session. -/
theorem handleGameMessage_win_teardown (s : ServerState) (hreach : Reachable s) (c sid : Int)
    (sess : GameSession) (m raw : Str)
    (hsess : Assoc.find s.gameSessions sid = some sess)
    (hp1 : sess.player1 ≠ -1) (hp2 : sess.player2 ≠ -1)
    (hslot : sess.player1 = c ∨ sess.player2 = c)
    (hturn : sess.currentTurn = c)
    (hvalid : isValidGuess m = .VALID_GUESS)
    (hraw : raw = m ∨ raw = m ++ ['\n'])
    (hsecret : m.drop 1 = sess.secretNumber) :
    (handleGameMessage c raw s).sent =
        s.sent ++
          [(sess.player1, m ++ "B4C0\n".toList), (sess.player2, m ++ "B4C0\n".toList),
            (c, "WIN\n".toList), (opponentOf c sess, "LOST\n".toList), (c, "EG\n".toList),
            (opponentOf c sess, "EG\n".toList)] ∧
      opponentOf c sess ≠ c ∧ opponentOf c sess ≠ -1 ∧
      (sess.player1 = opponentOf c sess ∨ sess.player2 = opponentOf c sess) ∧
      Assoc.find (handleGameMessage c raw s).gameSessions sid = none ∧
      Assoc.find (handleGameMessage c raw s).clientNicknames c = none ∧
      Assoc.find (handleGameMessage c raw s).clientNicknames (opponentOf c sess) = none ∧
      Assoc.find (handleGameMessage c raw s).clientSessions c = none ∧
      Assoc.find (handleGameMessage c raw s).clientSessions (opponentOf c sess) = none ∧
      (∀ p ∈ (handleGameMessage c raw s).disconnectedClients, p.2 ≠ sid) := by
  have hse := reachable_seated s hreach
  have hc : c ≠ -1 := by
    rcases hslot with e | e
    · rw [← e]; exact hp1
    · rw [← e]; exact hp2
  have hbound : Assoc.find s.clientSessions c = some sid := hse.seat sid sess c hsess hc hslot
  have hd := hse.distinct sid sess hsess hp1
  have hslots : (sess.player1 = c ∧ sess.player2 = opponentOf c sess) ∨
      (sess.player1 = opponentOf c sess ∧ sess.player2 = c) := by
    unfold opponentOf
    by_cases h1 : sess.player1 = c
    · rw [if_pos h1]
      exact Or.inl ⟨h1, rfl⟩
    · rw [if_neg h1]
      exact Or.inr ⟨rfl, hslot.resolve_left h1⟩
  have hopp : opponentOf c sess ≠ -1 := by
    unfold opponentOf
    split_ifs
    · exact hp2
    · exact hp1
  have hdiff : opponentOf c sess ≠ c := by
    unfold opponentOf
    by_cases h1 : sess.player1 = c
    · rw [if_pos h1]
      intro e
      exact hd (by rw [h1, e])
    · rw [if_neg h1]
      exact h1
  have hinslot : sess.player1 = opponentOf c sess ∨ sess.player2 = opponentOf c sess := by
    rcases hslots with ⟨_, h2⟩ | ⟨h1, _⟩
    · exact Or.inr h2
    · exact Or.inl h1
  have hoppbound : Assoc.find s.clientSessions (opponentOf c sess) = some sid :=
    hse.seat sid sess _ hsess hopp hinslot
  obtain ⟨h1, h2, h3, h4, h5, h6, h7⟩ :=
    handleGameMessage_win_effect s c (opponentOf c sess) sid sess m raw hbound hsess hturn
      hslots hc hopp hdiff hoppbound hvalid hraw hsecret
  exact ⟨h1, hdiff, hopp, hinslot, h2, h3, h4, h5, h6, h7⟩

theorem handleGameMessage_win_teardown_witness :
    (handleGameMessage 4 "G1234\n".toList twoPlayers).sent =
        twoPlayers.sent ++
          [(twoPlayersSession.player1, "G1234".toList ++ "B4C0\n".toList),
            (twoPlayersSession.player2, "G1234".toList ++ "B4C0\n".toList),
            (4, "WIN\n".toList), (opponentOf 4 twoPlayersSession, "LOST\n".toList),
            (4, "EG\n".toList), (opponentOf 4 twoPlayersSession, "EG\n".toList)] ∧
      opponentOf 4 twoPlayersSession ≠ 4 ∧ opponentOf 4 twoPlayersSession ≠ -1 ∧
      (twoPlayersSession.player1 = opponentOf 4 twoPlayersSession ∨
        twoPlayersSession.player2 = opponentOf 4 twoPlayersSession) ∧
      Assoc.find (handleGameMessage 4 "G1234\n".toList twoPlayers).gameSessions 0 = none ∧
      Assoc.find (handleGameMessage 4 "G1234\n".toList twoPlayers).clientNicknames 4 = none ∧
      Assoc.find (handleGameMessage 4 "G1234\n".toList twoPlayers).clientNicknames
        (opponentOf 4 twoPlayersSession) = none ∧
      Assoc.find (handleGameMessage 4 "G1234\n".toList twoPlayers).clientSessions 4 = none ∧
      Assoc.find (handleGameMessage 4 "G1234\n".toList twoPlayers).clientSessions
        (opponentOf 4 twoPlayersSession) = none ∧
      (∀ p ∈ (handleGameMessage 4 "G1234\n".toList twoPlayers).disconnectedClients,
        p.2 ≠ 0) :=
  handleGameMessage_win_teardown twoPlayers ⟨3, twoPlayersTrace, by decide, by decide⟩ 4 0
    twoPlayersSession "G1234".toList "G1234\n".toList (by decide) (by decide) (by decide)
    (by decide) (by decide) (by decide) (by decide) (by decide)

/-! ## Keep-alive messages -/

theorem containsSubstring_iff (pat hay : Str) :
    containsSubstring pat hay = true ↔ List.IsInfix pat hay := by
  induction hay with
  | nil =>
    simp only [containsSubstring, List.isEmpty_iff]
    constructor
    · rintro rfl
      exact List.infix_refl _
    · intro h
      exact List.eq_nil_of_infix_nil h
  | cons c rest ih =>
    simp only [containsSubstring, Bool.or_eq_true, List.isPrefixOf_iff_prefix, ih]
    rw [List.infix_cons_iff]

/-- C21: for every client and every message that contains `PING` somewhere,
`processClientMessage` returns the state it was given: nothing is sent and no
nickname, session, association, reservation or wrong-turn counter changes. -/
theorem processClientMessage_ping (draws : List Nat) (c : Int) (message : Str)
    (s : ServerState) (h : List.IsInfix "PING".toList message) :
    processClientMessage draws c message s = some s := by
  have hp : isPingMessage message = true := (containsSubstring_iff _ _).2 h
  simp only [processClientMessage, hp, if_true]

theorem processClientMessage_ping_witness :
    processClientMessage [] 4 "G12PING34\n".toList twoPlayers = some twoPlayers :=
  processClientMessage_ping [] 4 "G12PING34\n".toList twoPlayers
    ⟨"G12".toList, "34\n".toList, rfl⟩

/-! ## Scoring, common digits and symmetry -/

theorem bullsAndCowsLoop_sum_eq (guess secret : Str) (hlen : guess.length ≤ secret.length)
    (n i : Nat) (acc : Nat × Nat) (hn : i + n = guess.length) :
    (bullsAndCowsLoop guess secret n i acc).1 + (bullsAndCowsLoop guess secret n i acc).2 =
      acc.1 + acc.2 + ((guess.drop i).filter (fun x => decide (x ∈ secret))).length := by
  induction n generalizing i acc with
  | zero =>
    have hi : guess.length ≤ i := by omega
    simp [bullsAndCowsLoop, List.drop_of_length_le hi]
  | succ n ih =>
    obtain ⟨b, c⟩ := acc
    have hig : i < guess.length := by omega
    have his : i < secret.length := by omega
    have hdrop : guess.drop i = guess.get ⟨i, hig⟩ :: guess.drop (i + 1) :=
      (List.drop_eq_getElem_cons hig)
    have hg : guess.getD i (Char.ofNat 0) = guess.get ⟨i, hig⟩ := by
      rw [List.getD_eq_getElem _ _ hig, List.get_eq_getElem]
    have hs : secret.getD i (Char.ofNat 0) = secret.get ⟨i, his⟩ := by
      rw [List.getD_eq_getElem _ _ his, List.get_eq_getElem]
    have hfilt : ((guess.drop i).filter (fun x => decide (x ∈ secret))).length =
        (if guess.get ⟨i, hig⟩ ∈ secret then 1 else 0) +
          ((guess.drop (i + 1)).filter (fun x => decide (x ∈ secret))).length := by
      rw [hdrop, List.filter_cons]
      by_cases hm : guess.get ⟨i, hig⟩ ∈ secret
      · simp only [hm, decide_True, if_true, List.length_cons]
        omega
      · simp only [hm, decide_False, if_false]
        simp
    unfold bullsAndCowsLoop
    rw [hg, hs, hfilt]
    by_cases h1 : guess.get ⟨i, hig⟩ = secret.get ⟨i, his⟩
    · have hmem : guess.get ⟨i, hig⟩ ∈ secret := by
        rw [h1]
        exact List.get_mem _ _ _
      rw [if_pos h1, if_pos hmem, ih (i + 1) (b + 1, c) (by omega)]
      simp only
      omega
    · by_cases h2 : guess.get ⟨i, hig⟩ ∈ secret
      · rw [if_neg h1, if_pos h2, if_pos h2, ih (i + 1) (b, c + 1) (by omega)]
        simp only
        omega
      · rw [if_neg h1, if_neg h2, if_neg h2, ih (i + 1) (b, c) (by omega)]
        simp only
        omega

theorem bullsAndCowsLoop_bulls_symm (a b : Str) (n i : Nat) (acc acc' : Nat × Nat)
    (h : acc.1 = acc'.1) :
    (bullsAndCowsLoop a b n i acc).1 = (bullsAndCowsLoop b a n i acc').1 := by
  induction n generalizing i acc acc' with
  | zero => simpa [bullsAndCowsLoop] using h
  | succ n ih =>
    obtain ⟨x, y⟩ := acc
    obtain ⟨x', y'⟩ := acc'
    simp only at h
    subst h
    unfold bullsAndCowsLoop
    by_cases h1 : a.getD i (Char.ofNat 0) = b.getD i (Char.ofNat 0)
    · rw [if_pos h1, if_pos h1.symm]
      exact ih (i + 1) _ _ rfl
    · have h1' : ¬ b.getD i (Char.ofNat 0) = a.getD i (Char.ofNat 0) := fun e => h1 e.symm
      rw [if_neg h1, if_neg h1']
      split_ifs <;> exact ih (i + 1) _ _ rfl

theorem filter_mem_length_eq_commonDigits (a b : Str) (ha : a.Nodup) :
    (a.filter (fun x => decide (x ∈ b))).length = commonDigits a b := by
  unfold commonDigits
  rw [← List.toFinset_card_of_nodup (ha.filter _)]
  congr 1
  ext x
  simp [List.mem_filter]

theorem calculateBullsAndCows_sum (a b : Str) (ha : a.Nodup) (hlen : a.length ≤ b.length) :
    (calculateBullsAndCows a b).1 + (calculateBullsAndCows a b).2 = commonDigits a b := by
  unfold calculateBullsAndCows
  rw [bullsAndCowsLoop_sum_eq a b hlen a.length 0 (0, 0) (by omega)]
  simp [filter_mem_length_eq_commonDigits a b ha]

/-- C25: for a guess and a secret of 4 pairwise distinct decimal digits each,
the bulls and cows returned by `calculateBullsAndCows` add up to the number of
digits the two strings have in common, and exchanging the two strings gives the
same pair. -/
theorem calculateBullsAndCows_common_symm (guess secret : Str)
    (hg : FourDistinctDigits guess) (hs : FourDistinctDigits secret) :
    (calculateBullsAndCows guess secret).1 + (calculateBullsAndCows guess secret).2 =
        commonDigits guess secret ∧
      calculateBullsAndCows guess secret = calculateBullsAndCows secret guess := by
  have h1 := calculateBullsAndCows_sum guess secret hg.2.2 (by rw [hg.1, hs.1])
  have h2 := calculateBullsAndCows_sum secret guess hs.2.2 (by rw [hg.1, hs.1])
  have hc : commonDigits secret guess = commonDigits guess secret := by
    unfold commonDigits
    rw [Finset.inter_comm]
  have hb : (calculateBullsAndCows guess secret).1 = (calculateBullsAndCows secret guess).1 := by
    unfold calculateBullsAndCows
    rw [hg.1, hs.1]
    exact bullsAndCowsLoop_bulls_symm guess secret 4 0 (0, 0) (0, 0) rfl
  refine ⟨h1, Prod.ext hb ?_⟩
  omega

theorem calculateBullsAndCows_common_symm_witness :
    (calculateBullsAndCows "1243".toList "1235".toList).1 +
          (calculateBullsAndCows "1243".toList "1235".toList).2 =
        commonDigits "1243".toList "1235".toList ∧
      calculateBullsAndCows "1243".toList "1235".toList =
        calculateBullsAndCows "1235".toList "1243".toList :=
  calculateBullsAndCows_common_symm "1243".toList "1235".toList (by decide) (by decide)

/-! ## Named clients and session associations -/

theorem NamedAssociated.carry {s t : ServerState} (h : NamedAssociated s)
    (hn : NoNewNames s.clientNicknames t.clientNicknames)
    (hcs : ∀ a, Associated s a → Associated t a) : NamedAssociated t := by
  rintro a ⟨nick, ha, hne⟩
  exact hcs a (h a ⟨nick, hn a nick hne ha, hne⟩)

theorem NamedAssociated.same {s t : ServerState} (h : NamedAssociated s)
    (h1 : t.clientNicknames = s.clientNicknames) (h2 : t.clientSessions = s.clientSessions) :
    NamedAssociated t := by
  apply h.carry
  · rw [h1]; exact NoNewNames.refl _
  · intro a ha
    unfold Associated at ha ⊢
    rw [h2]; exact ha

theorem NamedAssociated.drop {s : ServerState} (h : NamedAssociated s) (c : Int)
    (endgame : Bool) : NamedAssociated (handleDisconnect c endgame s) := by
  cases hb : Assoc.find s.clientSessions c with
  | none => rw [handleDisconnect_unbound c endgame s hb]; exact h
  | some sid =>
    rw [handleDisconnect_eq s c sid endgame hb]
    rintro a ⟨nick, ha, hne⟩
    simp only [] at ha
    have hac : a ≠ c := by
      intro e
      rw [e, Assoc.find_erase_self] at ha
      exact absurd ha (by simp)
    rw [Assoc.find_erase_ne _ _ _ hac] at ha
    obtain ⟨sid', hs'⟩ := h a ⟨nick, ha, hne⟩
    refine ⟨sid', ?_⟩
    simp only []
    rw [Assoc.find_erase_ne _ _ _ hac]
    exact hs'

theorem NamedAssociated.won {s : ServerState} (h : NamedAssociated s) (w : Int)
    (session : GameSession) : NamedAssociated (handleWinCondition w session s) := by
  unfold SemUPS.handleWinCondition
  simp only []
  apply NamedAssociated.drop
  apply NamedAssociated.drop
  exact h.same rfl rfl

theorem NamedAssociated.looked_up {s : ServerState} (h : NamedAssociated s) (c : Int)
    (gs : List (Int × GameSession)) :
    NamedAssociated
      { s with clientSessions := (Assoc.index s.clientSessions c 0).2, gameSessions := gs } := by
  refine NamedAssociated.carry h (fun _ _ _ hb => hb) ?_
  rintro a ⟨sid, ha⟩
  by_cases hac : a = c
  · subst hac
    exact ⟨_, Assoc.find_index_self _ _ _⟩
  · exact ⟨sid, by
      show Assoc.find (Assoc.index s.clientSessions c 0).2 a = some sid
      rw [Assoc.find_index_ne _ _ _ _ hac]
      exact ha⟩

theorem NamedAssociated.played {s : ServerState} (h : NamedAssociated s) (c : Int)
    (raw : Str) : NamedAssociated (handleGameMessage c raw s) := by
  have h0 := h.looked_up c
    (Assoc.index s.gameSessions (Assoc.index s.clientSessions c 0).1 {}).2
  simp only [SemUPS.handleGameMessage]
  generalize Assoc.index s.wrongTurnAttempts c 0 = iwt
  generalize Assoc.index s.gameSessions (Assoc.index s.clientSessions c 0).1 {} = igs
    at h0 ⊢
  generalize Assoc.index s.clientSessions c 0 = ics at h0 ⊢
  obtain ⟨sid, cs0⟩ := ics
  obtain ⟨sess, gs0⟩ := igs
  obtain ⟨n, wt0⟩ := iwt
  simp only at h0 ⊢
  split_ifs
  · have hA : NamedAssociated (sendMessage c WRONG_FORMAT
        { s with
          clientSessions := cs0
          gameSessions := gs0
          wrongTurnAttempts := Assoc.insert wt0 c (n + 1) }) :=
      h0.same rfl rfl
    exact (hA.drop c false).same rfl rfl
  · exact h0.same rfl rfl
  · have hA : NamedAssociated (sendMessage c WRONG_FORMAT
        { s with
          clientSessions := cs0
          gameSessions := gs0
          wrongTurnAttempts := Assoc.insert s.wrongTurnAttempts c 0 }) :=
      h0.same rfl rfl
    exact (hA.drop c false).same rfl rfl
  · exact h0.same rfl rfl
  · apply NamedAssociated.won
    exact h0.same rfl rfl
  · simp only [switchPlayerTurn_eq, sendToBothPlayers, sendMessage]
    exact h0.same rfl rfl

theorem assignClientToSession_bindings (draws : List Nat) (s s' : ServerState) (c : Int)
    (nick : Str) (hnick : Assoc.find s.clientNicknames c = some nick)
    (h : assignClientToSession draws c s = some s') :
    s'.clientNicknames = s.clientNicknames ∧
      ∃ sid, s'.clientSessions = Assoc.insert s.clientSessions c sid := by
  cases hdir : Assoc.find s.disconnectedClients nick with
  | some sid =>
    rw [assignClientToSession_rejoin_eq_general draws s c sid nick hnick hdir] at h
    simp only [Option.some.injEq] at h
    rw [← h]
    exact ⟨rfl, sid, rfl⟩
  | none =>
    cases hfind : s.gameSessions.find? (joinable s.disconnectedClients) with
    | some p =>
      obtain ⟨sid, sess⟩ := p
      rw [assignClientToSession_join_eq draws s c sid nick sess hnick hdir hfind] at h
      simp only [Option.some.injEq] at h
      rw [← h]
      exact ⟨rfl, sid, rfl⟩
    | none =>
      rw [assignClientToSession_create_eq draws s c nick hnick hdir hfind] at h
      cases hsec : generateSecretNumber draws with
      | none =>
        rw [hsec] at h
        exact absurd h (by simp)
      | some secret =>
        rw [hsec] at h
        simp only [Option.map_some', Option.some.injEq] at h
        rw [← h]
        exact ⟨rfl, _, rfl⟩

theorem NamedAssociated.set_up {s s' : ServerState} (h : NamedAssociated s)
    (draws : List Nat) (c : Int) (raw : Str)
    (heq : handleNicknameSetup draws c raw s = some s') : NamedAssociated s' := by
  simp only [SemUPS.handleNicknameSetup] at heq
  split_ifs at heq with h1 h2
  · simp only [Option.some.injEq] at heq
    rw [← heq]
    exact h
  · simp only [Option.some.injEq] at heq
    rw [← heq]
    exact h.same rfl rfl
  · obtain ⟨hcn, sid, hcs⟩ := assignClientToSession_bindings draws _ s' c
      (sanitizeNickname raw) (Assoc.find_insert_self _ _ _) heq
    rintro a ⟨nick, ha, hne⟩
    unfold Associated
    rw [hcs]
    rw [hcn] at ha
    simp only [sendMessage] at ha ⊢
    by_cases hac : a = c
    · subst hac
      exact ⟨sid, Assoc.find_insert_self _ _ _⟩
    · rw [Assoc.find_insert_ne _ _ _ _ hac] at ha ⊢
      exact h a ⟨nick, ha, hne⟩

theorem step_namedAssociated (s : ServerState) (e : Event) (s' : ServerState)
    (h : NamedAssociated s) (hstep : step s e = some s') : NamedAssociated s' := by
  unfold step at hstep
  split_ifs at hstep with hen
  cases e with
  | connect fd =>
    simp only [Option.some.injEq] at hstep
    rw [← hstep]
    apply h.carry (handleNewConnection_names fd s)
    intro a ha
    unfold Associated at ha ⊢
    rw [(handleNewConnection_sessions fd s).1]
    exact ha
  | data fd message draws =>
    simp only [handleClientData, processClientMessage] at hstep
    have h0 : NamedAssociated
        { s with clientNicknames := (Assoc.index s.clientNicknames fd []).2 } :=
      h.carry (NoNewNames.index _ _) (fun a ha => ha)
    split_ifs at hstep with hping hempty
    · simp only [Option.some.injEq] at hstep
      rw [← hstep]
      exact h
    · exact h0.set_up draws fd message hstep
    · simp only [Option.some.injEq] at hstep
      rw [← hstep]
      exact h0.played fd message
  | hangup fd =>
    simp only [handleClientData, Option.some.injEq] at hstep
    rw [← hstep]
    apply NamedAssociated.drop
    exact h.same rfl rfl

theorem reachable_namedAssociated (s : ServerState) (h : Reachable s) : NamedAssociated s := by
  apply reachable_invariant NamedAssociated ?_ step_namedAssociated s h
  rintro ss _ a ⟨nick, ha, _⟩
  simp [initialState, Assoc.find] at ha

/-- C24: in every reachable state a connection handle has a non-empty nickname
exactly when it has a session association. `processClientMessage` hands a
message that is not a keep-alive to `handleNicknameSetup` when the sender has no
non-empty nickname, and to `handleGameMessage` when it has one; in that case
the sender has a session association and the lookup `clientSessions[sender]`
returns it without adding an entry. -/
theorem reachable_named_iff_associated (s : ServerState) (hreach : Reachable s) (c : Int) :
    (Named s c ↔ Associated s c) ∧
      (∀ (draws : List Nat) (message : Str), isPingMessage message = false → ¬ Named s c →
        processClientMessage draws c message s =
          handleNicknameSetup draws c message
            { s with clientNicknames := (Assoc.index s.clientNicknames c []).2 }) ∧
      (∀ (draws : List Nat) (message : Str), isPingMessage message = false → Named s c →
        processClientMessage draws c message s = some (handleGameMessage c message s) ∧
          ∃ sid, Assoc.find s.clientSessions c = some sid ∧
            Assoc.index s.clientSessions c 0 = (sid, s.clientSessions)) := by
  have hna := reachable_namedAssociated s hreach
  have hco := reachable_coherent s hreach
  refine ⟨⟨hna c, ?_⟩, ?_, ?_⟩
  · rintro ⟨sid, hs⟩
    exact hco.named c sid hs
  · intro draws message hping hun
    have hempty : (Assoc.index s.clientNicknames c []).1.isEmpty = true := by
      rw [Assoc.index_fst]
      cases hf : Assoc.find s.clientNicknames c with
      | none => rfl
      | some nick =>
        cases nick with
        | nil => rfl
        | cons x xs => exact absurd ⟨x :: xs, hf, by simp⟩ hun
    simp only [processClientMessage, hping, hempty, if_true]
    simp
  · rintro draws message hping ⟨nick, hn, hne⟩
    obtain ⟨sid, hs⟩ := hna c ⟨nick, hn, hne⟩
    refine ⟨?_, sid, hs, Assoc.index_of_find _ _ _ _ hs⟩
    have hempty : nick.isEmpty = false := by
      cases nick with
      | nil => exact absurd rfl hne
      | cons x xs => rfl
    simp only [processClientMessage, hping, Assoc.index_of_find _ _ _ _ hn, hempty]
    simp

theorem reachable_named_iff_associated_witness :
    (Named twoPlayers 4 ↔ Associated twoPlayers 4) ∧
      (∀ (draws : List Nat) (message : Str), isPingMessage message = false →
        ¬ Named twoPlayers 4 →
        processClientMessage draws 4 message twoPlayers =
          handleNicknameSetup draws 4 message
            { twoPlayers with
              clientNicknames := (Assoc.index twoPlayers.clientNicknames 4 []).2 }) ∧
      (∀ (draws : List Nat) (message : Str), isPingMessage message = false →
        Named twoPlayers 4 →
        processClientMessage draws 4 message twoPlayers =
            some (handleGameMessage 4 message twoPlayers) ∧
          ∃ sid, Assoc.find twoPlayers.clientSessions 4 = some sid ∧
            Assoc.index twoPlayers.clientSessions 4 0 = (sid, twoPlayers.clientSessions)) :=
  reachable_named_iff_associated twoPlayers ⟨3, twoPlayersTrace, by decide, by decide⟩ 4

/-! ## Effects confined to the session of the client -/

theorem Assoc.mem_set_absent {κ α : Type} [DecidableEq κ] (m : List (κ × α)) (k : κ) (v : α)
    (h : Assoc.find m k = none) (p : κ × α) :
    p ∈ Assoc.set m k v ↔ p = (k, v) ∨ p ∈ m := by
  induction m with
  | nil => simp [Assoc.set]
  | cons q rest ih =>
    obtain ⟨k', v'⟩ := q
    by_cases hk : k' = k
    · simp [Assoc.find, hk] at h
    · simp only [Assoc.find, hk, if_false] at h
      simp only [Assoc.set, hk, if_false, List.mem_cons, ih h]
      tauto

theorem OthersUntouched.none_touched (sid : Int) (s : ServerState) : OthersUntouched sid s s :=
  ⟨fun _ _ => rfl, fun _ _ => Iff.rfl⟩

theorem OthersUntouched.chain {sid : Int} {s t u : ServerState} (h1 : OthersUntouched sid s t)
    (h2 : OthersUntouched sid t u) : OthersUntouched sid s u :=
  ⟨fun j hj => (h2.1 j hj).trans (h1.1 j hj), fun e he => (h2.2 e he).trans (h1.2 e he)⟩

theorem OthersUntouched.of_parts {sid : Int} {s t : ServerState}
    (hgs : ∀ j, j ≠ sid → Assoc.find t.gameSessions j = Assoc.find s.gameSessions j)
    (hdc : t.disconnectedClients = s.disconnectedClients) : OthersUntouched sid s t :=
  ⟨hgs, fun _ _ => by rw [hdc]⟩

theorem OthersUntouched.congr_right {sid : Int} {s t t' : ServerState}
    (h : OthersUntouched sid s t) (h1 : t'.gameSessions = t.gameSessions)
    (h2 : t'.disconnectedClients = t.disconnectedClients) : OthersUntouched sid s t' :=
  h.chain (OthersUntouched.of_parts (fun _ _ => by rw [h1]) h2)

theorem handleDisconnect_clientSessions (x : Int) (e : Bool) (s : ServerState) (a v : Int)
    (h : Assoc.find (handleDisconnect x e s).clientSessions a = some v) :
    Assoc.find s.clientSessions a = some v := by
  cases hb : Assoc.find s.clientSessions x with
  | none => rwa [handleDisconnect_unbound x e s hb] at h
  | some sid =>
    rw [handleDisconnect_eq s x sid e hb] at h
    simp only [] at h
    by_cases hax : a = x
    · rw [hax, Assoc.find_erase_self] at h
      exact absurd h (by simp)
    · rwa [Assoc.find_erase_ne _ _ _ hax] at h

theorem handleDisconnect_others {s : ServerState} (hco : Coherent s) (x : Int) (e : Bool)
    (sid : Int) (hb : ∀ sid', Assoc.find s.clientSessions x = some sid' → sid' = sid) :
    OthersUntouched sid s (handleDisconnect x e s) := by
  cases hx : Assoc.find s.clientSessions x with
  | none =>
    rw [handleDisconnect_unbound x e s hx]
    exact OthersUntouched.none_touched sid s
  | some sid' =>
    have hsid : sid' = sid := hb sid' hx
    subst hsid
    obtain ⟨nick, hnick, hne⟩ := hco.named x sid' hx
    have hres : Assoc.find s.disconnectedClients nick = none :=
      hco.noLiveReservation x nick hnick hne
    rw [handleDisconnect_eq s x sid' e hx]
    simp only [hnick, Option.getD_some]
    refine ⟨?_, ?_⟩
    · intro j hj
      simp only []
      split_ifs
      · exact Assoc.find_erase_ne _ _ _ hj
      · exact Assoc.find_insert_ne _ _ _ _ hj
    · intro entry hentry
      have hnot : entry ≠ (nick, sid') := by
        intro h
        rw [h] at hentry
        exact hentry rfl
      have hset : entry ∈ Assoc.set s.disconnectedClients nick sid' ↔
          entry ∈ s.disconnectedClients := by
        rw [Assoc.mem_set_absent _ _ _ hres]
        constructor
        · rintro (h | h)
          · exact absurd h hnot
          · exact h
        · exact Or.inr
      have hfil : ∀ m : List (Str × Int),
          entry ∈ m.filter (fun p => !decide (p.2 = sid')) ↔ entry ∈ m := by
        intro m
        rw [List.mem_filter]
        constructor
        · exact fun h => h.1
        · exact fun h => ⟨h, by simpa using hentry⟩
      simp only []
      split_ifs
      · rw [hfil, hset]
      · rw [hfil]
      · exact hset
      · exact Iff.rfl

theorem handleWinCondition_others {s : ServerState} (hco : Coherent s) (w : Int)
    (session : GameSession) (sid : Int)
    (hw : ∀ sid', Assoc.find s.clientSessions w = some sid' → sid' = sid)
    (hopp : ∀ sid',
      Assoc.find s.clientSessions
          (if session.player1 = w then session.player2 else session.player1) = some sid' →
        sid' = sid) :
    OthersUntouched sid s (handleWinCondition w session s) := by
  unfold handleWinCondition
  simp only []
  obtain ⟨A, hA⟩ : ∃ A, A =
      sendMessage (if session.player1 = w then session.player2 else session.player1)
        ENDGAME_MSG
        (sendMessage w ENDGAME_MSG
          (sendMessage (if session.player1 = w then session.player2 else session.player1)
            LOST_MSG (sendMessage w WIN_MSG s))) := ⟨_, rfl⟩
  rw [← hA]
  have hAco : Coherent A := by
    rw [hA]
    exact hco.of_fields rfl rfl rfl rfl (fun _ hfd => hfd)
  have hAs : OthersUntouched sid s A := by
    rw [hA]
    exact OthersUntouched.of_parts (fun _ _ => rfl) rfl
  have hAcs : A.clientSessions = s.clientSessions := by rw [hA]; rfl
  have h1 : OthersUntouched sid A (handleDisconnect w true A) :=
    handleDisconnect_others hAco w true sid (by rw [hAcs]; exact hw)
  have h2 : OthersUntouched sid (handleDisconnect w true A)
      (handleDisconnect (if session.player1 = w then session.player2 else session.player1)
        true (handleDisconnect w true A)) := by
    apply handleDisconnect_others (hAco.handleDisconnect w true)
    intro sid' hs'
    have := handleDisconnect_clientSessions w true A _ _ hs'
    rw [hAcs] at this
    exact hopp sid' this
  exact hAs.chain (h1.chain h2)

theorem handleGameMessage_others {s : ServerState} (hco : Coherent s) (hse : Seated s)
    (c sid : Int) (hb : Assoc.find s.clientSessions c = some sid) (raw : Str) :
    OthersUntouched sid s (handleGameMessage c raw s) := by
  have hnamed := hco.named c sid hb
  have hco0 := hco.index_lookups c hnamed sid
  have hse0 := hse.lookups c sid
  have hgs0 : ∀ j, j ≠ sid →
      Assoc.find (Assoc.index s.gameSessions sid {}).2 j = Assoc.find s.gameSessions j :=
    fun j hj => Assoc.find_index_ne _ _ _ _ hj
  have hf0 : Assoc.find (Assoc.index s.gameSessions sid {}).2 sid =
      some (Assoc.index s.gameSessions sid {}).1 := by
    rw [Assoc.find_index_self, ← Assoc.index_fst]
  simp only [Assoc.index_of_find _ _ _ _ hb] at hco0 hse0
  simp only [SemUPS.handleGameMessage, Assoc.index_of_find _ _ _ _ hb]
  generalize Assoc.index s.wrongTurnAttempts c 0 = iwt
  generalize Assoc.index s.gameSessions sid {} = igs at hco0 hse0 hgs0 hf0 ⊢
  obtain ⟨sess, gs0⟩ := igs
  obtain ⟨n, wt0⟩ := iwt
  simp only at hco0 hse0 hgs0 hf0 ⊢
  split_ifs with hturn hstrike hvalid hmarker hwin
  · obtain ⟨A, hA⟩ : ∃ A, A = sendMessage c WRONG_FORMAT
        { s with
          clientSessions := s.clientSessions
          gameSessions := gs0
          wrongTurnAttempts := Assoc.insert wt0 c (n + 1) } := ⟨_, rfl⟩
    rw [← hA]
    have hAco : Coherent A := by
      rw [hA]; exact hco0.of_fields rfl rfl rfl rfl (fun _ hfd => hfd)
    have hAs : OthersUntouched sid s A := by
      rw [hA]; exact OthersUntouched.of_parts hgs0 rfl
    have hAb : ∀ sid', Assoc.find A.clientSessions c = some sid' → sid' = sid := by
      rw [hA]
      intro sid' h'
      have h'' : Assoc.find s.clientSessions c = some sid' := h'
      rw [hb] at h''
      simp only [Option.some.injEq] at h''
      exact h''.symm
    exact (hAs.chain (handleDisconnect_others hAco c false sid hAb)).congr_right rfl rfl
  · exact OthersUntouched.of_parts hgs0 rfl
  · obtain ⟨A, hA⟩ : ∃ A, A = sendMessage c WRONG_FORMAT
        { s with
          clientSessions := s.clientSessions
          gameSessions := gs0
          wrongTurnAttempts := Assoc.insert s.wrongTurnAttempts c 0 } := ⟨_, rfl⟩
    rw [← hA]
    have hAco : Coherent A := by
      rw [hA]; exact hco0.of_fields rfl rfl rfl rfl (fun _ hfd => hfd)
    have hAs : OthersUntouched sid s A := by
      rw [hA]; exact OthersUntouched.of_parts hgs0 rfl
    have hAb : ∀ sid', Assoc.find A.clientSessions c = some sid' → sid' = sid := by
      rw [hA]
      intro sid' h'
      have h'' : Assoc.find s.clientSessions c = some sid' := h'
      rw [hb] at h''
      simp only [Option.some.injEq] at h''
      exact h''.symm
    exact (hAs.chain (handleDisconnect_others hAco c false sid hAb)).congr_right rfl rfl
  · exact OthersUntouched.of_parts hgs0 rfl
  · obtain ⟨sess', hsess'⟩ : ∃ sess' : GameSession, sess' =
        { sess with
          moveHistory :=
            sess.moveHistory ++ [guessResponse (trimTrailingNewline raw) sess.secretNumber] } :=
      ⟨_, rfl⟩
    rw [← hsess']
    obtain ⟨B, hB⟩ : ∃ B, B =
        sendToBothPlayers sess'
          (guessResponse (trimTrailingNewline raw) sess.secretNumber)
          { s with
            clientSessions := s.clientSessions
            gameSessions := Assoc.insert gs0 sid sess'
            wrongTurnAttempts := Assoc.insert s.wrongTurnAttempts c 0 } := ⟨_, rfl⟩
    rw [← hB]
    have hBco : Coherent B := by
      rw [hB]
      have h1 := hco0.update_session sid sess sess' hf0 (by rw [hsess']) (by rw [hsess'])
      exact h1.of_fields rfl rfl rfl rfl (fun _ hfd => hfd)
    have hBs : OthersUntouched sid s B := by
      rw [hB]
      refine OthersUntouched.of_parts ?_ rfl
      intro j hj
      show Assoc.find (Assoc.insert gs0 sid sess') j = _
      rw [Assoc.find_insert_ne _ _ _ _ hj]
      exact hgs0 j hj
    have hBcs : B.clientSessions = s.clientSessions := by rw [hB]; rfl
    have hp : sess.player1 ≠ -1 ∧ sess.player2 ≠ -1 := by
      constructor
      · intro h
        exact hturn (Or.inr (Or.inl h))
      · intro h
        exact hturn (Or.inr (Or.inr h))
    refine hBs.chain (handleWinCondition_others hBco c sess' sid ?_ ?_)
    · intro sid' h'
      rw [hBcs, hb] at h'
      simp only [Option.some.injEq] at h'
      exact h'.symm
    · intro sid' h'
      rw [hBcs] at h'
      have hslot : sess.player1 = (if sess'.player1 = c then sess'.player2 else sess'.player1) ∨
          sess.player2 = (if sess'.player1 = c then sess'.player2 else sess'.player1) := by
        rw [hsess']
        simp only
        split_ifs
        · exact Or.inr rfl
        · exact Or.inl rfl
      have hne : (if sess'.player1 = c then sess'.player2 else sess'.player1) ≠ -1 := by
        rw [hsess']
        simp only
        split_ifs
        · exact hp.2
        · exact hp.1
      have := hse0.seat sid sess _ hf0 hne hslot
      have h2 : Assoc.find s.clientSessions
          (if sess'.player1 = c then sess'.player2 else sess'.player1) = some sid := this
      rw [h2] at h'
      simp only [Option.some.injEq] at h'
      exact h'.symm
  · simp only [switchPlayerTurn_eq, sendToBothPlayers, sendMessage]
    refine OthersUntouched.of_parts ?_ rfl
    intro j hj
    simp only []
    rw [Assoc.find_insert_ne _ _ _ _ hj, Assoc.find_insert_ne _ _ _ _ hj]
    exact hgs0 j hj

/-- C22: in every reachable state, a named client `c` has a session
association `sid`, and neither `handleGameMessage` for `c` (on any message) nor
`handleDisconnect` for `c` changes another session: every session other than
`sid` has the same record afterwards (slots, secret, current turn, move
history), and the Reconnection Directory entries that point at a session other
than `sid` are the same before and after. -/
theorem others_untouched (s : ServerState) (hreach : Reachable s) (c : Int)
    (hnamed : Named s c) (raw : Str) (endgame : Bool) :
    ∃ sid, Assoc.find s.clientSessions c = some sid ∧
      OthersUntouched sid s (handleGameMessage c raw s) ∧
      OthersUntouched sid s (handleDisconnect c endgame s) := by
  have hco := reachable_coherent s hreach
  have hse := reachable_seated s hreach
  obtain ⟨sid, hb⟩ := reachable_namedAssociated s hreach c hnamed
  refine ⟨sid, hb, handleGameMessage_others hco hse c sid hb raw,
    handleDisconnect_others hco c endgame sid ?_⟩
  intro sid' h'
  rw [hb] at h'
  simp only [Option.some.injEq] at h'
  exact h'.symm

theorem others_untouched_witness :
    ∃ sid, Assoc.find bothGames.clientSessions 4 = some sid ∧
      OthersUntouched sid bothGames (handleGameMessage 4 "G1234\n".toList bothGames) ∧
      OthersUntouched sid bothGames (handleDisconnect 4 false bothGames) :=
  others_untouched bothGames ⟨3, bothGamesTrace, by decide, by decide⟩ 4
    ⟨"alice".toList, by decide, by decide⟩ "G1234\n".toList false

/-! ## Activity timestamps of the event loop -/

theorem acceptReady_above_fd_max (now h : Int) (ls : LoopState) (hh : h ≠ -1)
    (hmax : ls.server.fd_max < h) :
    Assoc.find (acceptReady now h ls).lastActivity h = some now ∧
      ∀ j, j ≠ h →
        Assoc.find (acceptReady now h ls).lastActivity j = Assoc.find ls.lastActivity j := by
  have hfd : (handleNewConnection h ls.server).fd_max = h := by
    unfold handleNewConnection
    simp only [hh, if_false, sendMessage]
    have : h > ls.server.fd_max := hmax
    simp only [this, if_true]
  unfold acceptReady
  simp only [hfd]
  exact ⟨Assoc.find_insert_self _ _ _, fun j hj => Assoc.find_insert_ne _ _ _ _ hj⟩

/-- C23 fails on the code: after 4 and 5 connected and 4 hung up, the loop
accepts a new connection on the free descriptor 4 at time 110. `fd_max` is
still 5, so `lastActivity[fd_max]` overwrites the timestamp of connection 5
(101 becomes 110), and the entry of descriptor 4 keeps 102, the time at which
the previous connection on that descriptor hung up. -/
theorem accept_records_at_fd_max :
    loopRun (initialLoopState 3) staleTrace = some staleLoop ∧
      loopStep 110 staleLoop (.connect 4) = some (acceptReady 110 4 staleLoop) ∧
      4 ∈ (acceptReady 110 4 staleLoop).server.master_set ∧
      (acceptReady 110 4 staleLoop).server.fd_max = 5 ∧
      Assoc.find staleLoop.lastActivity 5 = some 101 ∧
      Assoc.find (acceptReady 110 4 staleLoop).lastActivity 5 = some 110 ∧
      Assoc.find (acceptReady 110 4 staleLoop).lastActivity 4 = some 102 := by
  decide

/-! ## The invariants under the timeout sweep -/

theorem sweepInactive_invariant (P : ServerState → Prop)
    (hdisc : ∀ (s : ServerState) (c : Int), P s → P (closeSocket c (handleDisconnect c false s)))
    (currentTime : Int) (ls : LoopState) (h : P ls.server) :
    P (sweepInactive currentTime ls).server := by
  unfold sweepInactive
  generalize ls.lastActivity = entries
  induction entries generalizing ls with
  | nil => exact h
  | cons entry rest ih =>
    simp only [List.foldl_cons]
    apply ih
    split_ifs
    · exact hdisc _ _ h
    · exact h

theorem loopStep_server (now : Int) (ls ls' : LoopState) (e : Event)
    (h : loopStep now ls e = some ls') :
    step (sweepInactive now ls).server e = some ls'.server := by
  unfold loopStep at h
  unfold step
  simp only [] at h
  split_ifs at h ⊢ with hen
  cases e with
  | connect fd =>
    simp only [Option.some.injEq] at h
    rw [← h]
    rfl
  | data fd message draws =>
    simp only [clientReady, Option.map_eq_some'] at h
    obtain ⟨t, ht, hls⟩ := h
    rw [← hls]
    exact ht
  | hangup fd =>
    simp only [clientReady, Option.map_eq_some'] at h
    obtain ⟨t, ht, hls⟩ := h
    rw [← hls]
    exact ht

theorem loopRun_invariant (P : ServerState → Prop)
    (hdisc : ∀ (s : ServerState) (c : Int), P s → P (closeSocket c (handleDisconnect c false s)))
    (hstep : ∀ s e s', P s → step s e = some s' → P s') :
    ∀ (trace : List (Int × Event)) (ls ls' : LoopState), P ls.server →
      loopRun ls trace = some ls' → P ls'.server := by
  intro trace
  induction trace with
  | nil =>
    intro ls ls' hP h
    simp only [loopRun, Option.some.injEq] at h
    rw [← h]
    exact hP
  | cons te rest ih =>
    obtain ⟨now, e⟩ := te
    intro ls ls' hP h
    simp only [loopRun] at h
    cases h1 : loopStep now ls e with
    | none => rw [h1] at h; exact absurd h (by simp)
    | some ls1 =>
      rw [h1] at h
      simp only [Option.some_bind] at h
      refine ih ls1 ls' ?_ h
      exact hstep _ e _ (sweepInactive_invariant P hdisc now ls hP)
        (loopStep_server now ls ls1 e h1)

theorem loopRun_registries (server_socket : Int) (hs : 0 ≤ server_socket)
    (trace : List (Int × Event)) (ls : LoopState)
    (h : loopRun (initialLoopState server_socket) trace = some ls) :
    Coherent ls.server ∧ Seated ls.server ∧ NamedAssociated ls.server := by
  refine loopRun_invariant (fun s => Coherent s ∧ Seated s ∧ NamedAssociated s) ?_ ?_ trace
    (initialLoopState server_socket) ls ?_ h
  · rintro s c ⟨h1, h2, h3⟩
    refine ⟨?_, ?_, ?_⟩
    · exact (h1.handleDisconnect c false).of_fields rfl rfl rfl rfl
        (fun x hx => mem_FD_CLR _ _ _ hx)
    · exact (h2.disconnect c false).keep rfl rfl
    · exact (h3.drop c false).same rfl rfl
  · rintro s e s' ⟨h1, h2, h3⟩ hstep
    have h12 := step_seated s e s' ⟨h1, h2⟩ hstep
    exact ⟨h12.1, h12.2, step_namedAssociated s e s' h3 hstep⟩
  · refine ⟨initialState_coherent server_socket hs, ?_, ?_⟩
    · refine ⟨?_, ?_⟩
      · intro sid sess x hx
        simp [initialLoopState, initialState, Assoc.find] at hx
      · intro sid sess hx
        simp [initialLoopState, initialState, Assoc.find] at hx
    · rintro a ⟨nick, ha, _⟩
      simp [initialLoopState, initialState, Assoc.find] at ha

/-! ## A turn holder outside the slots of its session -/

/-- C4 fails on the code: in the reachable state `strayTurn` session 1 has both
slots occupied, by descriptors 4 and 6, and its turn holder is descriptor 5,
which is associated with session 1 and sits in no slot. The valid guess `G9013`
of descriptor 5 scores 3 bulls; the turn goes to slot 1, `UT` is sent to 4 and
`OT` to 6, and nothing is sent to the sender after the result lines. -/
theorem stray_turn_holder_guess :
    run (initialState 3) strayTrace = some strayTurn ∧
      Assoc.find strayTurn.clientSessions 5 = some 1 ∧
      Assoc.find strayTurn.gameSessions 1 = some strayTurnSession ∧
      strayTurnSession.player1 = 4 ∧ strayTurnSession.player2 = 6 ∧
      strayTurnSession.currentTurn = 5 ∧
      isValidGuess "G9013".toList = .VALID_GUESS ∧
      (calculateBullsAndCows "9013".toList strayTurnSession.secretNumber).1 = 3 ∧
      (handleGameMessage 5 "G9013\n".toList strayTurn).sent =
        strayTurn.sent ++
          [(4, "G9013B3C0\n".toList), (6, "G9013B3C0\n".toList), (4, "UT\n".toList),
            (6, "OT\n".toList)] ∧
      Assoc.find (handleGameMessage 5 "G9013\n".toList strayTurn).gameSessions 1 =
        some
          { strayTurnSession with
            currentTurn := 4
            moveHistory := ["G1234B0C2\n".toList, "G9013B3C0\n".toList] } := by
  decide

/-- C14 fails on the code: in the reachable state `strayTurn` the turn holder
of session 1, descriptor 5, guesses the secret. `WIN` and `EG` go to 5, `LOST`
and `EG` to descriptor 4 in slot 1, and nothing but the result line to
descriptor 6 in slot 2; afterwards the session is gone while descriptor 6 still
has its nickname binding and its association with session 1. -/
theorem stray_turn_holder_wins :
    run (initialState 3) strayTrace = some strayTurn ∧
      Assoc.find strayTurn.clientSessions 5 = some 1 ∧
      Assoc.find strayTurn.gameSessions 1 = some strayTurnSession ∧
      strayTurnSession.player1 = 4 ∧ strayTurnSession.player2 = 6 ∧
      strayTurnSession.currentTurn = 5 ∧
      isValidGuess "G9012".toList = .VALID_GUESS ∧
      "9012".toList = strayTurnSession.secretNumber ∧
      (handleGameMessage 5 "G9012\n".toList strayTurn).sent =
        strayTurn.sent ++
          [(4, "G9012B4C0\n".toList), (6, "G9012B4C0\n".toList), (5, "WIN\n".toList),
            (4, "LOST\n".toList), (5, "EG\n".toList), (4, "EG\n".toList)] ∧
      Assoc.find (handleGameMessage 5 "G9012\n".toList strayTurn).gameSessions 1 = none ∧
      Assoc.find (handleGameMessage 5 "G9012\n".toList strayTurn).clientNicknames 6 =
        some "carol".toList ∧
      Assoc.find (handleGameMessage 5 "G9012\n".toList strayTurn).clientSessions 6 = some 1 := by
  decide

/-! ## A reserved session and a newcomer -/

/-- C19 fails on the code: in the reachable state `reservedOnly` the only
session, identity 1, has the reservation of carol pointing at it and is no join
candidate. For erin, whose nickname has no reservation, `assignClientToSession`
creates a session under identity `gameSessions.size() = 1`: the record of
identity 1 now holds erin in slot 1, dave is no longer in it, and the
reservation of carol still points at identity 1. -/
theorem reserved_session_given_to_newcomer :
    run (initialState 3) reservedOnlyTrace = some reservedOnly ∧
      Assoc.find erinNamed.clientNicknames 4 = some "erin".toList ∧
      Assoc.find erinNamed.disconnectedClients "erin".toList = none ∧
      Assoc.find erinNamed.disconnectedClients "carol".toList = some 1 ∧
      Assoc.find erinNamed.gameSessions 1 =
        some { player1 := -1, player2 := 7, secretNumber := "5678".toList, currentTurn := 6 } ∧
      step reservedOnly (.data 4 "erin\n".toList [9, 0, 1, 2]) =
        assignClientToSession [9, 0, 1, 2] 4 erinNamed ∧
      assignClientToSession [9, 0, 1, 2] 4 erinNamed =
        some
          { erinNamed with
            gameSessions :=
              [(1, { player1 := 4, player2 := -1, secretNumber := "9012".toList,
                     currentTurn := 4 })]
            clientSessions := [(4, 1), (7, 1)] } ∧
      Assoc.find
          { erinNamed with
            gameSessions :=
              [(1, { player1 := 4, player2 := -1, secretNumber := "9012".toList,
                     currentTurn := 4 })]
            clientSessions := [(4, 1), (7, 1)] }.disconnectedClients "carol".toList =
        some 1 := by
  decide

end SemUPS
